import Mathlib

/-!
# RTOS Timer Manager: a shallow embedding of `TimerAPI.c`

The C program keeps its timers in heap objects linked through raw
`RTOSTmrNext` / `RTOSTmrPrev` pointers.  The embedding keeps that pointer
structure: memory is a map from addresses to timer objects, a pointer is an
`Option Nat` (`none` is `NULL`), and every C statement becomes an update of
the state record `TimerManager` that holds the global variables of
`TimerAPI.c`.

Code that may fail to return (a second `pthread_mutex_lock` on a mutex
that is still held, a member access or a call through `NULL`, a loop that
does not finish) returns `Except Fault _`.  Loops take a `fuel` argument
that bounds their number of iterations.

Unsigned machine integers are natural numbers reduced modulo `2^32`
(`INT32U`) or `2^8` (`INT8U`) where the C arithmetic can wrap.
-/

namespace TimerMgr

/-! ## Constants of the headers -/

/-- Modelled from the spec: `TypeDefines.h` is not among the sources; `INT32U`
is the 32-bit unsigned type (the spec speaks of a single unsigned tick
counter), so its arithmetic is modulo this number. -/
def U32 : Nat := 4294967296

/-- Modelled from the spec: `TypeDefines.h` is not among the sources; `INT8U`
is the 8-bit unsigned type named by its identifier, so its arithmetic is
modulo this number. -/
def U8 : Nat := 256

/-- Modelled from the spec: `TypeDefines.h` is not among the sources; the
boolean failure value returned by the API (`start(handle) -> bool`). -/
def RTOS_FALSE : Nat := 0

/-- Modelled from the spec: `TypeDefines.h` is not among the sources; the
boolean success value returned by the API (`start(handle) -> bool`). -/
def RTOS_TRUE : Nat := 1

/-- Modelled from the spec: `TimerMgrHeader.h` is not among the sources; the
sentinel stored in `RTOSTmrType` of every live timer object (`typeTag`).
Only comparisons with this value matter. -/
def RTOS_TMR_TYPE : Nat := 100

/-- Modelled from the spec: `TimerMgrHeader.h` is not among the sources; state
`Unused`.  The four state codes are pairwise different; nothing else about
their values is used. -/
def RTOS_TMR_STATE_UNUSED : Nat := 0

/-- Modelled from the spec: `TimerMgrHeader.h` is not among the sources; state
`Stopped`. -/
def RTOS_TMR_STATE_STOPPED : Nat := 1

/-- Modelled from the spec: `TimerMgrHeader.h` is not among the sources; state
`Running`. -/
def RTOS_TMR_STATE_RUNNING : Nat := 2

/-- Modelled from the spec: `TimerMgrHeader.h` is not among the sources; state
`Completed`. -/
def RTOS_TMR_STATE_COMPLETED : Nat := 3

/-- Modelled from the spec: `TimerMgrHeader.h` is not among the sources; mode
`OneShot`.  The two mode codes are different; nothing else is used. -/
def RTOS_TMR_ONE_SHOT : Nat := 1

/-- Modelled from the spec: `TimerMgrHeader.h` is not among the sources; mode
`Periodic`. -/
def RTOS_TMR_PERIODIC : Nat := 2

/-- Modelled from the spec: `TimerMgrHeader.h` is not among the sources; stop
option `None`.  The three option codes are pairwise different. -/
def RTOS_TMR_OPT_NONE : Nat := 0

/-- Modelled from the spec: `TimerMgrHeader.h` is not among the sources; stop
option `InvokeCallback`. -/
def RTOS_TMR_OPT_CALLBACK : Nat := 1

/-- Modelled from the spec: `TimerMgrHeader.h` is not among the sources; stop
option `InvokeCallbackWithArg`. -/
def RTOS_TMR_OPT_CALLBACK_ARG : Nat := 2

/-- Modelled from the spec: `TimerMgrHeader.h` is not among the sources; the
error kinds of section 7 of the spec, one constructor per macro that
`TimerAPI.c` stores through `perr`.  The code never compares two error
codes, so only their names are used. -/
inductive RTOS_ERR where
  | RTOS_ERR_NONE
  | RTOS_SUCCESS
  | RTOS_ERR_TMR_INVALID
  | RTOS_ERR_TMR_INVALID_TYPE
  | RTOS_ERR_TMR_INACTIVE
  | RTOS_ERR_TMR_INVALID_STATE
  | RTOS_ERR_TMR_INVALID_DLY
  | RTOS_ERR_TMR_INVALID_PERIOD
  | RTOS_ERR_TMR_INVALID_OPT
  | RTOS_ERR_TMR_NON_AVAIL
  | RTOS_ERR_TMR_STOPPED
  | RTOS_ERR_TMR_NO_CALLBACK
  deriving DecidableEq, Repr

open RTOS_ERR

/-- The ways in which a C function of the timer manager does not return. -/
inductive Fault where
  /-- `pthread_mutex_lock` on a default mutex that is already held. -/
  | deadlock
  /-- Member access through a `NULL` timer pointer. -/
  | nullDeref
  /-- Call through a `NULL` callback pointer. -/
  | nullCall
  /-- A loop needed more iterations than the fuel allows. -/
  | outOfFuel
  /-- Store through a pointer that was never initialised and does not hold the address
  of writable memory. -/
  | wildStore
  deriving DecidableEq, Repr

/-! ## Data model -/

/-- Modelled from the spec: the declaration of `RTOS_TMR` is in
`TimerMgrHeader.h`, which is not among the sources; these are the fields
that `TimerAPI.c` reads and writes.  Timer pointers are `Option Nat`,
the callback is an optional function identifier, and the opaque `void *`
argument and the name pointer are plain numbers. -/
structure RTOS_TMR where
  RTOSTmrType : Nat
  RTOSTmrCallback : Option Nat
  RTOSTmrCallbackArg : Nat
  RTOSTmrNext : Option Nat
  RTOSTmrPrev : Option Nat
  RTOSTmrMatch : Nat
  RTOSTmrDelay : Nat
  RTOSTmrPeriod : Nat
  RTOSTmrName : Nat
  RTOSTmrOpt : Nat
  RTOSTmrState : Nat
  deriving DecidableEq, Repr

/-- Modelled from the spec: the declaration of `HASH_OBJ` is in
`TimerMgrHeader.h`, which is not among the sources; a bucket is a list head
plus a per-bucket count.  The count is taken to be an `INT8U` like
`FreeTmrCount`. -/
structure HASH_OBJ where
  list_ptr : Option Nat
  timer_count : Nat
  deriving DecidableEq, Repr

/-- The global variables of `TimerAPI.c` (lines 17-36) together with the
heap of timer objects, the next address `malloc` hands out, and the trace of
callback invocations `(function, argument)` in the order they happen. -/
@[ext]
structure TimerManager where
  mem : Nat → RTOS_TMR
  heap_brk : Nat
  FreeTmrCount : Nat
  FreeTmrListPtr : Option Nat
  RTOSTmrTickCtr : Nat
  hash_table : Nat → HASH_OBJ
  hash_table_mutex : Bool
  timer_pool_mutex : Bool
  calls : List (Nat × Nat)

/-- `NULL` passed as a `void *` argument. -/
def NULL : Nat := 0

/-- Addition of two `INT32U` values. -/
def add32 (a b : Nat) : Nat := (a + b) % U32

/-- Subtraction of two `INT32U` values. -/
def sub32 (a b : Nat) : Nat := (a % U32 + (U32 - b % U32)) % U32

/-- Increment of an `INT8U`. -/
def inc8 (a : Nat) : Nat := (a + 1) % U8

/-- Decrement of an `INT8U`. -/
def dec8 (a : Nat) : Nat := (a + (U8 - 1)) % U8

/-- Assignment to the fields of the timer object at address `p`. -/
def TimerManager.upd (s : TimerManager) (p : Nat) (f : RTOS_TMR → RTOS_TMR) :
    TimerManager :=
  { s with mem := Function.update s.mem p (f (s.mem p)) }

/-- Assignment to the fields of bucket `i` of `hash_table`. -/
def TimerManager.updBucket (s : TimerManager) (i : Nat) (f : HASH_OBJ → HASH_OBJ) :
    TimerManager :=
  { s with hash_table := Function.update s.hash_table i (f (s.hash_table i)) }

/-- Assignment `q->RTOSTmrPrev = v` when `q` is not `NULL`, nothing otherwise:
the guarded statements `if (q != NULL) q->RTOSTmrPrev = v;`. -/
def TimerManager.setPrevIf (s : TimerManager) (q : Option Nat) (v : Option Nat) :
    TimerManager :=
  match q with
  | none => s
  | some a => s.upd a (fun t => { t with RTOSTmrPrev := v })

/-- A call `f(arg)` through a callback pointer: it is recorded in the trace;
the callback itself is foreign code that does not touch the manager. -/
def callCallback (s : TimerManager) (f : Option Nat) (arg : Nat) :
    Except Fault TimerManager :=
  match f with
  | none => .error .nullCall
  | some g => .ok { s with calls := s.calls ++ [(g, arg)] }

/-! ## Timer pool -/

/-- One pass through the body of the `for` loop of `Create_Timer_Pool`
(lines 314-322); `malloc` returns the address `heap_brk`. -/
def Create_Timer_Pool_body (s : TimerManager) : TimerManager :=
  let new_timer := s.heap_brk
  let s := { s with heap_brk := s.heap_brk + 1 }
  let s := s.upd new_timer (fun t => { t with RTOSTmrState := RTOS_TMR_STATE_UNUSED })
  let s := s.upd new_timer (fun t => { t with RTOSTmrType := RTOS_TMR_TYPE })
  let s := s.upd new_timer (fun t => { t with RTOSTmrNext := s.FreeTmrListPtr })
  let s := s.upd new_timer (fun t => { t with RTOSTmrPrev := none })
  let s := s.setPrevIf s.FreeTmrListPtr (some new_timer)
  let s := { s with FreeTmrListPtr := some new_timer }
  { s with FreeTmrCount := inc8 s.FreeTmrCount }

/-- `Create_Timer_Pool` (lines 308-326): the loop body runs `timer_count`
times. -/
def Create_Timer_Pool : Nat → TimerManager → TimerManager
  | 0, s => s
  | n + 1, s => Create_Timer_Pool n (Create_Timer_Pool_body s)

/-- `alloc_timer_obj` (lines 490-512). -/
def alloc_timer_obj (s : TimerManager) : Except Fault (Option Nat × TimerManager) :=
  if s.timer_pool_mutex then .error .deadlock
  else
    let s := { s with timer_pool_mutex := true }
    if s.FreeTmrCount = 0 then
      .ok (none, { s with timer_pool_mutex := false })
    else
      let temp := s.FreeTmrListPtr
      match s.FreeTmrListPtr with
      | none => .error .nullDeref
      | some hd =>
        let s := { s with FreeTmrListPtr := (s.mem hd).RTOSTmrNext }
        let s := s.setPrevIf s.FreeTmrListPtr none
        let s := { s with FreeTmrCount := dec8 s.FreeTmrCount }
        .ok (temp, { s with timer_pool_mutex := false })

/-- `free_timer_obj` (lines 515-532). -/
def free_timer_obj (ptmr : Nat) (s : TimerManager) : Except Fault TimerManager :=
  if s.timer_pool_mutex then .error .deadlock
  else
    let s := { s with timer_pool_mutex := true }
    let s := s.upd ptmr (fun t => { t with RTOSTmrPeriod := 0 })
    let s := s.upd ptmr (fun t => { t with RTOSTmrDelay := 0 })
    let s := s.upd ptmr (fun t => { t with RTOSTmrState := RTOS_TMR_STATE_UNUSED })
    let s := s.upd ptmr (fun t => { t with RTOSTmrNext := s.FreeTmrListPtr })
    let s := s.setPrevIf s.FreeTmrListPtr (some ptmr)
    let s := { s with FreeTmrListPtr := some ptmr }
    let s := { s with FreeTmrCount := inc8 s.FreeTmrCount }
    .ok { s with timer_pool_mutex := false }

/-! ## Timer registry -/

/-- `hashCode` (lines 328-330); `M` is `HASH_TABLE_SIZE`, whose definition is
in the header that is not among the sources. -/
def hashCode (M : Nat) (s : TimerManager) (key : Nat) : Nat :=
  (s.mem key).RTOSTmrMatch % M

/-- `init_hash_table` (lines 333-340). -/
def init_hash_table (M : Nat) (s : TimerManager) : TimerManager :=
  { s with hash_table := fun i => if i < M then ⟨none, 0⟩ else s.hash_table i }

/-- `insert_hash_entry` (lines 343-361). -/
def insert_hash_entry (M : Nat) (timer_obj : Nat) (s : TimerManager) :
    Except Fault TimerManager :=
  let index := hashCode M s timer_obj
  if s.hash_table_mutex then .error .deadlock
  else
    let s := { s with hash_table_mutex := true }
    let s := s.upd timer_obj (fun t => { t with RTOSTmrNext := (s.hash_table index).list_ptr })
    let s := s.upd timer_obj (fun t => { t with RTOSTmrPrev := none })
    let s := s.setPrevIf (s.hash_table index).list_ptr (some timer_obj)
    let s := s.updBucket index (fun b => { b with list_ptr := some timer_obj })
    let s := s.updBucket index (fun b => { b with timer_count := inc8 b.timer_count })
    .ok { s with hash_table_mutex := false }

/-- The `while (temp != NULL)` loop of `remove_hash_entry` (lines 387-399). -/
def remove_hash_entry_loop (index timer_obj : Nat) :
    Nat → TimerManager → Option Nat → Except Fault TimerManager
  | _, s, none => .ok s
  | 0, _, some _ => .error .outOfFuel
  | fuel + 1, s, some temp =>
    if temp = timer_obj then
      match (s.mem temp).RTOSTmrPrev with
      | none => .error .nullDeref
      | some pv =>
        let s := s.upd pv (fun t => { t with RTOSTmrNext := (s.mem temp).RTOSTmrNext })
        let s := s.setPrevIf (s.mem temp).RTOSTmrNext (s.mem temp).RTOSTmrPrev
        let s := s.upd temp (fun t => { t with RTOSTmrNext := none })
        let s := s.upd temp (fun t => { t with RTOSTmrPrev := none })
        let s := s.updBucket index (fun b => { b with timer_count := dec8 b.timer_count })
        remove_hash_entry_loop index timer_obj fuel s (s.mem temp).RTOSTmrNext
    else
      remove_hash_entry_loop index timer_obj fuel s (s.mem temp).RTOSTmrNext

/-- `remove_hash_entry` (lines 364-405).  The early `return` of line 372
leaves the function with `hash_table_mutex` still held. -/
def remove_hash_entry (M fuel : Nat) (timer_obj : Option Nat) (s : TimerManager) :
    Except Fault TimerManager :=
  match timer_obj with
  | none => .error .nullDeref
  | some obj =>
    let index := hashCode M s obj
    if s.hash_table_mutex then .error .deadlock
    else
      let s := { s with hash_table_mutex := true }
      match (s.hash_table index).list_ptr with
      | none => .ok s
      | some hd =>
        if hd = obj then
          let s := s.updBucket index (fun b => { b with list_ptr := (s.mem obj).RTOSTmrNext })
          let s := s.setPrevIf (s.hash_table index).list_ptr none
          let s := s.upd obj (fun t => { t with RTOSTmrNext := none })
          let s := s.upd obj (fun t => { t with RTOSTmrPrev := none })
          let s := s.updBucket index (fun b => { b with timer_count := dec8 b.timer_count })
          .ok { s with hash_table_mutex := false }
        else
          match remove_hash_entry_loop index obj fuel s (s.mem hd).RTOSTmrNext with
          | .error e => .error e
          | .ok s => .ok { s with hash_table_mutex := false }

/-! ## Lifecycle API -/

/-- The handle and state validation that opens `RTOSTmrDel`, `RTOSTmrNameGet`,
`RTOSTmrRemainGet`, `RTOSTmrStateGet`, `RTOSTmrStart` and `RTOSTmrStop`
(for instance lines 96-112): the error it stores through `perr`, or `none`
when the handle passes. -/
def handleError (s : TimerManager) (ptmr : Option Nat) : Option RTOS_ERR :=
  match ptmr with
  | none => some RTOS_ERR_TMR_INVALID
  | some p =>
    if (s.mem p).RTOSTmrType ≠ RTOS_TMR_TYPE then some RTOS_ERR_TMR_INVALID_TYPE
    else if (s.mem p).RTOSTmrState ≠ RTOS_TMR_STATE_STOPPED
        ∧ (s.mem p).RTOSTmrState ≠ RTOS_TMR_STATE_RUNNING
        ∧ (s.mem p).RTOSTmrState ≠ RTOS_TMR_STATE_COMPLETED then
      if (s.mem p).RTOSTmrState = RTOS_TMR_STATE_UNUSED then some RTOS_ERR_TMR_INACTIVE
      else some RTOS_ERR_TMR_INVALID_STATE
    else none

/-- `RTOSTmrCreate` (lines 44-89): the returned handle, the value stored
through `err`, and the new state. -/
def RTOSTmrCreate (delay period option : Nat) (callback : Option Nat)
    (callback_arg name : Nat) (s : TimerManager) :
    Except Fault (Option Nat × RTOS_ERR × TimerManager) :=
  if delay < 1 then .ok (none, RTOS_ERR_TMR_INVALID_DLY, s)
  else if option = RTOS_TMR_PERIODIC ∧ period < 1 then
    .ok (none, RTOS_ERR_TMR_INVALID_PERIOD, s)
  else if option ≠ RTOS_TMR_PERIODIC ∧ option ≠ RTOS_TMR_ONE_SHOT then
    .ok (none, RTOS_ERR_TMR_INVALID_OPT, s)
  else
    match alloc_timer_obj s with
    | .error e => .error e
    | .ok (none, s) => .ok (none, RTOS_ERR_TMR_NON_AVAIL, s)
    | .ok (some timer_obj, s) =>
      let s := s.upd timer_obj (fun t => { t with RTOSTmrType := RTOS_TMR_TYPE })
      let s := s.upd timer_obj (fun t => { t with RTOSTmrCallback := callback })
      let s := s.upd timer_obj (fun t => { t with RTOSTmrCallbackArg := callback_arg })
      let s := s.upd timer_obj (fun t => { t with RTOSTmrNext := none })
      let s := s.upd timer_obj (fun t => { t with RTOSTmrPrev := none })
      let s := s.upd timer_obj (fun t => { t with RTOSTmrMatch := 0 })
      let s := s.upd timer_obj (fun t => { t with RTOSTmrDelay := delay })
      let s := s.upd timer_obj (fun t => { t with RTOSTmrPeriod := period })
      let s := s.upd timer_obj (fun t => { t with RTOSTmrName := name })
      let s := s.upd timer_obj (fun t => { t with RTOSTmrOpt := option })
      let s := s.upd timer_obj (fun t => { t with RTOSTmrState := RTOS_TMR_STATE_STOPPED })
      .ok (some timer_obj, RTOS_SUCCESS, s)

/-- `RTOSTmrDel` (lines 92-119). -/
def RTOSTmrDel (M fuel : Nat) (ptmr : Option Nat) (s : TimerManager) :
    Except Fault (Nat × RTOS_ERR × TimerManager) :=
  match handleError s ptmr, ptmr with
  | some e, _ => .ok (RTOS_FALSE, e, s)
  | none, none => .ok (RTOS_FALSE, RTOS_ERR_TMR_INVALID, s)
  | none, some p =>
    match remove_hash_entry M fuel (some p) s with
    | .error e => .error e
    | .ok s =>
      match free_timer_obj p s with
      | .error e => .error e
      | .ok s => .ok (RTOS_TRUE, RTOS_SUCCESS, s)

/-- `RTOSTmrNameGet` (lines 122-145): the returned name pointer (`NULL` on
failure) and the value stored through `perr`. -/
def RTOSTmrNameGet (ptmr : Option Nat) (s : TimerManager) : Nat × RTOS_ERR :=
  match handleError s ptmr, ptmr with
  | some e, _ => (NULL, e)
  | none, none => (NULL, RTOS_ERR_TMR_INVALID)
  | none, some p => ((s.mem p).RTOSTmrName, RTOS_ERR_NONE)

/-- `RTOSTmrRemainGet` (lines 148-170). -/
def RTOSTmrRemainGet (ptmr : Option Nat) (s : TimerManager) : Nat × RTOS_ERR :=
  match handleError s ptmr, ptmr with
  | some e, _ => (RTOS_FALSE, e)
  | none, none => (RTOS_FALSE, RTOS_ERR_TMR_INVALID)
  | none, some p => (sub32 (s.mem p).RTOSTmrMatch s.RTOSTmrTickCtr, RTOS_ERR_NONE)

/-- `RTOSTmrStateGet` (lines 173-195). -/
def RTOSTmrStateGet (ptmr : Option Nat) (s : TimerManager) : Nat × RTOS_ERR :=
  match handleError s ptmr, ptmr with
  | some e, _ => (RTOS_FALSE, e)
  | none, none => (RTOS_FALSE, RTOS_ERR_TMR_INVALID)
  | none, some p => ((s.mem p).RTOSTmrState, RTOS_ERR_NONE)

/-- Lines 240-242 of `RTOSTmrStart`: mark the timer `Running` and link it
into the registry. -/
def RTOSTmrStart_arm (M : Nat) (p : Nat) (s : TimerManager) :
    Except Fault (Nat × RTOS_ERR × TimerManager) :=
  let s := s.upd p (fun t => { t with RTOSTmrState := RTOS_TMR_STATE_RUNNING })
  match insert_hash_entry M p s with
  | .error e => .error e
  | .ok s => .ok (RTOS_TRUE, RTOS_ERR_NONE, s)

/-- `RTOSTmrStart` (lines 198-243). -/
def RTOSTmrStart (M fuel : Nat) (ptmr : Option Nat) (s : TimerManager) :
    Except Fault (Nat × RTOS_ERR × TimerManager) :=
  match handleError s ptmr, ptmr with
  | some e, _ => .ok (RTOS_FALSE, e, s)
  | none, none => .ok (RTOS_FALSE, RTOS_ERR_TMR_INVALID, s)
  | none, some p =>
    if (s.mem p).RTOSTmrOpt = RTOS_TMR_ONE_SHOT then
      RTOSTmrStart_arm M p (s.upd p (fun t =>
        { t with RTOSTmrMatch := add32 s.RTOSTmrTickCtr (s.mem p).RTOSTmrDelay }))
    else if (s.mem p).RTOSTmrOpt = RTOS_TMR_PERIODIC
        ∧ (s.mem p).RTOSTmrState = RTOS_TMR_STATE_STOPPED then
      RTOSTmrStart_arm M p (s.upd p (fun t =>
        { t with RTOSTmrMatch := add32 s.RTOSTmrTickCtr (s.mem p).RTOSTmrDelay }))
    else if (s.mem p).RTOSTmrOpt = RTOS_TMR_PERIODIC
        ∧ (s.mem p).RTOSTmrState = RTOS_TMR_STATE_COMPLETED then
      RTOSTmrStart_arm M p (s.upd p (fun t =>
        { t with RTOSTmrMatch := add32 s.RTOSTmrTickCtr (s.mem p).RTOSTmrPeriod }))
    else if (s.mem p).RTOSTmrOpt = RTOS_TMR_PERIODIC
        ∧ (s.mem p).RTOSTmrState = RTOS_TMR_STATE_RUNNING then
      match remove_hash_entry M fuel (some p) s with
      | .error e => .error e
      | .ok s =>
        RTOSTmrStart_arm M p (s.upd p (fun t =>
          { t with RTOSTmrMatch := add32 s.RTOSTmrTickCtr (s.mem p).RTOSTmrPeriod }))
    else .ok (RTOS_FALSE, RTOS_ERR_TMR_INVALID, s)

/-- `RTOSTmrStop` (lines 246-292). -/
def RTOSTmrStop (M fuel : Nat) (ptmr : Option Nat) (opt : Nat) (callback_arg : Nat)
    (s : TimerManager) : Except Fault (Nat × RTOS_ERR × TimerManager) :=
  match handleError s ptmr, ptmr with
  | some e, _ => .ok (RTOS_FALSE, e, s)
  | none, none => .ok (RTOS_FALSE, RTOS_ERR_TMR_INVALID, s)
  | none, some p =>
    if opt ≠ RTOS_TMR_OPT_NONE ∧ opt ≠ RTOS_TMR_OPT_CALLBACK
        ∧ opt ≠ RTOS_TMR_OPT_CALLBACK_ARG then
      .ok (RTOS_FALSE, RTOS_ERR_TMR_INVALID_OPT, s)
    else if (s.mem p).RTOSTmrState = RTOS_TMR_STATE_STOPPED then
      .ok (RTOS_FALSE, RTOS_ERR_TMR_STOPPED, s)
    else
      let perr := if (s.mem p).RTOSTmrCallback = none then RTOS_ERR_TMR_NO_CALLBACK
        else RTOS_ERR_NONE
      match remove_hash_entry M fuel (some p) s with
      | .error e => .error e
      | .ok s =>
        let s := s.upd p (fun t => { t with RTOSTmrState := RTOS_TMR_STATE_STOPPED })
        match (if opt = RTOS_TMR_OPT_CALLBACK then
            callCallback s (s.mem p).RTOSTmrCallback (s.mem p).RTOSTmrCallbackArg
          else .ok s) with
        | .error e => .error e
        | .ok s =>
          match (if opt = RTOS_TMR_OPT_CALLBACK_ARG then
              callCallback s (s.mem p).RTOSTmrCallback callback_arg
            else .ok s) with
          | .error e => .error e
          | .ok s => .ok (RTOS_TRUE, perr, s)

/-! ## Timer task -/

/-- The value of `INT8U *perr` of `RTOSTmrTask`.  The pointer is declared on line 410
and never assigned, and lines 426-432 pass it to `RTOSTmrRemainGet`, `RTOSTmrStop`,
`RTOSTmrStart` and `RTOSTmrDel`, each of which stores its error code through it.  Its
value is indeterminate, so it is a parameter of the tick step: `wild` is a value that
is not the address of writable memory, and the first store through it faults;
`writable` is the address of a byte that belongs to no object of the timer manager,
and a store through it changes nothing of the manager.  A value that points into an
object of the manager is not covered. -/
inductive ErrPtr where
  | wild
  | writable
  deriving DecidableEq, Repr

/-- The store `*perr = ...` of one of the API functions, through the `perr` of
`RTOSTmrTask`. -/
def storePerr (perr : ErrPtr) (s : TimerManager) : Except Fault TimerManager :=
  match perr with
  | .wild => .error .wildStore
  | .writable => .ok s

/-- The body of the `if` of lines 426-433 of `RTOSTmrTask` for the timer at
`p`: stop it with its callback, mark it `Completed`, then re-arm or delete
it according to its mode.  Each of the three calls opens with
`*perr = RTOS_ERR_NONE` (lines 95, 201, 249) through the `perr` of the task;
the return values and the error codes of the calls are discarded, as in the
source. -/
def RTOSTmrTask_expire (M fuel : Nat) (perr : ErrPtr) (p : Nat) (s : TimerManager) :
    Except Fault TimerManager :=
  match storePerr perr s with
  | .error e => .error e
  | .ok s =>
    match RTOSTmrStop M fuel (some p) RTOS_TMR_OPT_CALLBACK NULL s with
    | .error e => .error e
    | .ok (_, _, s) =>
      let s := s.upd p (fun t => { t with RTOSTmrState := RTOS_TMR_STATE_COMPLETED })
      match ((if (s.mem p).RTOSTmrOpt = RTOS_TMR_PERIODIC then
          match storePerr perr s with
          | .error e => .error e
          | .ok s => (RTOSTmrStart M fuel (some p) s).map (fun r => r.2.2)
        else .ok s) : Except Fault TimerManager) with
      | .error e => .error e
      | .ok s =>
        if (s.mem p).RTOSTmrOpt = RTOS_TMR_ONE_SHOT then
          match storePerr perr s with
          | .error e => .error e
          | .ok s => (RTOSTmrDel M fuel (some p) s).map (fun r => r.2.2)
        else .ok s

/-- The loop `while (task_timer != NULL)` of `RTOSTmrTask` (lines 425-435);
`n` bounds the number of iterations, `fuel` those of the loops inside the
calls it makes.  The call `RTOSTmrRemainGet(task_timer, perr)` of line 426
stores through `perr` on every path (lines 152-167) before its value is
compared with 0. -/
def RTOSTmrTask_scan (M fuel : Nat) (perr : ErrPtr) :
    Nat → TimerManager → Option Nat → Except Fault TimerManager
  | _, s, none => .ok s
  | 0, _, some _ => .error .outOfFuel
  | n + 1, s, some task_timer =>
    match storePerr perr s with
    | .error e => .error e
    | .ok s =>
      if (RTOSTmrRemainGet (some task_timer) s).1 = 0 then
        match RTOSTmrTask_expire M fuel perr task_timer s with
        | .error e => .error e
        | .ok s => RTOSTmrTask_scan M fuel perr n s (s.mem task_timer).RTOSTmrNext
      else RTOSTmrTask_scan M fuel perr n s (s.mem task_timer).RTOSTmrNext

/-- One pass through the body of the `while (1)` loop of `RTOSTmrTask`
(lines 414-435) after the semaphore has been signalled: one tick step, for
the value `perr` of the pointer of line 410. -/
def RTOSTmrTask (M fuel : Nat) (perr : ErrPtr) (s : TimerManager) :
    Except Fault TimerManager :=
  let s := { s with RTOSTmrTickCtr := add32 s.RTOSTmrTickCtr 1 }
  let index := s.RTOSTmrTickCtr % M
  RTOSTmrTask_scan M fuel perr fuel s (s.hash_table index).list_ptr

/-- The state of the global variables when the program starts (lines 17-36):
counters zero, pointers `NULL`, mutexes free; `mem` is the content that
the heap happens to have. -/
def initialState (mem : Nat → RTOS_TMR) : TimerManager :=
  { mem := mem
    heap_brk := 0
    FreeTmrCount := 0
    FreeTmrListPtr := none
    RTOSTmrTickCtr := 0
    hash_table := fun _ => ⟨none, 0⟩
    hash_table_mutex := false
    timer_pool_mutex := false
    calls := [] }

/-- `RTOSTmrInit` (lines 441-487) for the pool capacity `timer_count` that it
reads from the user: the pool is created and the hash table initialised. -/
def RTOSTmrInit (M timer_count : Nat) (s : TimerManager) : TimerManager :=
  init_hash_table M (Create_Timer_Pool timer_count s)

/-! ## Well-formed states

The lists that the pointers of a state spell out, and the invariant that
the spec states for the pool and the registry. -/

/-- `Chain mem p l`: following `RTOSTmrNext` from the pointer `p` visits
exactly the addresses of `l`, in order, and then reaches `NULL`. -/
def Chain (mem : Nat → RTOS_TMR) : Option Nat → List Nat → Prop
  | p, [] => p = none
  | p, a :: l => p = some a ∧ Chain mem (mem a).RTOSTmrNext l

/-- `DChain mem q p l`: `Chain mem p l` for a doubly linked list, where
moreover the `RTOSTmrPrev` of every node points to its predecessor, and
the one of the first node is `q`. -/
def DChain (mem : Nat → RTOS_TMR) : Option Nat → Option Nat → List Nat → Prop
  | _, p, [] => p = none
  | q, p, a :: l =>
    p = some a ∧ (mem a).RTOSTmrPrev = q ∧ DChain mem (some a) (mem a).RTOSTmrNext l

/-- The invariant of the manager state between two API calls, for the free
list `free` of the pool and the bucket lists `L` of the registry: both
mutexes are free, the free list holds `FreeTmrCount` distinct `Unused`
timers, and bucket `i` is a doubly linked list of `timer_count` distinct
`Running` timers whose `RTOSTmrMatch` is `i` modulo `M`. -/
structure WellFormed (M : Nat) (s : TimerManager) (free : List Nat) (L : Nat → List Nat) :
    Prop where
  buckets_pos : 0 < M
  tick_lt : s.RTOSTmrTickCtr < U32
  hash_mutex : s.hash_table_mutex = false
  pool_mutex : s.timer_pool_mutex = false
  pool_chain : Chain s.mem s.FreeTmrListPtr free
  pool_count : s.FreeTmrCount = free.length
  pool_bound : free.length < U8
  pool_nodup : free.Nodup
  pool_unused : ∀ a ∈ free, (s.mem a).RTOSTmrState = RTOS_TMR_STATE_UNUSED
  reg_chain : ∀ i < M, DChain s.mem none (s.hash_table i).list_ptr (L i)
  reg_count : ∀ i < M, (s.hash_table i).timer_count = (L i).length
  reg_bound : ∀ i < M, (L i).length < U8
  reg_nodup : ∀ i < M, (L i).Nodup
  reg_hash : ∀ i < M, ∀ a ∈ L i, (s.mem a).RTOSTmrMatch % M = i
  reg_running : ∀ i < M, ∀ a ∈ L i, (s.mem a).RTOSTmrState = RTOS_TMR_STATE_RUNNING

/-- The part of `WellFormed` that `Create_Timer_Pool` establishes while it
builds the free list: the list is spelled out by `RTOSTmrNext`, all its
addresses were handed out by `malloc`, are distinct and `Unused`. -/
structure PoolBuilt (s : TimerManager) (free : List Nat) : Prop where
  chain : Chain s.mem s.FreeTmrListPtr free
  fresh : ∀ a ∈ free, a < s.heap_brk
  nodup : free.Nodup
  unused : ∀ a ∈ free, (s.mem a).RTOSTmrState = RTOS_TMR_STATE_UNUSED

/-! ## Callers

Sequences of API calls, as application code such as `main` of
`Application.c` issues them. -/

/-- The arguments of one call of `RTOSTmrCreate`. -/
structure CreateArgs where
  delay : Nat
  period : Nat
  option : Nat
  callback : Option Nat
  callback_arg : Nat
  name : Nat

/-- Arguments that pass the three argument checks of `RTOSTmrCreate`. -/
def CreateArgs.Valid (a : CreateArgs) : Prop :=
  1 ≤ a.delay ∧ (a.option = RTOS_TMR_ONE_SHOT ∨ (a.option = RTOS_TMR_PERIODIC ∧ 1 ≤ a.period))

/-- One call of `RTOSTmrCreate` per element of the list, in order; the
handle and error code of every call are collected. -/
def createAll : List CreateArgs → TimerManager →
    Except Fault (List (Option Nat × RTOS_ERR) × TimerManager)
  | [], s => .ok ([], s)
  | a :: rest, s =>
    match RTOSTmrCreate a.delay a.period a.option a.callback a.callback_arg a.name s with
    | .error e => .error e
    | .ok (h, e, s) =>
      match createAll rest s with
      | .error e' => .error e'
      | .ok (rs, s) => .ok ((h, e) :: rs, s)

/-- `n` tick steps of the timer task, for the value `perr` of its pointer. -/
def ticks (M fuel : Nat) (perr : ErrPtr) : Nat → TimerManager → Except Fault TimerManager
  | 0, s => .ok s
  | n + 1, s =>
    match RTOSTmrTask M fuel perr s with
    | .error e => .error e
    | .ok s => ticks M fuel perr n s

/-- A heap cell whose fields are all zero. -/
def blankTimer : RTOS_TMR := ⟨0, none, 0, none, none, 0, 0, 0, 0, 0, 0⟩

/-- The state after `RTOSTmrInit` with ten buckets and a pool of `k` timers,
on a zeroed heap. -/
def bootState (k : Nat) : TimerManager := RTOSTmrInit 10 k (initialState fun _ => blankTimer)

/-- A one-shot timer with delay 5 is created and started at tick 0, two
ticks pass, and `RTOSTmrStart` is called on it again while it is `Running`.
The two tick steps scan the empty buckets 1 and 2 and so store nothing
through `perr`, which is taken to be `wild`. -/
def startRunningOneShot : Except Fault (Nat × RTOS_ERR × TimerManager) := do
  let (h, _, s) ← RTOSTmrCreate 5 0 RTOS_TMR_ONE_SHOT (some 1) 0 0 (bootState 1)
  let (_, _, s) ← RTOSTmrStart 10 4 h s
  let s ← ticks 10 4 .wild 2 s
  RTOSTmrStart 10 4 h s

/-- Two one-shot timers `X` (callback 7, created first, at address 1) and
`Y` (callback 8, at address 0), both with delay 1, are started at tick 0 in
this order, and one tick passes, for the value `perr` of the pointer of the
timer task. -/
def twoOneShotsDue (perr : ErrPtr) : Except Fault TimerManager := do
  let (x, _, s) ← RTOSTmrCreate 1 0 RTOS_TMR_ONE_SHOT (some 7) 70 0 (bootState 2)
  let (y, _, s) ← RTOSTmrCreate 1 0 RTOS_TMR_ONE_SHOT (some 8) 80 0 s
  let (_, _, s) ← RTOSTmrStart 10 4 x s
  let (_, _, s) ← RTOSTmrStart 10 4 y s
  RTOSTmrTask 10 4 perr s

/-- A periodic timer `A` (callback 7, delay 1, period 10, at address 1) and a
periodic timer `B` (callback 8, delay 1, period 3, at address 0) are started
at tick 0, `A` first, and one tick passes, for the value `perr` of the
pointer of the timer task. -/
def twoTimersSameTick (perr : ErrPtr) : Except Fault TimerManager := do
  let (a, _, s) ← RTOSTmrCreate 1 10 RTOS_TMR_PERIODIC (some 7) 70 0 (bootState 2)
  let (b, _, s) ← RTOSTmrCreate 1 3 RTOS_TMR_PERIODIC (some 8) 80 0 s
  let (_, _, s) ← RTOSTmrStart 10 4 a s
  let (_, _, s) ← RTOSTmrStart 10 4 b s
  RTOSTmrTask 10 4 perr s

/-! ## Linking and unlinking -/

/-- The state after the statements of lines 389-395 have unlinked the timer `t`, whose
predecessor is `pv`, from bucket `index`. -/
def unlinked (index t pv : Nat) (s : TimerManager) : TimerManager :=
  let s := s.upd pv (fun x => { x with RTOSTmrNext := (s.mem t).RTOSTmrNext })
  let s := s.setPrevIf (s.mem t).RTOSTmrNext (s.mem t).RTOSTmrPrev
  let s := s.upd t (fun x => { x with RTOSTmrNext := none })
  let s := s.upd t (fun x => { x with RTOSTmrPrev := none })
  s.updBucket index (fun b => { b with timer_count := dec8 b.timer_count })

/-- The memory `mem'` is `mem` with the timer `t` taken out of the doubly linked list
it is on: its neighbours point to each other and its own links are `NULL`. -/
def Unlinked (mem mem' : Nat → RTOS_TMR) (t : Nat) : Prop :=
  mem' t = { mem t with RTOSTmrNext := none, RTOSTmrPrev := none }
  ∧ ∀ a, a ≠ t → mem' a =
      { mem a with
        RTOSTmrNext :=
          if (mem t).RTOSTmrPrev = some a then (mem t).RTOSTmrNext else (mem a).RTOSTmrNext
        RTOSTmrPrev :=
          if (mem t).RTOSTmrNext = some a then (mem t).RTOSTmrPrev else (mem a).RTOSTmrPrev }

/-- The two states agree on everything but the heap and the hash table. -/
def SameGlobals (s s' : TimerManager) : Prop :=
  s'.heap_brk = s.heap_brk ∧ s'.FreeTmrCount = s.FreeTmrCount
  ∧ s'.FreeTmrListPtr = s.FreeTmrListPtr ∧ s'.RTOSTmrTickCtr = s.RTOSTmrTickCtr
  ∧ s'.hash_table_mutex = s.hash_table_mutex ∧ s'.timer_pool_mutex = s.timer_pool_mutex
  ∧ s'.calls = s.calls

/-- The memory `mem'` is `mem` with the timer `t` pushed in front of the doubly linked
list that starts at `head`. -/
def Linked (mem mem' : Nat → RTOS_TMR) (t : Nat) (head : Option Nat) : Prop :=
  mem' t = { mem t with RTOSTmrNext := head, RTOSTmrPrev := none }
  ∧ ∀ a, a ≠ t → mem' a =
      { mem a with RTOSTmrPrev := if head = some a then some t else (mem a).RTOSTmrPrev }

/-- The two timer objects agree on every field but the two links. -/
def SameData (x y : RTOS_TMR) : Prop :=
  x.RTOSTmrState = y.RTOSTmrState ∧ x.RTOSTmrMatch = y.RTOSTmrMatch
  ∧ x.RTOSTmrType = y.RTOSTmrType ∧ x.RTOSTmrOpt = y.RTOSTmrOpt
  ∧ x.RTOSTmrDelay = y.RTOSTmrDelay ∧ x.RTOSTmrPeriod = y.RTOSTmrPeriod
  ∧ x.RTOSTmrCallback = y.RTOSTmrCallback ∧ x.RTOSTmrCallbackArg = y.RTOSTmrCallbackArg
  ∧ x.RTOSTmrName = y.RTOSTmrName

/-- The callbacks that `RTOSTmrStop` invokes for the option `opt`. -/
def stopCalls (opt : Nat) (callback : Option Nat) (arg callback_arg : Nat) :
    List (Nat × Nat) :=
  match callback with
  | none => []
  | some f =>
    if opt = RTOS_TMR_OPT_CALLBACK then [(f, arg)]
    else if opt = RTOS_TMR_OPT_CALLBACK_ARG then [(f, callback_arg)]
    else []

/-- The registry in which `t` is the only armed timer, with match tick `m`. -/
def soleTimer (M t m : Nat) : Nat → List Nat :=
  Function.update (fun _ => []) (m % M) [t]

/-- The state that a call leaves behind. -/
def stateOf {α : Type} : Except Fault (α × RTOS_ERR × TimerManager) → TimerManager
  | .ok (_, _, s) => s
  | .error _ => initialState fun _ => blankTimer

/-- A pool of two timers, one of which was created as a periodic timer with delay 50,
period 30, callback 7 and argument 70; it is at address 1 and `Stopped`. -/
def periodicCreated : TimerManager :=
  stateOf (RTOSTmrCreate 50 30 RTOS_TMR_PERIODIC (some 7) 70 0 (bootState 2))

/-- The timer of `periodicCreated` was started at tick 0; it is `Running` in bucket 0. -/
def periodicRunning : TimerManager :=
  stateOf (RTOSTmrStart 10 4 (some 1) periodicCreated)

/-- The tick steps at which a periodic timer with delay `d` and period `p` is due, counted
from its start: `d`, `d + p`, `d + 2 p`, ... -/
def firesAt (d p k : Nat) : Prop := d ≤ k ∧ (k - d) % p = 0

instance (d p k : Nat) : Decidable (firesAt d p k) := by
  unfold firesAt; infer_instance

/-- The state `k` tick steps after a periodic timer `t` was started at tick `t0` as the
only armed timer: it is `Running`, alone in its bucket, and due at the next step of
`firesAt` and not before. -/
structure PeriodicArmed (M : Nat) (free : List Nat) (t f arg d p t0 k : Nat)
    (s : TimerManager) : Prop where
  wf : WellFormed M s free (soleTimer M t (s.mem t).RTOSTmrMatch)
  type : (s.mem t).RTOSTmrType = RTOS_TMR_TYPE
  mode : (s.mem t).RTOSTmrOpt = RTOS_TMR_PERIODIC
  callback : (s.mem t).RTOSTmrCallback = some f
  callback_arg : (s.mem t).RTOSTmrCallbackArg = arg
  period : (s.mem t).RTOSTmrPeriod = p
  tick : s.RTOSTmrTickCtr = add32 t0 k
  due : ∃ g, 1 ≤ g ∧ g < U32 ∧ (s.mem t).RTOSTmrMatch = add32 (add32 t0 k) g
    ∧ firesAt d p (k + g) ∧ ∀ j, k < j → j < k + g → ¬ firesAt d p j

/-- A periodic timer without callback is created and started, and then stopped with
`RTOS_TMR_OPT_CALLBACK`. -/
def stopWithoutCallback : Except Fault (Nat × RTOS_ERR × TimerManager) := do
  let (h, _, s) ← RTOSTmrCreate 50 30 RTOS_TMR_PERIODIC none 0 0 (bootState 2)
  let (_, _, s) ← RTOSTmrStart 10 4 h s
  RTOSTmrStop 10 4 h RTOS_TMR_OPT_CALLBACK 0 s

/-- The six operations of the API that take the handle of a timer. -/
inductive ApiCall where
  | start
  | stop (opt callback_arg : Nat)
  | delete
  | nameGet
  | stateGet
  | remainGet
deriving DecidableEq, Repr

/-- One call of the API on the handle `ptmr`: the value returned, the error code
stored through `perr`, and the state after the call.  The three accessors assign
to no global variable and to no timer object, so their state is the one before. -/
def apiCall (M fuel : Nat) (c : ApiCall) (ptmr : Option Nat) (s : TimerManager) :
    Except Fault (Nat × RTOS_ERR × TimerManager) :=
  match c with
  | .start => RTOSTmrStart M fuel ptmr s
  | .stop opt callback_arg => RTOSTmrStop M fuel ptmr opt callback_arg s
  | .delete => RTOSTmrDel M fuel ptmr s
  | .nameGet => .ok ((RTOSTmrNameGet ptmr s).1, (RTOSTmrNameGet ptmr s).2, s)
  | .stateGet => .ok ((RTOSTmrStateGet ptmr s).1, (RTOSTmrStateGet ptmr s).2, s)
  | .remainGet => .ok ((RTOSTmrRemainGet ptmr s).1, (RTOSTmrRemainGet ptmr s).2, s)

/-- A code that reports a failure: not one of the two success codes, and not the
advisory `RTOS_ERR_TMR_NO_CALLBACK`. -/
def RTOS_ERR.isFailure (e : RTOS_ERR) : Bool :=
  e != RTOS_ERR_NONE && e != RTOS_SUCCESS && e != RTOS_ERR_TMR_NO_CALLBACK

/-! ## Concrete states and their invariant -/

/-- The state one tick step after `periodicCreated`: the timer at address 1 was never
started, so its `RTOSTmrMatch` is 0 while the tick counter is 1.  The step scans the
empty bucket 1 and stores nothing through `perr`, which is taken to be `wild`. -/
def createdThenTick : TimerManager :=
  match RTOSTmrTask 10 4 .wild periodicCreated with
  | .ok s => s
  | .error _ => periodicCreated

/-- A pool of two timers, one of which was created as a periodic timer with delay 50 and
period 30 and without callback, and then started at tick 0: it is at address 1 and
`Running` in bucket 0. -/
def silentRunning : TimerManager :=
  stateOf (RTOSTmrStart 10 4 (some 1)
    (stateOf (RTOSTmrCreate 50 30 RTOS_TMR_PERIODIC none 0 0 (bootState 2))))

/-- A pool of one timer, which was created as a periodic timer with delay 50 and
period 30; it is at address 0 and `Stopped`, and the pool is empty. -/
def poolExhausted : TimerManager :=
  stateOf (RTOSTmrCreate 50 30 RTOS_TMR_PERIODIC (some 7) 70 0 (bootState 1))

/-- Whether the pointers spell out a given list can be computed. -/
instance decidableChain (mem : Nat → RTOS_TMR) :
    ∀ (p : Option Nat) (l : List Nat), Decidable (Chain mem p l)
  | p, [] => inferInstanceAs (Decidable (p = none))
  | p, a :: l =>
    have := decidableChain mem (mem a).RTOSTmrNext l
    inferInstanceAs (Decidable (p = some a ∧ Chain mem (mem a).RTOSTmrNext l))

/-- Whether the pointers spell out a given doubly linked list can be computed. -/
instance decidableDChain (mem : Nat → RTOS_TMR) :
    ∀ (q p : Option Nat) (l : List Nat), Decidable (DChain mem q p l)
  | _, p, [] => inferInstanceAs (Decidable (p = none))
  | q, p, a :: l =>
    have := decidableDChain mem (some a) (mem a).RTOSTmrNext l
    inferInstanceAs (Decidable (p = some a ∧ (mem a).RTOSTmrPrev = q
      ∧ DChain mem (some a) (mem a).RTOSTmrNext l))

/-- Whether a state is well-formed for given lists can be computed, so that the
invariant of a concrete state is proved by evaluation. -/
instance decidableWellFormed (M : Nat) (s : TimerManager) (free : List Nat)
    (L : Nat → List Nat) : Decidable (WellFormed M s free L) :=
  decidable_of_iff
    (0 < M ∧ s.RTOSTmrTickCtr < U32 ∧ s.hash_table_mutex = false
      ∧ s.timer_pool_mutex = false ∧ Chain s.mem s.FreeTmrListPtr free
      ∧ s.FreeTmrCount = free.length ∧ free.length < U8 ∧ free.Nodup
      ∧ (∀ a ∈ free, (s.mem a).RTOSTmrState = RTOS_TMR_STATE_UNUSED)
      ∧ (∀ i < M, DChain s.mem none (s.hash_table i).list_ptr (L i))
      ∧ (∀ i < M, (s.hash_table i).timer_count = (L i).length)
      ∧ (∀ i < M, (L i).length < U8)
      ∧ (∀ i < M, (L i).Nodup)
      ∧ (∀ i < M, ∀ a ∈ L i, (s.mem a).RTOSTmrMatch % M = i)
      ∧ (∀ i < M, ∀ a ∈ L i, (s.mem a).RTOSTmrState = RTOS_TMR_STATE_RUNNING))
    ⟨fun ⟨h1, h2, h3, h4, h5, h6, h7, h8, h9, h10, h11, h12, h13, h14, h15⟩ =>
        ⟨h1, h2, h3, h4, h5, h6, h7, h8, h9, h10, h11, h12, h13, h14, h15⟩,
      fun h =>
        ⟨h.1, h.2, h.3, h.4, h.5, h.6, h.7, h.8, h.9, h.10, h.11, h.12, h.13, h.14, h.15⟩⟩

/-- Equality of the results of two runs can be computed. -/
instance decidableEqExcept {ε α : Type} [DecidableEq ε] [DecidableEq α] :
    DecidableEq (Except ε α)
  | .ok a, .ok b =>
    if h : a = b then isTrue (by rw [h]) else isFalse (by intro e; cases e; exact h rfl)
  | .error a, .error b =>
    if h : a = b then isTrue (by rw [h]) else isFalse (by intro e; cases e; exact h rfl)
  | .ok _, .error _ => isFalse (by intro e; cases e)
  | .error _, .ok _ => isFalse (by intro e; cases e)

/-- A one-shot timer with delay 5 is created and started, and at the same tick started
once more. -/
def startTwice : Except Fault (Nat × RTOS_ERR × TimerManager) := do
  let (h, _, s) ← RTOSTmrCreate 5 0 RTOS_TMR_ONE_SHOT (some 7) 70 0 (bootState 1)
  let (_, _, s) ← RTOSTmrStart 10 4 h s
  RTOSTmrStart 10 4 h s

/-- Three timers are created in a pool of three: the one-shot timers `Z` (delay 11,
address 2) and `X` (delay 1, address 1) and a periodic timer (address 0).  The
periodic timer is started and deleted, which returns its slot to the pool, and then
`Z` and `X` are started at tick 0: both are in bucket 1, `X` in front. -/
def staleSlot : TimerManager :=
  stateOf (do
    let (z, _, s) ← RTOSTmrCreate 11 0 RTOS_TMR_ONE_SHOT (some 6) 60 0 (bootState 3)
    let (x, _, s) ← RTOSTmrCreate 1 0 RTOS_TMR_ONE_SHOT (some 7) 70 0 s
    let (f, _, s) ← RTOSTmrCreate 5 3 RTOS_TMR_PERIODIC (some 8) 80 0 s
    let (_, _, s) ← RTOSTmrStart 10 4 f s
    let (_, _, s) ← RTOSTmrDel 10 4 f s
    let (_, _, s) ← RTOSTmrStart 10 4 z s
    RTOSTmrStart 10 4 x s)

/-- The registry part of `WellFormed`, for the bucket lists `L`: the mutex of the hash
table is free, bucket `i` is a doubly linked list of `timer_count` distinct timers,
fewer than 256, whose `RTOSTmrMatch` is `i` modulo `M`.  Nothing is asked of the state
of the timers or of the pool. -/
structure Registry (M : Nat) (s : TimerManager) (L : Nat → List Nat) : Prop where
  size_pos : 0 < M
  unlocked : s.hash_table_mutex = false
  lists : ∀ i < M, DChain s.mem none (s.hash_table i).list_ptr (L i)
  counts : ∀ i < M, (s.hash_table i).timer_count = (L i).length
  short : ∀ i < M, (L i).length < U8
  distinct : ∀ i < M, (L i).Nodup
  hashed : ∀ i < M, ∀ a ∈ L i, (s.mem a).RTOSTmrMatch % M = i

/-- The state `s` seen from the registry: every timer counts as `Running`, the pool is
empty and the tick counter is 0.  `insert_hash_entry` and `remove_hash_entry` read
none of these, so what holds of the registry of `asRunning s` holds of that of `s`. -/
def asRunning (s : TimerManager) : TimerManager :=
  { s with
    mem := fun a => { s.mem a with RTOSTmrState := RTOS_TMR_STATE_RUNNING }
    FreeTmrCount := 0
    FreeTmrListPtr := none
    RTOSTmrTickCtr := 0
    timer_pool_mutex := false }

/-- A pool of two timers, both created and neither started: a periodic timer with delay
50 and period 30 at address 1, and a one-shot timer with delay 5 at address 0. -/
def twoCreated : TimerManager :=
  stateOf (do
    let (_, _, s) ← RTOSTmrCreate 50 30 RTOS_TMR_PERIODIC (some 7) 70 0 (bootState 2)
    RTOSTmrCreate 5 0 RTOS_TMR_ONE_SHOT (some 8) 80 0 s)

/-- Two one-shot timers are created in a pool of two, `X` (delay 1, address 1) and `Y`
(delay 5, address 0); `X` is started at tick 0, alone in bucket 1, and one tick step
follows, in which `X` expires and is deleted by the timer task, for the value `perr`
of its pointer. -/
def oneShotExpired (perr : ErrPtr) : Except Fault TimerManager := do
  let (x, _, s) ← RTOSTmrCreate 1 0 RTOS_TMR_ONE_SHOT (some 7) 70 0 (bootState 2)
  let (_, _, s) ← RTOSTmrCreate 5 0 RTOS_TMR_ONE_SHOT (some 8) 80 0 s
  let (_, _, s) ← RTOSTmrStart 10 4 x s
  RTOSTmrTask 10 4 perr s

/-! ## Projections of the state updates -/

@[simp]
theorem upd_mem (s : TimerManager) (p : Nat) (f : RTOS_TMR → RTOS_TMR) :
    (s.upd p f).mem = Function.update s.mem p (f (s.mem p)) := rfl
@[simp]
theorem upd_heap_brk (s : TimerManager) (p : Nat) (f : RTOS_TMR → RTOS_TMR) :
    (s.upd p f).heap_brk = s.heap_brk := rfl
@[simp]
theorem upd_FreeTmrCount (s : TimerManager) (p : Nat) (f : RTOS_TMR → RTOS_TMR) :
    (s.upd p f).FreeTmrCount = s.FreeTmrCount := rfl
@[simp]
theorem upd_FreeTmrListPtr (s : TimerManager) (p : Nat) (f : RTOS_TMR → RTOS_TMR) :
    (s.upd p f).FreeTmrListPtr = s.FreeTmrListPtr := rfl
@[simp]
theorem upd_RTOSTmrTickCtr (s : TimerManager) (p : Nat) (f : RTOS_TMR → RTOS_TMR) :
    (s.upd p f).RTOSTmrTickCtr = s.RTOSTmrTickCtr := rfl
@[simp]
theorem upd_hash_table (s : TimerManager) (p : Nat) (f : RTOS_TMR → RTOS_TMR) :
    (s.upd p f).hash_table = s.hash_table := rfl
@[simp]
theorem upd_hash_table_mutex (s : TimerManager) (p : Nat) (f : RTOS_TMR → RTOS_TMR) :
    (s.upd p f).hash_table_mutex = s.hash_table_mutex := rfl
@[simp]
theorem upd_timer_pool_mutex (s : TimerManager) (p : Nat) (f : RTOS_TMR → RTOS_TMR) :
    (s.upd p f).timer_pool_mutex = s.timer_pool_mutex := rfl
@[simp]
theorem upd_calls (s : TimerManager) (p : Nat) (f : RTOS_TMR → RTOS_TMR) :
    (s.upd p f).calls = s.calls := rfl

@[simp]
theorem updBucket_mem (s : TimerManager) (p : Nat) (g : HASH_OBJ → HASH_OBJ) :
    (s.updBucket p g).mem = s.mem := rfl
@[simp]
theorem updBucket_heap_brk (s : TimerManager) (p : Nat) (g : HASH_OBJ → HASH_OBJ) :
    (s.updBucket p g).heap_brk = s.heap_brk := rfl
@[simp]
theorem updBucket_FreeTmrCount (s : TimerManager) (p : Nat) (g : HASH_OBJ → HASH_OBJ) :
    (s.updBucket p g).FreeTmrCount = s.FreeTmrCount := rfl
@[simp]
theorem updBucket_FreeTmrListPtr (s : TimerManager) (p : Nat) (g : HASH_OBJ → HASH_OBJ) :
    (s.updBucket p g).FreeTmrListPtr = s.FreeTmrListPtr := rfl
@[simp]
theorem updBucket_RTOSTmrTickCtr (s : TimerManager) (p : Nat) (g : HASH_OBJ → HASH_OBJ) :
    (s.updBucket p g).RTOSTmrTickCtr = s.RTOSTmrTickCtr := rfl
@[simp]
theorem updBucket_hash_table (s : TimerManager) (p : Nat) (g : HASH_OBJ → HASH_OBJ) :
    (s.updBucket p g).hash_table = Function.update s.hash_table p (g (s.hash_table p)) := rfl
@[simp]
theorem updBucket_hash_table_mutex (s : TimerManager) (p : Nat) (g : HASH_OBJ → HASH_OBJ) :
    (s.updBucket p g).hash_table_mutex = s.hash_table_mutex := rfl
@[simp]
theorem updBucket_timer_pool_mutex (s : TimerManager) (p : Nat) (g : HASH_OBJ → HASH_OBJ) :
    (s.updBucket p g).timer_pool_mutex = s.timer_pool_mutex := rfl
@[simp]
theorem updBucket_calls (s : TimerManager) (p : Nat) (g : HASH_OBJ → HASH_OBJ) :
    (s.updBucket p g).calls = s.calls := rfl

theorem setPrevIf_mem_apply (s : TimerManager) (q v : Option Nat) (a : Nat) :
    (s.setPrevIf q v).mem a
      = if q = some a then { s.mem a with RTOSTmrPrev := v } else s.mem a := by
  cases q with
  | none => simp [TimerManager.setPrevIf]
  | some b =>
    by_cases h : a = b
    · subst h; simp [TimerManager.setPrevIf]
    · have h' : ¬ b = a := fun e => h e.symm
      simp [TimerManager.setPrevIf, Function.update_apply, h, h']

@[simp]
theorem setPrevIf_none (s : TimerManager) (v : Option Nat) :
    s.setPrevIf none v = s := rfl
@[simp]
theorem setPrevIf_heap_brk (s : TimerManager) (q v : Option Nat) :
    (s.setPrevIf q v).heap_brk = s.heap_brk := by
  cases q <;> rfl
@[simp]
theorem setPrevIf_FreeTmrCount (s : TimerManager) (q v : Option Nat) :
    (s.setPrevIf q v).FreeTmrCount = s.FreeTmrCount := by
  cases q <;> rfl
@[simp]
theorem setPrevIf_FreeTmrListPtr (s : TimerManager) (q v : Option Nat) :
    (s.setPrevIf q v).FreeTmrListPtr = s.FreeTmrListPtr := by
  cases q <;> rfl
@[simp]
theorem setPrevIf_RTOSTmrTickCtr (s : TimerManager) (q v : Option Nat) :
    (s.setPrevIf q v).RTOSTmrTickCtr = s.RTOSTmrTickCtr := by
  cases q <;> rfl
@[simp]
theorem setPrevIf_hash_table (s : TimerManager) (q v : Option Nat) :
    (s.setPrevIf q v).hash_table = s.hash_table := by
  cases q <;> rfl
@[simp]
theorem setPrevIf_hash_table_mutex (s : TimerManager) (q v : Option Nat) :
    (s.setPrevIf q v).hash_table_mutex = s.hash_table_mutex := by
  cases q <;> rfl
@[simp]
theorem setPrevIf_timer_pool_mutex (s : TimerManager) (q v : Option Nat) :
    (s.setPrevIf q v).timer_pool_mutex = s.timer_pool_mutex := by
  cases q <;> rfl
@[simp]
theorem setPrevIf_calls (s : TimerManager) (q v : Option Nat) :
    (s.setPrevIf q v).calls = s.calls := by
  cases q <;> rfl

/-! ## Lists spelled out by pointers -/

theorem chain_frame {mem mem' : Nat → RTOS_TMR} {l : List Nat} :
    ∀ {p : Option Nat}, (∀ a ∈ l, (mem' a).RTOSTmrNext = (mem a).RTOSTmrNext) →
      Chain mem p l → Chain mem' p l := by
  induction l with
  | nil => intro p _ h; exact h
  | cons a l ih =>
    intro p hf h
    refine ⟨h.1, ?_⟩
    rw [hf a (List.mem_cons_self _ _)]
    exact ih (fun b hb => hf b (List.mem_cons_of_mem _ hb)) h.2

theorem dchain_frame {mem mem' : Nat → RTOS_TMR} {l : List Nat} :
    ∀ {q p : Option Nat}, (∀ a ∈ l, (mem' a).RTOSTmrNext = (mem a).RTOSTmrNext
        ∧ (mem' a).RTOSTmrPrev = (mem a).RTOSTmrPrev) →
      DChain mem q p l → DChain mem' q p l := by
  induction l with
  | nil => intro q p _ h; exact h
  | cons a l ih =>
    intro q p hf h
    refine ⟨h.1, ?_, ?_⟩
    · rw [(hf a (List.mem_cons_self _ _)).2]; exact h.2.1
    · rw [(hf a (List.mem_cons_self _ _)).1]
      exact ih (fun b hb => hf b (List.mem_cons_of_mem _ hb)) h.2.2

theorem chain_unique {mem : Nat → RTOS_TMR} {l₁ : List Nat} :
    ∀ {l₂ : List Nat} {p : Option Nat}, Chain mem p l₁ → Chain mem p l₂ → l₁ = l₂ := by
  induction l₁ with
  | nil =>
    intro l₂ p h₁ h₂
    cases l₂ with
    | nil => rfl
    | cons b l => have := h₂.1; rw [h₁] at this; cases this
  | cons a l ih =>
    intro l₂ p h₁ h₂
    cases l₂ with
    | nil => have := h₁.1; rw [h₂] at this; cases this
    | cons b l' =>
      have hab : a = b := by
        have := h₁.1; rw [h₂.1] at this; cases this; rfl
      subst hab
      rw [ih h₁.2 h₂.2]

theorem dchain_chain {mem : Nat → RTOS_TMR} {l : List Nat} :
    ∀ {q p : Option Nat}, DChain mem q p l → Chain mem p l := by
  induction l with
  | nil => intro q p h; exact h
  | cons a l ih => intro q p h; exact ⟨h.1, ih h.2.2⟩

/-! ## Creating timers -/

theorem create_success (s : TimerManager) (h : Nat) (delay period option : Nat)
    (callback : Option Nat) (callback_arg name : Nat)
    (hm : s.timer_pool_mutex = false)
    (hc : s.FreeTmrCount ≠ 0) (hf : s.FreeTmrListPtr = some h)
    (hd : 1 ≤ delay)
    (ho : option = RTOS_TMR_ONE_SHOT ∨ (option = RTOS_TMR_PERIODIC ∧ 1 ≤ period)) :
    ∃ s', RTOSTmrCreate delay period option callback callback_arg name s
        = .ok (some h, RTOS_SUCCESS, s')
      ∧ s'.mem h = ⟨RTOS_TMR_TYPE, callback, callback_arg, none, none, 0, delay, period,
          name, option, RTOS_TMR_STATE_STOPPED⟩
      ∧ (∀ a, a ≠ h → s'.mem a = if (s.mem h).RTOSTmrNext = some a then
            { s.mem a with RTOSTmrPrev := none } else s.mem a)
      ∧ s'.FreeTmrListPtr = (s.mem h).RTOSTmrNext
      ∧ s'.FreeTmrCount = dec8 s.FreeTmrCount
      ∧ s'.hash_table = s.hash_table
      ∧ s'.RTOSTmrTickCtr = s.RTOSTmrTickCtr
      ∧ s'.hash_table_mutex = s.hash_table_mutex
      ∧ s'.timer_pool_mutex = false
      ∧ s'.calls = s.calls
      ∧ s'.heap_brk = s.heap_brk := by
  have h1 : ¬ delay < 1 := by omega
  have h2 : ¬ (option = RTOS_TMR_PERIODIC ∧ period < 1) := by
    rcases ho with ho | ⟨_, hp⟩
    · subst ho; simp [RTOS_TMR_ONE_SHOT, RTOS_TMR_PERIODIC]
    · omega
  have h3 : ¬ (option ≠ RTOS_TMR_PERIODIC ∧ option ≠ RTOS_TMR_ONE_SHOT) := by
    rcases ho with ho | ⟨ho, _⟩ <;> simp [ho]
  simp only [RTOSTmrCreate, alloc_timer_obj, hm, hc, hf, h1, h2, h3, if_false, Bool.false_eq_true]
  refine ⟨_, rfl, ?_, ?_, ?_, ?_, ?_, ?_, ?_, ?_, ?_, ?_⟩
  · simp
  · intro a ha
    simp [Function.update_apply, ha, setPrevIf_mem_apply]
  all_goals simp

theorem dec8_succ {n : Nat} (h : n + 1 < U8) : dec8 (n + 1) = n := by
  unfold dec8 U8 at *; omega

theorem inc8_lt {n : Nat} (h : n + 1 < U8) : inc8 n = n + 1 := by
  unfold inc8 U8 at *; omega

theorem not_mem_bucket_of_free {M : Nat} {s : TimerManager} {free : List Nat}
    {L : Nat → List Nat} (hwf : WellFormed M s free L) {a : Nat} (ha : a ∈ free)
    {i : Nat} (hi : i < M) : a ∉ L i := by
  intro hmem
  have h1 := hwf.pool_unused a ha
  have h2 := hwf.reg_running i hi a hmem
  rw [h1] at h2
  exact absurd h2 (by decide)

theorem create_wellFormed {M : Nat} {s : TimerManager} {h : Nat} {rest : List Nat}
    {L : Nat → List Nat} (hwf : WellFormed M s (h :: rest) L)
    (delay period option : Nat) (callback : Option Nat) (callback_arg name : Nat)
    (hd : 1 ≤ delay)
    (ho : option = RTOS_TMR_ONE_SHOT ∨ (option = RTOS_TMR_PERIODIC ∧ 1 ≤ period)) :
    ∃ s', RTOSTmrCreate delay period option callback callback_arg name s
        = .ok (some h, RTOS_SUCCESS, s')
      ∧ s'.mem h = ⟨RTOS_TMR_TYPE, callback, callback_arg, none, none, 0, delay, period,
          name, option, RTOS_TMR_STATE_STOPPED⟩
      ∧ s'.FreeTmrCount + 1 = s.FreeTmrCount
      ∧ WellFormed M s' rest L
      ∧ s'.RTOSTmrTickCtr = s.RTOSTmrTickCtr
      ∧ s'.hash_table = s.hash_table
      ∧ s'.calls = s.calls
      ∧ (∀ a, a ∉ h :: rest → s'.mem a = s.mem a) := by
  have hfp : s.FreeTmrListPtr = some h := hwf.pool_chain.1
  have hch : Chain s.mem (s.mem h).RTOSTmrNext rest := hwf.pool_chain.2
  have hcnt : s.FreeTmrCount = rest.length + 1 := by simpa using hwf.pool_count
  have hb : rest.length + 1 < U8 := by simpa using hwf.pool_bound
  have hnd : h ∉ rest ∧ rest.Nodup := by simpa using hwf.pool_nodup
  obtain ⟨s', hs', hmh, hmo, hfl, hfc, hht, htk, hhm, hpm, hcl, _⟩ :=
    create_success s h delay period option callback callback_arg name hwf.pool_mutex
      (by omega) hfp hd ho
  -- the only node other than `h` that is written is the new head of the free list
  have hother : ∀ a, a ≠ h → (s'.mem a).RTOSTmrNext = (s.mem a).RTOSTmrNext
      ∧ (s'.mem a).RTOSTmrState = (s.mem a).RTOSTmrState
      ∧ (s'.mem a).RTOSTmrMatch = (s.mem a).RTOSTmrMatch := by
    intro a ha
    rw [hmo a ha]
    split <;> simp
  have hprev : ∀ a, a ∉ h :: rest → s'.mem a = s.mem a := by
    intro a ha
    have ha' : a ≠ h := fun e => ha (e ▸ List.mem_cons_self _ _)
    rw [hmo a ha']
    split
    · rename_i hn
      exfalso
      cases rest with
      | nil => have := hch; simp [Chain] at this; rw [this] at hn; cases hn
      | cons b r =>
        have := hch.1; rw [this] at hn; cases hn
        exact ha (List.mem_cons_of_mem _ (List.mem_cons_self _ _))
    · rfl
  refine ⟨s', hs', hmh, ?_, ?_, htk, hht, hcl, hprev⟩
  · rw [hfc, hcnt, dec8_succ hb]
  · have hreg : ∀ i < M, ∀ a ∈ L i, s'.mem a = s.mem a := by
      intro i hi a ha
      apply hprev
      intro hmem
      exact not_mem_bucket_of_free hwf hmem hi ha
    refine
      { buckets_pos := hwf.buckets_pos
        tick_lt := by rw [htk]; exact hwf.tick_lt
        hash_mutex := by rw [hhm]; exact hwf.hash_mutex
        pool_mutex := hpm
        pool_chain := ?_
        pool_count := by rw [hfc, hcnt, dec8_succ hb]
        pool_bound := by omega
        pool_nodup := hnd.2
        pool_unused := ?_
        reg_chain := ?_
        reg_count := by intro i hi; rw [hht]; exact hwf.reg_count i hi
        reg_bound := hwf.reg_bound
        reg_nodup := hwf.reg_nodup
        reg_hash := ?_
        reg_running := ?_ }
    · rw [hfl]
      refine chain_frame ?_ hch
      intro a ha
      exact (hother a (fun e => hnd.1 (e ▸ ha))).1
    · intro a ha
      rw [(hother a (fun e => hnd.1 (e ▸ ha))).2.1]
      exact hwf.pool_unused a (List.mem_cons_of_mem _ ha)
    · intro i hi
      rw [hht]
      refine dchain_frame ?_ (hwf.reg_chain i hi)
      intro a ha
      rw [hreg i hi a ha]; exact ⟨rfl, rfl⟩
    · intro i hi a ha
      rw [hreg i hi a ha]; exact hwf.reg_hash i hi a ha
    · intro i hi a ha
      rw [hreg i hi a ha]; exact hwf.reg_running i hi a ha

/-! ## Building the pool -/

theorem Create_Timer_Pool_body_built {s : TimerManager} {free : List Nat}
    (h : PoolBuilt s free) :
    PoolBuilt (Create_Timer_Pool_body s) (s.heap_brk :: free)
      ∧ (Create_Timer_Pool_body s).heap_brk = s.heap_brk + 1
      ∧ (Create_Timer_Pool_body s).FreeTmrCount = inc8 s.FreeTmrCount
      ∧ (Create_Timer_Pool_body s).hash_table = s.hash_table
      ∧ (Create_Timer_Pool_body s).RTOSTmrTickCtr = s.RTOSTmrTickCtr
      ∧ (Create_Timer_Pool_body s).hash_table_mutex = s.hash_table_mutex
      ∧ (Create_Timer_Pool_body s).timer_pool_mutex = s.timer_pool_mutex
      ∧ (Create_Timer_Pool_body s).calls = s.calls := by
  have hne : ∀ a ∈ free, a ≠ s.heap_brk := fun a ha e => by
    have := h.fresh a ha; omega
  have hmem : ∀ a, a ≠ s.heap_brk →
      ((Create_Timer_Pool_body s).mem a).RTOSTmrNext = (s.mem a).RTOSTmrNext
      ∧ ((Create_Timer_Pool_body s).mem a).RTOSTmrState = (s.mem a).RTOSTmrState := by
    intro a ha
    simp only [Create_Timer_Pool_body, setPrevIf_mem_apply]
    split <;> simp [Function.update_apply, ha]
  have hnew : ((Create_Timer_Pool_body s).mem s.heap_brk).RTOSTmrNext = s.FreeTmrListPtr
      ∧ ((Create_Timer_Pool_body s).mem s.heap_brk).RTOSTmrState = RTOS_TMR_STATE_UNUSED := by
    simp only [Create_Timer_Pool_body, setPrevIf_mem_apply]
    split <;> simp
  refine ⟨⟨?_, ?_, ?_, ?_⟩, ?_, ?_, ?_, ?_, ?_, ?_, ?_⟩
  · refine ⟨by simp [Create_Timer_Pool_body], ?_⟩
    rw [hnew.1]
    exact chain_frame (fun a ha => (hmem a (hne a ha)).1) h.chain
  · intro a ha
    have hb : (Create_Timer_Pool_body s).heap_brk = s.heap_brk + 1 := by
      simp [Create_Timer_Pool_body]
    rw [hb]
    rcases List.mem_cons.1 ha with ha | ha
    · omega
    · have := h.fresh a ha; omega
  · exact List.nodup_cons.2 ⟨fun hm => hne _ hm rfl, h.nodup⟩
  · intro a ha
    rcases List.mem_cons.1 ha with ha | ha
    · rw [ha]; exact hnew.2
    · rw [(hmem a (hne a ha)).2]; exact h.unused a ha
  all_goals simp [Create_Timer_Pool_body]

theorem Create_Timer_Pool_built :
    ∀ (n : Nat) {s : TimerManager} {free : List Nat}, PoolBuilt s free →
      s.FreeTmrCount < U8 →
      PoolBuilt (Create_Timer_Pool n s) ((List.range' s.heap_brk n).reverse ++ free)
      ∧ (Create_Timer_Pool n s).FreeTmrCount = (s.FreeTmrCount + n) % U8
      ∧ (Create_Timer_Pool n s).hash_table = s.hash_table
      ∧ (Create_Timer_Pool n s).RTOSTmrTickCtr = s.RTOSTmrTickCtr
      ∧ (Create_Timer_Pool n s).hash_table_mutex = s.hash_table_mutex
      ∧ (Create_Timer_Pool n s).timer_pool_mutex = s.timer_pool_mutex
      ∧ (Create_Timer_Pool n s).calls = s.calls := by
  intro n
  induction n with
  | zero =>
    intro s free h hc
    refine ⟨by simpa [Create_Timer_Pool] using h, ?_, rfl, rfl, rfl, rfl, rfl⟩
    simp only [Create_Timer_Pool, Nat.add_zero]
    exact (Nat.mod_eq_of_lt hc).symm
  | succ n ih =>
    intro s free h hc
    obtain ⟨hb, hbrk, hcnt, hht, htk, hhm, hpm, hcl⟩ := Create_Timer_Pool_body_built h
    have hc' : (Create_Timer_Pool_body s).FreeTmrCount < U8 := by
      rw [hcnt]; unfold inc8 U8; omega
    obtain ⟨ib, icnt, iht, itk, ihm, ipm, icl⟩ := ih hb hc'
    simp only [Create_Timer_Pool]
    refine ⟨?_, ?_, iht.trans hht, itk.trans htk, ihm.trans hhm, ipm.trans hpm, icl.trans hcl⟩
    · rw [hbrk] at ib
      simpa [List.range'_succ, List.reverse_cons, List.append_assoc] using ib
    · rw [icnt, hcnt]; unfold inc8 U8; omega

theorem range'_zero_reverse (k : Nat) : (List.range' 0 k).reverse = (List.range k).reverse := by
  rw [List.range_eq_range']

theorem RTOSTmrInit_wellFormed (M k : Nat) (mem : Nat → RTOS_TMR) (hM : 0 < M) (hk : k < U8) :
    WellFormed M (RTOSTmrInit M k (initialState mem)) (List.range k).reverse (fun _ => []) := by
  have h0 : PoolBuilt (initialState mem) [] :=
    ⟨rfl, by simp, List.nodup_nil, by simp⟩
  obtain ⟨hb, hcnt, hht, htk, hhm, hpm, hcl⟩ :=
    Create_Timer_Pool_built k h0 (show (0 : Nat) < U8 by decide)
  have hlist : (List.range' (initialState mem).heap_brk k).reverse ++ []
      = (List.range k).reverse := by
    simp [initialState, List.range_eq_range']
  rw [hlist] at hb
  have hbucket : ∀ i, (RTOSTmrInit M k (initialState mem)).hash_table i = ⟨none, 0⟩ := by
    intro i
    simp only [RTOSTmrInit, init_hash_table, hht]
    split <;> rfl
  refine
    { buckets_pos := hM
      tick_lt := by
        show (Create_Timer_Pool k (initialState mem)).RTOSTmrTickCtr < U32
        rw [htk]
        show (0 : Nat) < U32
        decide
      hash_mutex := hhm
      pool_mutex := hpm
      pool_chain := hb.chain
      pool_count := by
        show (Create_Timer_Pool k (initialState mem)).FreeTmrCount = _
        rw [hcnt]
        simp only [initialState, Nat.zero_add, List.length_reverse, List.length_range]
        exact Nat.mod_eq_of_lt hk
      pool_bound := by simpa using hk
      pool_nodup := hb.nodup
      pool_unused := hb.unused
      reg_chain := by intro i _; rw [hbucket]; rfl
      reg_count := by intro i _; rw [hbucket]; rfl
      reg_bound := by intro i _; decide
      reg_nodup := by intro i _; exact List.nodup_nil
      reg_hash := by intro i _ a ha; cases ha
      reg_running := by intro i _ a ha; cases ha }

theorem create_non_avail (s : TimerManager) (delay period option : Nat)
    (callback : Option Nat) (callback_arg name : Nat)
    (hm : s.timer_pool_mutex = false) (hc : s.FreeTmrCount = 0) (hd : 1 ≤ delay)
    (ho : option = RTOS_TMR_ONE_SHOT ∨ (option = RTOS_TMR_PERIODIC ∧ 1 ≤ period)) :
    RTOSTmrCreate delay period option callback callback_arg name s
      = .ok (none, RTOS_ERR_TMR_NON_AVAIL, s) := by
  have h1 : ¬ delay < 1 := by omega
  have h2 : ¬ (option = RTOS_TMR_PERIODIC ∧ period < 1) := by
    rcases ho with ho | ⟨_, hp⟩
    · subst ho; simp [RTOS_TMR_ONE_SHOT, RTOS_TMR_PERIODIC]
    · omega
  have h3 : ¬ (option ≠ RTOS_TMR_PERIODIC ∧ option ≠ RTOS_TMR_ONE_SHOT) := by
    rcases ho with ho | ⟨ho, _⟩ <;> simp [ho]
  simp only [RTOSTmrCreate, alloc_timer_obj, hm, hc, h1, h2, h3, if_false, if_true,
    Bool.false_eq_true]
  congr 3
  exact TimerManager.ext rfl rfl hc.symm rfl rfl rfl rfl hm.symm rfl

theorem bootState_256_count : (bootState 256).FreeTmrCount = 0
    ∧ (bootState 256).timer_pool_mutex = false := by
  have h0 : PoolBuilt (initialState fun _ => blankTimer) [] :=
    ⟨rfl, by simp, List.nodup_nil, by simp⟩
  obtain ⟨-, hcnt, -, -, -, hpm, -⟩ :=
    Create_Timer_Pool_built 256 h0 (show (0 : Nat) < U8 by decide)
  constructor
  · simp only [bootState, RTOSTmrInit, init_hash_table]
    rw [hcnt]
    rfl
  · simp only [bootState, RTOSTmrInit, init_hash_table]
    rw [hpm]
    rfl

theorem createAll_wellFormed {M : Nat} {L : Nat → List Nat} :
    ∀ (free : List Nat) (args : List CreateArgs) (s : TimerManager),
      WellFormed M s free L → args.length = free.length + 1 → (∀ a ∈ args, a.Valid) →
      ∃ s', createAll args s
        = .ok (free.map (fun h => (some h, RTOS_SUCCESS)) ++ [(none, RTOS_ERR_TMR_NON_AVAIL)], s') := by
  intro free
  induction free with
  | nil =>
    intro args s hwf hlen hv
    match args, hlen with
    | [a], _ =>
      obtain ⟨hd, ho⟩ := hv a (List.mem_singleton_self a)
      have hc : s.FreeTmrCount = 0 := hwf.pool_count
      refine ⟨s, ?_⟩
      simp [createAll, create_non_avail s a.delay a.period a.option a.callback a.callback_arg
        a.name hwf.pool_mutex hc hd ho]
  | cons h rest ih =>
    intro args s hwf hlen hv
    match args, hlen with
    | a :: as, hlen =>
      obtain ⟨hd, ho⟩ := hv a (List.mem_cons_self _ _)
      obtain ⟨s₁, hs₁, -, -, hwf₁, -⟩ :=
        create_wellFormed hwf a.delay a.period a.option a.callback a.callback_arg a.name hd ho
      obtain ⟨s₂, hs₂⟩ := ih as s₁ hwf₁ (by simpa using hlen)
        (fun b hb => hv b (List.mem_cons_of_mem _ hb))
      exact ⟨s₂, by simp [createAll, hs₁, hs₂]⟩

/-! ## The registry -/

@[simp]
theorem remove_hash_entry_loop_none (index t fuel : Nat) (s : TimerManager) :
    remove_hash_entry_loop index t fuel s none = .ok s := by
  cases fuel <;> rfl

theorem remove_hash_entry_loop_found (index : Nat) {t pv : Nat} {s : TimerManager}
    (hpv : (s.mem t).RTOSTmrPrev = some pv) :
    ∀ (l : List Nat) (fuel : Nat) (p : Option Nat), Chain s.mem p l →
      t ∈ l → l.length ≤ fuel →
      remove_hash_entry_loop index t fuel s p = .ok (unlinked index t pv s) := by
  intro l
  induction l with
  | nil => intro fuel p _ ht; cases ht
  | cons a l ih =>
    intro fuel p hch ht hf
    have hp : p = some a := hch.1
    subst hp
    obtain ⟨f, rfl⟩ : ∃ f, fuel = f + 1 := ⟨fuel - 1, by simp at hf; omega⟩
    by_cases hat : a = t
    · subst hat
      simp [remove_hash_entry_loop, hpv, unlinked]
    · simp only [remove_hash_entry_loop, hat, if_false]
      have ht' : t ∈ l := by
        rcases List.mem_cons.1 ht with h | h
        · exact absurd h.symm hat
        · exact h
      exact ih f _ hch.2 ht' (by simp at hf; omega)

/-- In a doubly linked list the `RTOSTmrPrev` of a member is the pointer before the
list, when the member is the first, or a different member. -/
theorem dchain_prev_mem {mem : Nat → RTOS_TMR} {t : Nat} :
    ∀ (l : List Nat) (q p : Option Nat), DChain mem q p l → l.Nodup → t ∈ l →
      ((mem t).RTOSTmrPrev = q ∧ p = some t)
      ∨ ∃ a ∈ l, a ≠ t ∧ (mem t).RTOSTmrPrev = some a ∧ (mem a).RTOSTmrNext = some t := by
  intro l
  induction l with
  | nil => intro q p _ _ ht; cases ht
  | cons x r ih =>
    intro q p hd hn ht
    obtain ⟨hx, hr⟩ := List.nodup_cons.1 hn
    by_cases hxt : x = t
    · subst hxt; exact Or.inl ⟨hd.2.1, hd.1⟩
    · have ht' : t ∈ r := by
        rcases List.mem_cons.1 ht with h | h
        · exact absurd h.symm hxt
        · exact h
      rcases ih (some x) _ hd.2.2 hr ht' with ⟨h1, h2⟩ | ⟨a, ha, hat, h1, h2⟩
      · exact Or.inr ⟨x, List.mem_cons_self _ _, hxt, h1, h2⟩
      · exact Or.inr ⟨a, List.mem_cons_of_mem _ ha, hat, h1, h2⟩

/-- In a doubly linked list the `RTOSTmrNext` of a member is `NULL` or a different
member that comes later. -/
theorem dchain_next_mem {mem : Nat → RTOS_TMR} {t : Nat} :
    ∀ (l : List Nat) (q p : Option Nat), DChain mem q p l → l.Nodup → t ∈ l →
      (mem t).RTOSTmrNext = none
      ∨ ∃ a ∈ l, a ≠ t ∧ p ≠ some a ∧ (mem t).RTOSTmrNext = some a := by
  intro l
  induction l with
  | nil => intro q p _ _ ht; cases ht
  | cons x r ih =>
    intro q p hd hn ht
    obtain ⟨hx, hr⟩ := List.nodup_cons.1 hn
    have hp : p = some x := hd.1
    by_cases hxt : x = t
    · subst hxt
      cases r with
      | nil => exact Or.inl hd.2.2
      | cons y r' =>
        have hy : (mem x).RTOSTmrNext = some y := hd.2.2.1
        have hyx : y ≠ x := fun e => hx (e ▸ List.mem_cons_self _ _)
        refine Or.inr ⟨y, List.mem_cons_of_mem _ (List.mem_cons_self _ _), hyx, ?_, hy⟩
        rw [hp]; intro e; cases e; exact hyx rfl
    · have ht' : t ∈ r := by
        rcases List.mem_cons.1 ht with h | h
        · exact absurd h.symm hxt
        · exact h
      rcases ih (some x) _ hd.2.2 hr ht' with h | ⟨a, ha, hat, _, h⟩
      · exact Or.inl h
      · refine Or.inr ⟨a, List.mem_cons_of_mem _ ha, hat, ?_, h⟩
        rw [hp]; intro e; cases e; exact hx ha

/-- Taking a member out of a doubly linked list: the remaining nodes spell out the
list without it. -/
theorem dchain_erase {mem mem' : Nat → RTOS_TMR} {t : Nat} (hu : Unlinked mem mem' t) :
    ∀ (l : List Nat) (q p : Option Nat), DChain mem q p l → l.Nodup → t ∈ l →
      (∀ a ∈ l, q ≠ some a) →
      DChain mem' q (if p = some t then (mem t).RTOSTmrNext else p) (l.erase t) := by
  intro l
  induction l with
  | nil => intro q p _ _ ht; cases ht
  | cons x r ih =>
    intro q p hd hn ht hq
    obtain ⟨hx, hr⟩ := List.nodup_cons.1 hn
    have hp : p = some x := hd.1
    by_cases hxt : x = t
    · subst hxt
      rw [List.erase_cons_head, if_pos hp]
      have hprev : (mem x).RTOSTmrPrev = q := hd.2.1
      cases r with
      | nil => exact hd.2.2
      | cons y r' =>
        have hy : (mem x).RTOSTmrNext = some y := hd.2.2.1
        have hyx : y ≠ x := fun e => hx (e ▸ List.mem_cons_self _ _)
        obtain ⟨hyr, _⟩ := List.nodup_cons.1 hr
        have hqy : q ≠ some y := hq y (List.mem_cons_of_mem _ (List.mem_cons_self _ _))
        refine ⟨hy, ?_, ?_⟩
        · rw [hu.2 y hyx]; simp [hy, hprev]
        · have hyn : (mem' y).RTOSTmrNext = (mem y).RTOSTmrNext := by
            rw [hu.2 y hyx]; simp [hprev, hqy]
          rw [hyn]
          refine dchain_frame ?_ hd.2.2.2.2
          intro a ha
          have hax : a ≠ x := fun e => hx (e ▸ List.mem_cons_of_mem _ ha)
          have hay : a ≠ y := fun e => hyr (e ▸ ha)
          have hqa : q ≠ some a :=
            hq a (List.mem_cons_of_mem _ (List.mem_cons_of_mem _ ha))
          rw [hu.2 a hax]
          have h1 : ¬ some y = some a := fun e => hay (Option.some.inj e).symm
          simp [hprev, hqa, hy, h1]
    · have ht' : t ∈ r := by
        rcases List.mem_cons.1 ht with h | h
        · exact absurd h.symm hxt
        · exact h
      have hpt : p ≠ some t := by rw [hp]; intro e; exact hxt (Option.some.inj e)
      have hbeq : ¬ (x == t) = true := by simpa using hxt
      rw [List.erase_cons_tail hbeq, if_neg hpt]
      have hxprev : (mem' x).RTOSTmrPrev = q := by
        rw [hu.2 x hxt]
        have : (mem t).RTOSTmrNext ≠ some x := by
          rcases dchain_next_mem r (some x) _ hd.2.2 hr ht' with h | ⟨a, ha, _, _, h⟩
          · rw [h]; simp
          · rw [h]; intro e; exact hx ((Option.some.inj e) ▸ ha)
        simp [this, hd.2.1]
      have hxnext : (mem' x).RTOSTmrNext
          = if (mem x).RTOSTmrNext = some t then (mem t).RTOSTmrNext
            else (mem x).RTOSTmrNext := by
        rw [hu.2 x hxt]
        rcases dchain_prev_mem r (some x) _ hd.2.2 hr ht' with ⟨h1, h2⟩ | ⟨a, ha, _, h1, _⟩
        · simp [h1, h2]
        · have hne : ¬ a = x := fun e => hx (e ▸ ha)
          have h3 : (mem x).RTOSTmrNext ≠ some t := by
            intro h3
            -- then `t` is the first node of `r`, whose `RTOSTmrPrev` is `x`
            cases r with
            | nil => cases ht'
            | cons y r' =>
              have hy : (mem x).RTOSTmrNext = some y := hd.2.2.1
              rw [hy] at h3
              have hyt : y = t := Option.some.inj h3
              have : (mem y).RTOSTmrPrev = some x := hd.2.2.2.1
              rw [hyt, h1] at this
              exact hne (Option.some.inj this)
          simp [h1, hne, h3]
      refine ⟨hp, hxprev, ?_⟩
      rw [hxnext]
      exact ih (some x) _ hd.2.2 hr ht' (fun a ha e => hx ((Option.some.inj e) ▸ ha))

theorem unlinked_mem (index : Nat) {t pv : Nat} {s : TimerManager}
    (hpv : (s.mem t).RTOSTmrPrev = some pv) (hne : pv ≠ t) :
    Unlinked s.mem (unlinked index t pv s).mem t := by
  have hne' : ¬ t = pv := fun e => hne e.symm
  constructor
  · simp only [unlinked, upd_mem, updBucket_mem, Function.update_same, setPrevIf_mem_apply,
      Function.update_apply, hne', if_false]
    split <;> rfl
  · intro a ha
    simp only [unlinked, upd_mem, updBucket_mem, Function.update_apply, ha, if_false,
      setPrevIf_mem_apply, hne', hpv]
    by_cases h1 : a = pv
    · subst h1
      by_cases h2 : (s.mem t).RTOSTmrNext = some a <;> simp [h2]
    · have h1' : ¬ pv = a := fun e => h1 e.symm
      by_cases h2 : (s.mem t).RTOSTmrNext = some a <;> simp [h1, h1', h2]

theorem remove_hash_entry_linked {M fuel : Nat} {s : TimerManager} {free : List Nat}
    {L : Nat → List Nat} {t : Nat} (hwf : WellFormed M s free L)
    (ht : t ∈ L ((s.mem t).RTOSTmrMatch % M))
    (hfuel : (L ((s.mem t).RTOSTmrMatch % M)).length ≤ fuel) :
    ∃ s', remove_hash_entry M fuel (some t) s = .ok s'
      ∧ Unlinked s.mem s'.mem t
      ∧ s'.hash_table = Function.update s.hash_table ((s.mem t).RTOSTmrMatch % M)
          ⟨if (s.hash_table ((s.mem t).RTOSTmrMatch % M)).list_ptr = some t
              then (s.mem t).RTOSTmrNext
              else (s.hash_table ((s.mem t).RTOSTmrMatch % M)).list_ptr,
            dec8 (s.hash_table ((s.mem t).RTOSTmrMatch % M)).timer_count⟩
      ∧ SameGlobals s s' := by
  have hb : (s.mem t).RTOSTmrMatch % M < M := Nat.mod_lt _ hwf.buckets_pos
  generalize hbdef : (s.mem t).RTOSTmrMatch % M = b at *
  have hd := hwf.reg_chain b hb
  have hn := hwf.reg_nodup b hb
  have hm := hwf.hash_mutex
  cases hl : L b with
  | nil => rw [hl] at ht; cases ht
  | cons x r =>
    rw [hl] at hd hn ht hfuel
    have hhead : (s.hash_table b).list_ptr = some x := hd.1
    by_cases hxt : x = t
    · subst hxt
      have hprev : (s.mem x).RTOSTmrPrev = none := hd.2.1
      simp only [remove_hash_entry, hashCode, hbdef, hm, hhead, if_true, if_false,
        Bool.false_eq_true]
      refine ⟨_, rfl, ?_, ?_, ?_⟩
      · constructor
        · simp only [upd_mem, updBucket_mem, Function.update_same, setPrevIf_mem_apply]
          split <;> rfl
        · intro a ha
          simp only [upd_mem, updBucket_mem, Function.update_apply, ha, if_false,
            setPrevIf_mem_apply, updBucket_hash_table, Function.update_same, hprev]
          by_cases h : (s.mem x).RTOSTmrNext = some a <;> simp [h]
      · simp [hhead]
      · simp [SameGlobals, hm]
    · have ht' : t ∈ r := by
        rcases List.mem_cons.1 ht with h | h
        · exact absurd h.symm hxt
        · exact h
      obtain ⟨pv, hpvt, hpv⟩ : ∃ pv, pv ≠ t ∧ (s.mem t).RTOSTmrPrev = some pv := by
        rcases dchain_prev_mem (x :: r) none _ hd hn ht with ⟨_, h2⟩ | ⟨a, _, hat, h1, _⟩
        · rw [hhead] at h2; exact absurd (Option.some.inj h2) hxt
        · exact ⟨a, hat, h1⟩
      have hloop := remove_hash_entry_loop_found b
        (s := { s with hash_table_mutex := true }) hpv r fuel (s.mem x).RTOSTmrNext
        (dchain_chain hd.2.2) ht' (by simp at hfuel; omega)
      simp only [remove_hash_entry, hashCode, hbdef, hm, hhead, hxt, if_false,
        Bool.false_eq_true, hloop]
      refine ⟨_, rfl, ?_, ?_, ?_⟩
      · exact unlinked_mem b (s := { s with hash_table_mutex := true }) hpv hpvt
      · have : ¬ x = t := hxt
        simp [unlinked, hhead, this]
      · simp [SameGlobals, unlinked, hm]

theorem unlinked_data {mem mem' : Nat → RTOS_TMR} {t : Nat} (hu : Unlinked mem mem' t)
    (a : Nat) :
    (mem' a).RTOSTmrState = (mem a).RTOSTmrState
    ∧ (mem' a).RTOSTmrMatch = (mem a).RTOSTmrMatch
    ∧ (mem' a).RTOSTmrType = (mem a).RTOSTmrType
    ∧ (mem' a).RTOSTmrOpt = (mem a).RTOSTmrOpt
    ∧ (mem' a).RTOSTmrDelay = (mem a).RTOSTmrDelay
    ∧ (mem' a).RTOSTmrPeriod = (mem a).RTOSTmrPeriod
    ∧ (mem' a).RTOSTmrCallback = (mem a).RTOSTmrCallback
    ∧ (mem' a).RTOSTmrCallbackArg = (mem a).RTOSTmrCallbackArg
    ∧ (mem' a).RTOSTmrName = (mem a).RTOSTmrName := by
  by_cases h : a = t
  · subst h; rw [hu.1]; simp
  · rw [hu.2 a h]; simp

theorem dec8_of_pos {n : Nat} (h0 : 0 < n) (h : n < U8) : dec8 n = n - 1 := by
  unfold dec8 U8 at *; omega

/-- Distinct buckets of a well-formed registry have no timer in common. -/
theorem bucket_disjoint {M : Nat} {s : TimerManager} {free : List Nat} {L : Nat → List Nat}
    (hwf : WellFormed M s free L) {i j a : Nat} (hi : i < M) (hj : j < M)
    (hai : a ∈ L i) (haj : a ∈ L j) : i = j := by
  rw [← hwf.reg_hash i hi a hai, ← hwf.reg_hash j hj a haj]

theorem wellFormed_unlink {M : Nat} {s s' : TimerManager} {free : List Nat}
    {L : Nat → List Nat} {t b : Nat} (hwf : WellFormed M s free L) (hb : b < M)
    (ht : t ∈ L b) (hu : Unlinked s.mem s'.mem t)
    (hht : s'.hash_table = Function.update s.hash_table b
      ⟨if (s.hash_table b).list_ptr = some t then (s.mem t).RTOSTmrNext
        else (s.hash_table b).list_ptr, dec8 (s.hash_table b).timer_count⟩)
    (hg : SameGlobals s s') :
    WellFormed M s' free (Function.update L b ((L b).erase t)) := by
  obtain ⟨-, hfc, hfl, htk, hhm, hpm, -⟩ := hg
  have hd := hwf.reg_chain b hb
  have hn := hwf.reg_nodup b hb
  -- nodes outside bucket `b` keep their links
  have hout : ∀ a, a ∉ L b → (s'.mem a).RTOSTmrNext = (s.mem a).RTOSTmrNext
      ∧ (s'.mem a).RTOSTmrPrev = (s.mem a).RTOSTmrPrev := by
    intro a ha
    have hat : a ≠ t := fun e => ha (e ▸ ht)
    have hp : (s.mem t).RTOSTmrPrev ≠ some a := by
      rcases dchain_prev_mem (L b) none _ hd hn ht with ⟨h, _⟩ | ⟨c, hc, _, h, _⟩
      · rw [h]; simp
      · rw [h]; intro e; exact ha ((Option.some.inj e) ▸ hc)
    have hx : (s.mem t).RTOSTmrNext ≠ some a := by
      rcases dchain_next_mem (L b) none _ hd hn ht with h | ⟨c, hc, _, _, h⟩
      · rw [h]; simp
      · rw [h]; intro e; exact ha ((Option.some.inj e) ▸ hc)
    rw [hu.2 a hat]; simp [hp, hx]
  have hLb : ∀ j, j < M → j ≠ b → ∀ a ∈ L j, a ∉ L b := by
    intro j hj hjb a haj hab
    exact hjb (bucket_disjoint hwf hj hb haj hab)
  refine
    { buckets_pos := hwf.buckets_pos
      tick_lt := by rw [htk]; exact hwf.tick_lt
      hash_mutex := by rw [hhm]; exact hwf.hash_mutex
      pool_mutex := by rw [hpm]; exact hwf.pool_mutex
      pool_chain := ?_
      pool_count := by rw [hfc]; exact hwf.pool_count
      pool_bound := hwf.pool_bound
      pool_nodup := hwf.pool_nodup
      pool_unused := ?_
      reg_chain := ?_
      reg_count := ?_
      reg_bound := ?_
      reg_nodup := ?_
      reg_hash := ?_
      reg_running := ?_ }
  · rw [hfl]
    refine chain_frame ?_ hwf.pool_chain
    intro a ha
    exact (hout a (not_mem_bucket_of_free hwf ha hb)).1
  · intro a ha
    rw [(unlinked_data hu a).1]; exact hwf.pool_unused a ha
  · intro j hj
    by_cases hjb : j = b
    · subst hjb
      rw [hht]
      simp only [Function.update_same]
      exact dchain_erase hu (L j) none _ hd hn ht (fun a _ => by simp)
    · rw [hht]
      simp only [Function.update_noteq hjb]
      exact dchain_frame (fun a ha => hout a (hLb j hj hjb a ha)) (hwf.reg_chain j hj)
  · intro j hj
    by_cases hjb : j = b
    · subst hjb
      rw [hht]
      simp only [Function.update_same]
      rw [hwf.reg_count j hj, List.length_erase_of_mem ht]
      exact dec8_of_pos (List.length_pos_of_mem ht) (hwf.reg_bound j hj)
    · rw [hht]
      simp only [Function.update_noteq hjb]
      exact hwf.reg_count j hj
  · intro j hj
    by_cases hjb : j = b
    · subst hjb
      simp only [Function.update_same]
      rw [List.length_erase_of_mem ht]
      have := hwf.reg_bound j hj
      omega
    · simp only [Function.update_noteq hjb]
      exact hwf.reg_bound j hj
  · intro j hj
    by_cases hjb : j = b
    · subst hjb
      simp only [Function.update_same]
      exact hn.erase t
    · simp only [Function.update_noteq hjb]
      exact hwf.reg_nodup j hj
  · intro j hj a ha
    rw [(unlinked_data hu a).2.1]
    by_cases hjb : j = b
    · subst hjb
      simp only [Function.update_same] at ha
      exact hwf.reg_hash j hj a (List.mem_of_mem_erase ha)
    · simp only [Function.update_noteq hjb] at ha
      exact hwf.reg_hash j hj a ha
  · intro j hj a ha
    rw [(unlinked_data hu a).1]
    by_cases hjb : j = b
    · subst hjb
      simp only [Function.update_same] at ha
      exact hwf.reg_running j hj a (List.mem_of_mem_erase ha)
    · simp only [Function.update_noteq hjb] at ha
      exact hwf.reg_running j hj a ha

theorem linked_data {mem mem' : Nat → RTOS_TMR} {t : Nat} {head : Option Nat}
    (hu : Linked mem mem' t head) (a : Nat) :
    (mem' a).RTOSTmrState = (mem a).RTOSTmrState
    ∧ (mem' a).RTOSTmrMatch = (mem a).RTOSTmrMatch
    ∧ (mem' a).RTOSTmrType = (mem a).RTOSTmrType
    ∧ (mem' a).RTOSTmrOpt = (mem a).RTOSTmrOpt
    ∧ (mem' a).RTOSTmrDelay = (mem a).RTOSTmrDelay
    ∧ (mem' a).RTOSTmrPeriod = (mem a).RTOSTmrPeriod
    ∧ (mem' a).RTOSTmrCallback = (mem a).RTOSTmrCallback
    ∧ (mem' a).RTOSTmrCallbackArg = (mem a).RTOSTmrCallbackArg
    ∧ (mem' a).RTOSTmrName = (mem a).RTOSTmrName := by
  by_cases h : a = t
  · subst h; rw [hu.1]; simp
  · rw [hu.2 a h]; simp

theorem insert_hash_entry_spec {M : Nat} {s : TimerManager} {t : Nat}
    (hm : s.hash_table_mutex = false)
    (hhd : (s.hash_table ((s.mem t).RTOSTmrMatch % M)).list_ptr ≠ some t) :
    ∃ s', insert_hash_entry M t s = .ok s'
      ∧ Linked s.mem s'.mem t (s.hash_table ((s.mem t).RTOSTmrMatch % M)).list_ptr
      ∧ s'.hash_table = Function.update s.hash_table ((s.mem t).RTOSTmrMatch % M)
          ⟨some t, inc8 (s.hash_table ((s.mem t).RTOSTmrMatch % M)).timer_count⟩
      ∧ SameGlobals s s' := by
  generalize hbdef : (s.mem t).RTOSTmrMatch % M = b at *
  simp only [insert_hash_entry, hashCode, hbdef, hm, if_false, Bool.false_eq_true]
  refine ⟨_, rfl, ?_, ?_, ?_⟩
  · constructor
    · simp only [upd_mem, updBucket_mem, Function.update_same, setPrevIf_mem_apply,
        upd_hash_table, if_neg hhd]
    · intro a ha
      simp only [upd_mem, updBucket_mem, Function.update_apply, ha, if_false,
        setPrevIf_mem_apply, upd_hash_table]
      by_cases h : (s.hash_table b).list_ptr = some a <;> simp [h]
  · simp
  · simp [SameGlobals, hm]

theorem dchain_reprev {mem mem' : Nat → RTOS_TMR} {l : List Nat} {q q' p : Option Nat}
    (hd : DChain mem q p l) (hn : l.Nodup)
    (hnext : ∀ a ∈ l, (mem' a).RTOSTmrNext = (mem a).RTOSTmrNext)
    (hprev : ∀ a ∈ l, (mem' a).RTOSTmrPrev = if p = some a then q' else (mem a).RTOSTmrPrev) :
    DChain mem' q' p l := by
  cases l with
  | nil => exact hd
  | cons x r =>
    obtain ⟨hx, _⟩ := List.nodup_cons.1 hn
    have hp : p = some x := hd.1
    refine ⟨hp, ?_, ?_⟩
    · rw [hprev x (List.mem_cons_self _ _), if_pos hp]
    · rw [hnext x (List.mem_cons_self _ _)]
      refine dchain_frame ?_ hd.2.2
      intro a ha
      refine ⟨hnext a (List.mem_cons_of_mem _ ha), ?_⟩
      rw [hprev a (List.mem_cons_of_mem _ ha), if_neg]
      rw [hp]; intro e; exact hx ((Option.some.inj e) ▸ ha)

/-- A state that differs from a well-formed one only in timers that are on no
list is well-formed. -/
theorem wellFormed_frame {M : Nat} {s s' : TimerManager} {free : List Nat}
    {L : Nat → List Nat} (hwf : WellFormed M s free L)
    (hfree : ∀ a ∈ free, s'.mem a = s.mem a)
    (hreg : ∀ i < M, ∀ a ∈ L i, s'.mem a = s.mem a)
    (hht : s'.hash_table = s.hash_table)
    (hfc : s'.FreeTmrCount = s.FreeTmrCount) (hfl : s'.FreeTmrListPtr = s.FreeTmrListPtr)
    (htk : s'.RTOSTmrTickCtr = s.RTOSTmrTickCtr)
    (hhm : s'.hash_table_mutex = s.hash_table_mutex)
    (hpm : s'.timer_pool_mutex = s.timer_pool_mutex) : WellFormed M s' free L := by
  exact
    { buckets_pos := hwf.buckets_pos
      tick_lt := by rw [htk]; exact hwf.tick_lt
      hash_mutex := by rw [hhm]; exact hwf.hash_mutex
      pool_mutex := by rw [hpm]; exact hwf.pool_mutex
      pool_chain := by
        rw [hfl]
        exact chain_frame (fun a ha => by rw [hfree a ha]) hwf.pool_chain
      pool_count := by rw [hfc]; exact hwf.pool_count
      pool_bound := hwf.pool_bound
      pool_nodup := hwf.pool_nodup
      pool_unused := by intro a ha; rw [hfree a ha]; exact hwf.pool_unused a ha
      reg_chain := by
        intro i hi
        rw [hht]
        exact dchain_frame (fun a ha => by rw [hreg i hi a ha]; exact ⟨rfl, rfl⟩)
          (hwf.reg_chain i hi)
      reg_count := by intro i hi; rw [hht]; exact hwf.reg_count i hi
      reg_bound := hwf.reg_bound
      reg_nodup := hwf.reg_nodup
      reg_hash := by intro i hi a ha; rw [hreg i hi a ha]; exact hwf.reg_hash i hi a ha
      reg_running := by
        intro i hi a ha; rw [hreg i hi a ha]; exact hwf.reg_running i hi a ha }

theorem wellFormed_link {M : Nat} {s s' : TimerManager} {free : List Nat}
    {L : Nat → List Nat} {t b : Nat} (hwf : WellFormed M s free L) (hb : b < M)
    (hbt : (s.mem t).RTOSTmrMatch % M = b)
    (hrun : (s.mem t).RTOSTmrState = RTOS_TMR_STATE_RUNNING)
    (htf : t ∉ free) (htL : ∀ i < M, t ∉ L i) (hlen : (L b).length + 1 < U8)
    (hu : Linked s.mem s'.mem t (s.hash_table b).list_ptr)
    (hht : s'.hash_table = Function.update s.hash_table b
      ⟨some t, inc8 (s.hash_table b).timer_count⟩)
    (hg : SameGlobals s s') :
    WellFormed M s' free (Function.update L b (t :: L b)) := by
  obtain ⟨-, hfc, hfl, htk, hhm, hpm, -⟩ := hg
  have hd := hwf.reg_chain b hb
  have hn := hwf.reg_nodup b hb
  have hnext : ∀ a, a ≠ t → (s'.mem a).RTOSTmrNext = (s.mem a).RTOSTmrNext := by
    intro a ha; rw [hu.2 a ha]
  have hprev : ∀ a, a ≠ t → (s'.mem a).RTOSTmrPrev
      = if (s.hash_table b).list_ptr = some a then some t else (s.mem a).RTOSTmrPrev := by
    intro a ha; rw [hu.2 a ha]
  have hout : ∀ a, a ≠ t → a ∉ L b → (s'.mem a).RTOSTmrNext = (s.mem a).RTOSTmrNext
      ∧ (s'.mem a).RTOSTmrPrev = (s.mem a).RTOSTmrPrev := by
    intro a hat ha
    refine ⟨hnext a hat, ?_⟩
    rw [hprev a hat, if_neg]
    intro e
    cases hl : L b with
    | nil => rw [hl] at hd; have : (s.hash_table b).list_ptr = none := hd; rw [this] at e; cases e
    | cons x r =>
      rw [hl] at hd
      have : (s.hash_table b).list_ptr = some x := hd.1
      rw [this] at e
      exact ha (by rw [hl, ← Option.some.inj e]; exact List.mem_cons_self _ _)
  have hLb : ∀ j, j < M → j ≠ b → ∀ a ∈ L j, a ∉ L b := by
    intro j hj hjb a haj hab
    exact hjb (bucket_disjoint hwf hj hb haj hab)
  refine
    { buckets_pos := hwf.buckets_pos
      tick_lt := by rw [htk]; exact hwf.tick_lt
      hash_mutex := by rw [hhm]; exact hwf.hash_mutex
      pool_mutex := by rw [hpm]; exact hwf.pool_mutex
      pool_chain := ?_
      pool_count := by rw [hfc]; exact hwf.pool_count
      pool_bound := hwf.pool_bound
      pool_nodup := hwf.pool_nodup
      pool_unused := ?_
      reg_chain := ?_
      reg_count := ?_
      reg_bound := ?_
      reg_nodup := ?_
      reg_hash := ?_
      reg_running := ?_ }
  · rw [hfl]
    refine chain_frame ?_ hwf.pool_chain
    intro a ha
    exact hnext a (fun e => htf (e ▸ ha))
  · intro a ha
    rw [(linked_data hu a).1]; exact hwf.pool_unused a ha
  · intro j hj
    by_cases hjb : j = b
    · subst hjb
      rw [hht]
      simp only [Function.update_same]
      refine ⟨rfl, by rw [hu.1], ?_⟩
      have : (s'.mem t).RTOSTmrNext = (s.hash_table j).list_ptr := by rw [hu.1]
      rw [this]
      refine dchain_reprev hd hn ?_ ?_
      · intro a ha; exact hnext a (fun e => htL j hj (e ▸ ha))
      · intro a ha; exact hprev a (fun e => htL j hj (e ▸ ha))
    · rw [hht]
      simp only [Function.update_noteq hjb]
      refine dchain_frame ?_ (hwf.reg_chain j hj)
      intro a ha
      exact hout a (fun e => htL j hj (e ▸ ha)) (hLb j hj hjb a ha)
  · intro j hj
    by_cases hjb : j = b
    · subst hjb
      rw [hht]
      simp only [Function.update_same, List.length_cons]
      rw [hwf.reg_count j hj]
      unfold inc8; unfold U8 at *; omega
    · rw [hht]
      simp only [Function.update_noteq hjb]
      exact hwf.reg_count j hj
  · intro j hj
    by_cases hjb : j = b
    · subst hjb
      simpa only [Function.update_same, List.length_cons] using hlen
    · simp only [Function.update_noteq hjb]
      exact hwf.reg_bound j hj
  · intro j hj
    by_cases hjb : j = b
    · subst hjb
      simp only [Function.update_same]
      exact List.nodup_cons.2 ⟨htL j hj, hn⟩
    · simp only [Function.update_noteq hjb]
      exact hwf.reg_nodup j hj
  · intro j hj a ha
    rw [(linked_data hu a).2.1]
    by_cases hjb : j = b
    · subst hjb
      simp only [Function.update_same] at ha
      rcases List.mem_cons.1 ha with h | h
      · rw [h]; exact hbt
      · exact hwf.reg_hash j hj a h
    · simp only [Function.update_noteq hjb] at ha
      exact hwf.reg_hash j hj a ha
  · intro j hj a ha
    rw [(linked_data hu a).1]
    by_cases hjb : j = b
    · subst hjb
      simp only [Function.update_same] at ha
      rcases List.mem_cons.1 ha with h | h
      · rw [h]; exact hrun
      · exact hwf.reg_running j hj a h
    · simp only [Function.update_noteq hjb] at ha
      exact hwf.reg_running j hj a ha

/-! ## Stopping and starting -/

theorem handleError_valid {s : TimerManager} {t : Nat}
    (htype : (s.mem t).RTOSTmrType = RTOS_TMR_TYPE)
    (hst : (s.mem t).RTOSTmrState = RTOS_TMR_STATE_STOPPED
      ∨ (s.mem t).RTOSTmrState = RTOS_TMR_STATE_RUNNING
      ∨ (s.mem t).RTOSTmrState = RTOS_TMR_STATE_COMPLETED) :
    handleError s (some t) = none := by
  rcases hst with h | h | h <;>
    simp [handleError, htype, h, RTOS_TMR_STATE_STOPPED, RTOS_TMR_STATE_RUNNING,
      RTOS_TMR_STATE_COMPLETED]

theorem stop_linked {M : Nat} (fuel : Nat) {s : TimerManager} {free : List Nat}
    {L : Nat → List Nat} {t : Nat} (opt callback_arg : Nat) (hwf : WellFormed M s free L)
    (htype : (s.mem t).RTOSTmrType = RTOS_TMR_TYPE)
    (hlinked : t ∈ L ((s.mem t).RTOSTmrMatch % M))
    (hopt : opt = RTOS_TMR_OPT_NONE
      ∨ ((opt = RTOS_TMR_OPT_CALLBACK ∨ opt = RTOS_TMR_OPT_CALLBACK_ARG)
        ∧ (s.mem t).RTOSTmrCallback ≠ none))
    (hfuel : (L ((s.mem t).RTOSTmrMatch % M)).length ≤ fuel) :
    ∃ s', RTOSTmrStop M fuel (some t) opt callback_arg s
        = .ok (RTOS_TRUE, (if (s.mem t).RTOSTmrCallback = none then RTOS_ERR_TMR_NO_CALLBACK
            else RTOS_ERR_NONE), s')
      ∧ WellFormed M s' free (Function.update L ((s.mem t).RTOSTmrMatch % M)
          ((L ((s.mem t).RTOSTmrMatch % M)).erase t))
      ∧ s'.mem t =
          { s.mem t with
            RTOSTmrNext := none
            RTOSTmrPrev := none
            RTOSTmrState := RTOS_TMR_STATE_STOPPED }
      ∧ (∀ a, a ≠ t → SameData (s'.mem a) (s.mem a))
      ∧ s'.calls = s.calls ++ stopCalls opt (s.mem t).RTOSTmrCallback
          (s.mem t).RTOSTmrCallbackArg callback_arg
      ∧ s'.RTOSTmrTickCtr = s.RTOSTmrTickCtr
      ∧ s'.FreeTmrCount = s.FreeTmrCount ∧ s'.FreeTmrListPtr = s.FreeTmrListPtr
      ∧ s'.hash_table = Function.update s.hash_table ((s.mem t).RTOSTmrMatch % M)
          ⟨if (s.hash_table ((s.mem t).RTOSTmrMatch % M)).list_ptr = some t
              then (s.mem t).RTOSTmrNext
              else (s.hash_table ((s.mem t).RTOSTmrMatch % M)).list_ptr,
            dec8 (s.hash_table ((s.mem t).RTOSTmrMatch % M)).timer_count⟩ := by
  have hb : (s.mem t).RTOSTmrMatch % M < M := Nat.mod_lt _ hwf.buckets_pos
  have hrun := hwf.reg_running _ hb t hlinked
  have hval := handleError_valid htype (Or.inr (Or.inl hrun))
  obtain ⟨s1, hs1, hu, hht, hg⟩ := remove_hash_entry_linked hwf hlinked hfuel
  have hwf1 := wellFormed_unlink hwf hb hlinked hu hht hg
  obtain ⟨hbrk, hfc, hfl, htk, hhm, hpm, hcl⟩ := hg
  have hnotin : ∀ i < M, t ∉ Function.update L ((s.mem t).RTOSTmrMatch % M)
      ((L ((s.mem t).RTOSTmrMatch % M)).erase t) i := by
    intro i hi hmem
    by_cases hib : i = (s.mem t).RTOSTmrMatch % M
    · subst hib
      simp only [Function.update_same] at hmem
      exact (List.Nodup.mem_erase_iff (hwf.reg_nodup _ hb)).1 hmem |>.1 rfl
    · simp only [Function.update_noteq hib] at hmem
      exact hib (bucket_disjoint hwf hi hb hmem hlinked)
  have hnotfree : t ∉ free := fun h => not_mem_bucket_of_free hwf h hb hlinked
  have h1 : ¬ (opt ≠ RTOS_TMR_OPT_NONE ∧ opt ≠ RTOS_TMR_OPT_CALLBACK
      ∧ opt ≠ RTOS_TMR_OPT_CALLBACK_ARG) := by
    rcases hopt with h | ⟨h | h, _⟩ <;> simp [h]
  have h2 : ¬ (s.mem t).RTOSTmrState = RTOS_TMR_STATE_STOPPED := by
    rw [hrun]; decide
  have hcb1 : (s1.mem t).RTOSTmrCallback = (s.mem t).RTOSTmrCallback :=
    (unlinked_data hu t).2.2.2.2.2.2.1
  have harg1 : (s1.mem t).RTOSTmrCallbackArg = (s.mem t).RTOSTmrCallbackArg :=
    (unlinked_data hu t).2.2.2.2.2.2.2.1
  -- the state once the timer is marked `Stopped`
  have hwf2 : ∀ c, WellFormed M
      { s1.upd t (fun x => { x with RTOSTmrState := RTOS_TMR_STATE_STOPPED }) with calls := c }
      free (Function.update L ((s.mem t).RTOSTmrMatch % M)
        ((L ((s.mem t).RTOSTmrMatch % M)).erase t)) := by
    intro c
    refine wellFormed_frame hwf1 ?_ ?_ rfl rfl rfl rfl rfl rfl
    · intro a ha
      have : a ≠ t := fun e => hnotfree (e ▸ ha)
      simp [Function.update_apply, this]
    · intro i hi a ha
      have : a ≠ t := fun e => hnotin i hi (e ▸ ha)
      simp [Function.update_apply, this]
  refine ⟨{ s1.upd t (fun x => { x with RTOSTmrState := RTOS_TMR_STATE_STOPPED }) with
      calls := s.calls ++ stopCalls opt (s.mem t).RTOSTmrCallback
        (s.mem t).RTOSTmrCallbackArg callback_arg },
    ?_, hwf2 _, ?_, ?_, rfl, htk, hfc, hfl, hht⟩
  · simp only [RTOSTmrStop, hval, h1, h2, if_false, hs1]
    rcases hopt with h | ⟨h | h, hne⟩
    · subst h
      have : stopCalls RTOS_TMR_OPT_NONE (s.mem t).RTOSTmrCallback
          (s.mem t).RTOSTmrCallbackArg callback_arg = [] := by
        unfold stopCalls; split <;> rfl
      rw [this]
      simp only [RTOS_TMR_OPT_NONE, RTOS_TMR_OPT_CALLBACK, RTOS_TMR_OPT_CALLBACK_ARG]
      simp
      exact TimerManager.ext rfl rfl rfl rfl rfl rfl rfl rfl hcl
    · subst h
      obtain ⟨f, hf⟩ := Option.ne_none_iff_exists'.1 hne
      simp [stopCalls, RTOS_TMR_OPT_NONE, RTOS_TMR_OPT_CALLBACK, RTOS_TMR_OPT_CALLBACK_ARG,
        callCallback, hcb1, harg1, hcl, hf]
    · subst h
      obtain ⟨f, hf⟩ := Option.ne_none_iff_exists'.1 hne
      simp [stopCalls, RTOS_TMR_OPT_NONE, RTOS_TMR_OPT_CALLBACK, RTOS_TMR_OPT_CALLBACK_ARG,
        callCallback, hcb1, hcl, hf]
  · simp only [upd_mem, Function.update_same, hu.1]
  · intro a ha
    have hd := unlinked_data hu a
    simp only [upd_mem, Function.update_apply, ha, if_false]
    exact hd

theorem head_mem_of_dchain {mem : Nat → RTOS_TMR} {q p : Option Nat} {l : List Nat} {a : Nat}
    (hd : DChain mem q p l) (hp : p = some a) : a ∈ l := by
  cases l with
  | nil => have : p = none := hd; rw [this] at hp; cases hp
  | cons x r =>
    have : p = some x := hd.1
    rw [this] at hp
    rw [← Option.some.inj hp]
    exact List.mem_cons_self _ _

theorem start_arm_wellFormed {M : Nat} {s : TimerManager} {free : List Nat}
    {L : Nat → List Nat} {t m : Nat} (hwf : WellFormed M s free L)
    (htf : t ∉ free) (htL : ∀ i < M, t ∉ L i) (hlen : (L (m % M)).length + 1 < U8) :
    ∃ s', RTOSTmrStart_arm M t (s.upd t (fun x => { x with RTOSTmrMatch := m }))
        = .ok (RTOS_TRUE, RTOS_ERR_NONE, s')
      ∧ WellFormed M s' free (Function.update L (m % M) (t :: L (m % M)))
      ∧ s'.mem t =
          { s.mem t with
            RTOSTmrNext := (s.hash_table (m % M)).list_ptr
            RTOSTmrPrev := none
            RTOSTmrMatch := m
            RTOSTmrState := RTOS_TMR_STATE_RUNNING }
      ∧ (∀ a, a ≠ t → SameData (s'.mem a) (s.mem a))
      ∧ s'.calls = s.calls
      ∧ s'.RTOSTmrTickCtr = s.RTOSTmrTickCtr
      ∧ s'.FreeTmrCount = s.FreeTmrCount ∧ s'.FreeTmrListPtr = s.FreeTmrListPtr
      ∧ s'.hash_table = Function.update s.hash_table (m % M)
          ⟨some t, inc8 (s.hash_table (m % M)).timer_count⟩ := by
  have hb : m % M < M := Nat.mod_lt _ hwf.buckets_pos
  -- the state in which the timer is marked `Running` with its new match tick
  let s2 := (s.upd t (fun x => { x with RTOSTmrMatch := m })).upd t
    (fun x => { x with RTOSTmrState := RTOS_TMR_STATE_RUNNING })
  have hs2t : s2.mem t =
      { s.mem t with
        RTOSTmrMatch := m
        RTOSTmrState := RTOS_TMR_STATE_RUNNING } := by
    simp [s2]
  have hs2a : ∀ a, a ≠ t → s2.mem a = s.mem a := by
    intro a ha; simp [s2, Function.update_apply, ha]
  have hwf2 : WellFormed M s2 free L := by
    refine wellFormed_frame hwf ?_ ?_ rfl rfl rfl rfl rfl rfl
    · intro a ha; exact hs2a a (fun e => htf (e ▸ ha))
    · intro i hi a ha; exact hs2a a (fun e => htL i hi (e ▸ ha))
  have hm2 : (s2.mem t).RTOSTmrMatch % M = m % M := by rw [hs2t]
  have hhd : (s2.hash_table ((s2.mem t).RTOSTmrMatch % M)).list_ptr ≠ some t := by
    rw [hm2]
    intro e
    exact htL _ hb (head_mem_of_dchain (hwf2.reg_chain _ hb) e)
  obtain ⟨s', hs', hu, hht, hg⟩ := insert_hash_entry_spec (M := M) hwf2.hash_mutex hhd
  rw [hm2] at hu hht
  have hwf' := wellFormed_link hwf2 hb hm2 (by rw [hs2t]) htf htL hlen hu hht hg
  obtain ⟨-, hfc, hfl, htk, -, -, hcl⟩ := hg
  refine ⟨s', ?_, hwf', ?_, ?_, hcl, htk, hfc, hfl, hht⟩
  · have : RTOSTmrStart_arm M t (s.upd t (fun x => { x with RTOSTmrMatch := m }))
        = (match insert_hash_entry M t s2 with
          | Except.error e => Except.error e
          | Except.ok s => Except.ok (RTOS_TRUE, RTOS_ERR_NONE, s)) := rfl
    rw [this, hs']
  · rw [hu.1, hs2t]; rfl
  · intro a ha
    have := linked_data hu a
    rw [hs2a a ha] at this
    exact this

/-! ## Starting a timer that is on no list -/

theorem not_mem_bucket_of_state {M : Nat} {s : TimerManager} {free : List Nat}
    {L : Nat → List Nat} (hwf : WellFormed M s free L) {t : Nat}
    (hst : (s.mem t).RTOSTmrState ≠ RTOS_TMR_STATE_RUNNING) : ∀ i < M, t ∉ L i :=
  fun i hi h => hst (hwf.reg_running i hi t h)

theorem not_mem_free_of_state {M : Nat} {s : TimerManager} {free : List Nat}
    {L : Nat → List Nat} (hwf : WellFormed M s free L) {t : Nat}
    (hst : (s.mem t).RTOSTmrState ≠ RTOS_TMR_STATE_UNUSED) : t ∉ free :=
  fun h => hst (hwf.pool_unused t h)

/-- `RTOSTmrStart` on a timer that is `Stopped`, of either mode: the first-arm rule. -/
theorem start_stopped {M : Nat} (fuel : Nat) {s : TimerManager} {free : List Nat}
    {L : Nat → List Nat} {t : Nat} (hwf : WellFormed M s free L)
    (htype : (s.mem t).RTOSTmrType = RTOS_TMR_TYPE)
    (hst : (s.mem t).RTOSTmrState = RTOS_TMR_STATE_STOPPED)
    (hmode : (s.mem t).RTOSTmrOpt = RTOS_TMR_ONE_SHOT
      ∨ (s.mem t).RTOSTmrOpt = RTOS_TMR_PERIODIC)
    (hlen : (L (add32 s.RTOSTmrTickCtr (s.mem t).RTOSTmrDelay % M)).length + 1 < U8) :
    ∃ s', RTOSTmrStart M fuel (some t) s = .ok (RTOS_TRUE, RTOS_ERR_NONE, s')
      ∧ WellFormed M s' free
          (Function.update L (add32 s.RTOSTmrTickCtr (s.mem t).RTOSTmrDelay % M)
            (t :: L (add32 s.RTOSTmrTickCtr (s.mem t).RTOSTmrDelay % M)))
      ∧ s'.mem t =
          { s.mem t with
            RTOSTmrNext :=
              (s.hash_table (add32 s.RTOSTmrTickCtr (s.mem t).RTOSTmrDelay % M)).list_ptr
            RTOSTmrPrev := none
            RTOSTmrMatch := add32 s.RTOSTmrTickCtr (s.mem t).RTOSTmrDelay
            RTOSTmrState := RTOS_TMR_STATE_RUNNING }
      ∧ (∀ a, a ≠ t → SameData (s'.mem a) (s.mem a))
      ∧ s'.calls = s.calls
      ∧ s'.RTOSTmrTickCtr = s.RTOSTmrTickCtr
      ∧ s'.FreeTmrCount = s.FreeTmrCount ∧ s'.FreeTmrListPtr = s.FreeTmrListPtr
      ∧ s'.hash_table = Function.update s.hash_table
          (add32 s.RTOSTmrTickCtr (s.mem t).RTOSTmrDelay % M)
          ⟨some t, inc8 (s.hash_table
            (add32 s.RTOSTmrTickCtr (s.mem t).RTOSTmrDelay % M)).timer_count⟩ := by
  have hval := handleError_valid htype (Or.inl hst)
  have htf : t ∉ free := not_mem_free_of_state hwf (by rw [hst]; decide)
  have htL : ∀ i < M, t ∉ L i := not_mem_bucket_of_state hwf (by rw [hst]; decide)
  obtain ⟨s', hs', rest⟩ := start_arm_wellFormed hwf htf htL hlen
  refine ⟨s', ?_, rest⟩
  rcases hmode with h | h
  · simp only [RTOSTmrStart, hval, h, if_true]
    exact hs'
  · have hne : ¬ RTOS_TMR_PERIODIC = RTOS_TMR_ONE_SHOT := by decide
    simp only [RTOSTmrStart, hval, h, hst, hne, if_false, and_self, if_true]
    exact hs'

/-- `RTOSTmrStart` on a periodic timer that is `Completed`: the periodic rule. -/
theorem start_completed {M : Nat} (fuel : Nat) {s : TimerManager} {free : List Nat}
    {L : Nat → List Nat} {t : Nat} (hwf : WellFormed M s free L)
    (htype : (s.mem t).RTOSTmrType = RTOS_TMR_TYPE)
    (hst : (s.mem t).RTOSTmrState = RTOS_TMR_STATE_COMPLETED)
    (hmode : (s.mem t).RTOSTmrOpt = RTOS_TMR_PERIODIC)
    (hlen : (L (add32 s.RTOSTmrTickCtr (s.mem t).RTOSTmrPeriod % M)).length + 1 < U8) :
    ∃ s', RTOSTmrStart M fuel (some t) s = .ok (RTOS_TRUE, RTOS_ERR_NONE, s')
      ∧ WellFormed M s' free
          (Function.update L (add32 s.RTOSTmrTickCtr (s.mem t).RTOSTmrPeriod % M)
            (t :: L (add32 s.RTOSTmrTickCtr (s.mem t).RTOSTmrPeriod % M)))
      ∧ s'.mem t =
          { s.mem t with
            RTOSTmrNext :=
              (s.hash_table (add32 s.RTOSTmrTickCtr (s.mem t).RTOSTmrPeriod % M)).list_ptr
            RTOSTmrPrev := none
            RTOSTmrMatch := add32 s.RTOSTmrTickCtr (s.mem t).RTOSTmrPeriod
            RTOSTmrState := RTOS_TMR_STATE_RUNNING }
      ∧ (∀ a, a ≠ t → SameData (s'.mem a) (s.mem a))
      ∧ s'.calls = s.calls
      ∧ s'.RTOSTmrTickCtr = s.RTOSTmrTickCtr
      ∧ s'.FreeTmrCount = s.FreeTmrCount ∧ s'.FreeTmrListPtr = s.FreeTmrListPtr
      ∧ s'.hash_table = Function.update s.hash_table
          (add32 s.RTOSTmrTickCtr (s.mem t).RTOSTmrPeriod % M)
          ⟨some t, inc8 (s.hash_table
            (add32 s.RTOSTmrTickCtr (s.mem t).RTOSTmrPeriod % M)).timer_count⟩ := by
  have hval := handleError_valid htype (Or.inr (Or.inr hst))
  have htf : t ∉ free := not_mem_free_of_state hwf (by rw [hst]; decide)
  have htL : ∀ i < M, t ∉ L i := not_mem_bucket_of_state hwf (by rw [hst]; decide)
  obtain ⟨s', hs', rest⟩ := start_arm_wellFormed hwf htf htL hlen
  refine ⟨s', ?_, rest⟩
  have hne : ¬ RTOS_TMR_PERIODIC = RTOS_TMR_ONE_SHOT := by decide
  have hne2 : ¬ RTOS_TMR_STATE_COMPLETED = RTOS_TMR_STATE_STOPPED := by decide
  simp only [RTOSTmrStart, hval, hmode, hst, hne, hne2, if_false, and_self, if_true,
    and_false]
  exact hs'

/-- Changing the tick counter keeps a state well-formed. -/
theorem wellFormed_setTick {M : Nat} {s : TimerManager} {free : List Nat}
    {L : Nat → List Nat} (hwf : WellFormed M s free L) {c : Nat} (hc : c < U32) :
    WellFormed M { s with RTOSTmrTickCtr := c } free L :=
  { buckets_pos := hwf.buckets_pos
    tick_lt := hc
    hash_mutex := hwf.hash_mutex
    pool_mutex := hwf.pool_mutex
    pool_chain := hwf.pool_chain
    pool_count := hwf.pool_count
    pool_bound := hwf.pool_bound
    pool_nodup := hwf.pool_nodup
    pool_unused := hwf.pool_unused
    reg_chain := hwf.reg_chain
    reg_count := hwf.reg_count
    reg_bound := hwf.reg_bound
    reg_nodup := hwf.reg_nodup
    reg_hash := hwf.reg_hash
    reg_running := hwf.reg_running }

/-! ## Tick steps with a single armed timer -/

theorem sub32_self {a : Nat} : sub32 a a = 0 := by
  unfold sub32 U32
  omega

theorem sub32_ne_zero {a b : Nat} (ha : a < U32) (hb : b < U32) (h : a ≠ b) :
    sub32 a b ≠ 0 := by
  unfold sub32 U32 at *
  omega

theorem add32_lt (a b : Nat) : add32 a b < U32 := by
  unfold add32 U32
  omega

theorem soleTimer_erase (M t m : Nat) :
    Function.update (soleTimer M t m) (m % M) ((soleTimer M t m (m % M)).erase t)
      = fun _ => [] := by
  unfold soleTimer
  rw [Function.update_same, List.erase_cons_head, Function.update_idem]
  exact Function.update_eq_self _ _

theorem soleTimer_cons (M t m : Nat) :
    Function.update (fun _ => ([] : List Nat)) (m % M)
      (t :: (fun _ => ([] : List Nat)) (m % M)) = soleTimer M t m := rfl

/-- A tick step in which the only armed timer is not due only advances the counter. -/
theorem task_not_due {M : Nat} (fuel : Nat) {s : TimerManager} {free : List Nat} {t : Nat}
    (hwf : WellFormed M s free (soleTimer M t (s.mem t).RTOSTmrMatch))
    (htype : (s.mem t).RTOSTmrType = RTOS_TMR_TYPE)
    (hm : (s.mem t).RTOSTmrMatch < U32)
    (hnd : (s.mem t).RTOSTmrMatch ≠ add32 s.RTOSTmrTickCtr 1) (hfuel : 1 ≤ fuel) :
    RTOSTmrTask M fuel .writable s = .ok { s with RTOSTmrTickCtr := add32 s.RTOSTmrTickCtr 1 } := by
  have hM := hwf.buckets_pos
  obtain ⟨n, rfl⟩ : ∃ n, fuel = n + 1 := ⟨fuel - 1, by omega⟩
  have hb : (s.mem t).RTOSTmrMatch % M < M := Nat.mod_lt _ hM
  have hrun : (s.mem t).RTOSTmrState = RTOS_TMR_STATE_RUNNING :=
    hwf.reg_running _ hb t (by simp [soleTimer])
  have hval : handleError { s with RTOSTmrTickCtr := add32 s.RTOSTmrTickCtr 1 } (some t)
      = none := handleError_valid (s := { s with RTOSTmrTickCtr := add32 s.RTOSTmrTickCtr 1 })
        htype (Or.inr (Or.inl hrun))
  unfold RTOSTmrTask
  simp only []
  by_cases hidx : add32 s.RTOSTmrTickCtr 1 % M = (s.mem t).RTOSTmrMatch % M
  · have hd := hwf.reg_chain _ hb
    simp only [soleTimer, Function.update_same] at hd
    rw [hidx, hd.1]
    have hnext : (s.mem t).RTOSTmrNext = none := hd.2.2
    have hrem : (RTOSTmrRemainGet (some t)
        { s with RTOSTmrTickCtr := add32 s.RTOSTmrTickCtr 1 }).1 ≠ 0 := by
      simp only [RTOSTmrRemainGet, hval]
      exact sub32_ne_zero hm (add32_lt _ _) hnd
    simp only [RTOSTmrTask_scan, storePerr, hrem, if_false, hnext]
  · have hi : add32 s.RTOSTmrTickCtr 1 % M < M := Nat.mod_lt _ hM
    have hd := hwf.reg_chain _ hi
    simp only [soleTimer, Function.update_noteq hidx] at hd
    have : (s.hash_table (add32 s.RTOSTmrTickCtr 1 % M)).list_ptr = none := hd
    rw [this]
    rfl

theorem scan_none (M fuel : Nat) (perr : ErrPtr) (n : Nat) (s : TimerManager) :
    RTOSTmrTask_scan M fuel perr n s none = .ok s := by
  cases n <;> rfl

/-- A tick step in which the only armed timer is periodic and due: its callback runs
once and it is armed again one period later. -/
theorem task_due_periodic {M : Nat} (fuel : Nat) {s : TimerManager} {free : List Nat} {t f : Nat}
    (hwf : WellFormed M s free (soleTimer M t (s.mem t).RTOSTmrMatch))
    (htype : (s.mem t).RTOSTmrType = RTOS_TMR_TYPE)
    (hmode : (s.mem t).RTOSTmrOpt = RTOS_TMR_PERIODIC)
    (hcb : (s.mem t).RTOSTmrCallback = some f)
    (hdue : (s.mem t).RTOSTmrMatch = add32 s.RTOSTmrTickCtr 1) (hfuel : 1 ≤ fuel) :
    ∃ s', RTOSTmrTask M fuel .writable s = .ok s'
      ∧ WellFormed M s' free
          (soleTimer M t (add32 (add32 s.RTOSTmrTickCtr 1) (s.mem t).RTOSTmrPeriod))
      ∧ s'.mem t =
          { s.mem t with
            RTOSTmrNext := none
            RTOSTmrPrev := none
            RTOSTmrMatch := add32 (add32 s.RTOSTmrTickCtr 1) (s.mem t).RTOSTmrPeriod
            RTOSTmrState := RTOS_TMR_STATE_RUNNING }
      ∧ s'.calls = s.calls ++ [(f, (s.mem t).RTOSTmrCallbackArg)]
      ∧ s'.RTOSTmrTickCtr = add32 s.RTOSTmrTickCtr 1 := by
  have hM := hwf.buckets_pos
  obtain ⟨n, rfl⟩ : ∃ n, fuel = n + 1 := ⟨fuel - 1, by omega⟩
  have hb : (s.mem t).RTOSTmrMatch % M < M := Nat.mod_lt _ hM
  have hrun : (s.mem t).RTOSTmrState = RTOS_TMR_STATE_RUNNING :=
    hwf.reg_running _ hb t (by simp [soleTimer])
  -- the counter advances
  have hwf₁ := wellFormed_setTick hwf (add32_lt s.RTOSTmrTickCtr 1)
  generalize hs₁ : ({ s with RTOSTmrTickCtr := add32 s.RTOSTmrTickCtr 1 } : TimerManager)
    = s₁ at hwf₁
  have hmem₁ : s₁.mem = s.mem := by rw [← hs₁]
  have htk₁ : s₁.RTOSTmrTickCtr = add32 s.RTOSTmrTickCtr 1 := by rw [← hs₁]
  have hcl₁ : s₁.calls = s.calls := by rw [← hs₁]
  have hht₁ : s₁.hash_table = s.hash_table := by rw [← hs₁]
  have hval₁ : handleError s₁ (some t) = none :=
    handleError_valid (by rw [hmem₁]; exact htype) (Or.inr (Or.inl (by rw [hmem₁]; exact hrun)))
  have hd := hwf.reg_chain _ hb
  simp only [soleTimer, Function.update_same] at hd
  have hrem : (RTOSTmrRemainGet (some t) s₁).1 = 0 := by
    simp only [RTOSTmrRemainGet, hval₁, hmem₁, htk₁, hdue]
    exact sub32_self
  -- the stop
  have hwf₁' : WellFormed M s₁ free (soleTimer M t (s₁.mem t).RTOSTmrMatch) := by
    rw [hmem₁]; exact hwf₁
  obtain ⟨s₂, hs₂, hwf₂, hmt₂, -, hcl₂, htk₂, -, -, hht₂⟩ :=
    stop_linked (n + 1) RTOS_TMR_OPT_CALLBACK NULL hwf₁'
      (by rw [hmem₁]; exact htype) (by simp [soleTimer])
      (Or.inr ⟨Or.inl rfl, by rw [hmem₁, hcb]; simp⟩) (by simp [soleTimer])
  rw [soleTimer_erase] at hwf₂
  -- the timer is marked `Completed`
  have htf : t ∉ free := fun h => by
    have := hwf.pool_unused t h
    rw [hrun] at this
    exact absurd this (by decide)
  generalize hs₃ : s₂.upd t (fun x => { x with RTOSTmrState := RTOS_TMR_STATE_COMPLETED })
    = s₃
  have hmt₃ : s₃.mem t =
      { s.mem t with
        RTOSTmrNext := none
        RTOSTmrPrev := none
        RTOSTmrState := RTOS_TMR_STATE_COMPLETED } := by
    rw [← hs₃]; simp [hmt₂, hmem₁]
  have hwf₃ : WellFormed M s₃ free (fun _ => []) := by
    rw [← hs₃]
    refine wellFormed_frame hwf₂ ?_ ?_ rfl rfl rfl rfl rfl rfl
    · intro a ha
      have : a ≠ t := fun e => htf (e ▸ ha)
      simp [Function.update_apply, this]
    · intro i _ a ha; cases ha
  have htk₃ : s₃.RTOSTmrTickCtr = add32 s.RTOSTmrTickCtr 1 := by
    rw [← hs₃]; simp [htk₂, htk₁]
  have hcl₃ : s₃.calls = s.calls ++ [(f, (s.mem t).RTOSTmrCallbackArg)] := by
    rw [← hs₃]; simp [hcl₂, hcl₁, hmem₁, hcb, stopCalls]
  -- the re-arm
  obtain ⟨s₄, hs₄, hwf₄, hmt₄, -, hcl₄, htk₄, -, -, -⟩ :=
    start_completed (n + 1) hwf₃ (by rw [hmt₃]; exact htype) (by rw [hmt₃])
      (by rw [hmt₃]; exact hmode) (by show 0 + 1 < U8; decide)
  have hper : (s₃.mem t).RTOSTmrPeriod = (s.mem t).RTOSTmrPeriod := by rw [hmt₃]
  rw [htk₃, hper, soleTimer_cons] at hwf₄
  have hhead : (s₃.hash_table (add32 s₃.RTOSTmrTickCtr (s₃.mem t).RTOSTmrPeriod % M)).list_ptr
      = none := hwf₃.reg_chain _ (Nat.mod_lt _ hM)
  rw [hhead, htk₃, hper, hmt₃] at hmt₄
  refine ⟨s₄, ?_, hwf₄, ?_, by rw [hcl₄, hcl₃], by rw [htk₄, htk₃]⟩
  · unfold RTOSTmrTask
    simp only []
    rw [hs₁, ← hdue, hd.1]
    have hopt₃ : (s₃.mem t).RTOSTmrOpt = RTOS_TMR_PERIODIC := by rw [hmt₃]; exact hmode
    have hopt₄ : ¬ (s₄.mem t).RTOSTmrOpt = RTOS_TMR_ONE_SHOT := by
      rw [hmt₄]; show ¬ (s.mem t).RTOSTmrOpt = _; rw [hmode]; decide
    have hnext₄ : (s₄.mem t).RTOSTmrNext = none := by rw [hmt₄]
    have hexp : RTOSTmrTask_expire M (n + 1) .writable t s₁ = .ok s₄ := by
      simp only [RTOSTmrTask_expire, storePerr, hs₂, hs₃, hopt₃, if_true, hs₄, Except.map,
        hopt₄, if_false]
    simp only [RTOSTmrTask_scan, storePerr, hrem, if_true, hexp, hnext₄, scan_none]
  · rw [hmt₄]

/-! ## Several tick steps -/

theorem ticks_succ_last (M fuel : Nat) (perr : ErrPtr) :
    ∀ (n : Nat) (s : TimerManager),
      ticks M fuel perr (n + 1) s
        = match ticks M fuel perr n s with
          | .error e => .error e
          | .ok s' => RTOSTmrTask M fuel perr s' := by
  intro n
  induction n with
  | zero =>
    intro s
    simp only [ticks]
    cases RTOSTmrTask M fuel perr s <;> rfl
  | succ n ih =>
    intro s
    rw [ticks]
    cases h : RTOSTmrTask M fuel perr s with
    | error e => simp only [ticks, h]
    | ok s' =>
      simp only []
      rw [ih s']
      conv_rhs => rw [ticks, h]

/-- Tick steps during which the only armed timer does not become due only advance the
counter. -/
theorem ticks_not_due {M : Nat} (fuel : Nat) (free : List Nat) {t : Nat} (hfuel : 1 ≤ fuel) :
    ∀ (j : Nat) (s : TimerManager),
      WellFormed M s free (soleTimer M t (s.mem t).RTOSTmrMatch) →
      (s.mem t).RTOSTmrType = RTOS_TMR_TYPE → (s.mem t).RTOSTmrMatch < U32 →
      (∀ i, 1 ≤ i → i ≤ j → (s.mem t).RTOSTmrMatch ≠ add32 s.RTOSTmrTickCtr i) →
      ticks M fuel .writable j s = .ok { s with RTOSTmrTickCtr := add32 s.RTOSTmrTickCtr j } := by
  intro j
  induction j with
  | zero =>
    intro s hwf _ _ _
    have : add32 s.RTOSTmrTickCtr 0 = s.RTOSTmrTickCtr := by
      have := hwf.tick_lt
      unfold add32 U32 at *
      omega
    rw [this]
    rfl
  | succ j ih =>
    intro s hwf htype hm hnd
    rw [ticks, task_not_due fuel hwf htype hm (hnd 1 (le_refl 1) (by omega)) hfuel]
    simp only []
    have hstep := ih { s with RTOSTmrTickCtr := add32 s.RTOSTmrTickCtr 1 }
      (wellFormed_setTick hwf (add32_lt _ _)) htype hm (by
        intro i hi1 hi2
        have : add32 (add32 s.RTOSTmrTickCtr 1) i = add32 s.RTOSTmrTickCtr (i + 1) := by
          unfold add32 U32; omega
        show (s.mem t).RTOSTmrMatch ≠ add32 (add32 s.RTOSTmrTickCtr 1) i
        rw [this]
        exact hnd (i + 1) (by omega) (by omega))
    rw [hstep]
    have : add32 (add32 s.RTOSTmrTickCtr 1) j = add32 s.RTOSTmrTickCtr (j + 1) := by
      unfold add32 U32; omega
    simp only [this]

/-! ## Counting ticks -/

theorem sub32_add32 {t d k : Nat} (hd : d < U32) (hk : k ≤ d) :
    sub32 (add32 t d) (add32 t k) = d - k := by
  unfold sub32 add32 U32 at *
  omega

theorem add32_ne {t d i : Nat} (hd : d < U32) (hi : i < d) : add32 t d ≠ add32 t i := by
  unfold add32 U32 at *
  omega

theorem RTOSTmrRemainGet_valid {s : TimerManager} {t : Nat}
    (h : handleError s (some t) = none) :
    RTOSTmrRemainGet (some t) s
      = (sub32 (s.mem t).RTOSTmrMatch s.RTOSTmrTickCtr, RTOS_ERR_NONE) := by
  simp only [RTOSTmrRemainGet, h]

theorem periodicCreated_wellFormed : WellFormed 10 periodicCreated [0] (fun _ => []) :=
  { buckets_pos := by decide
    tick_lt := by decide
    hash_mutex := rfl
    pool_mutex := rfl
    pool_chain := ⟨rfl, rfl⟩
    pool_count := rfl
    pool_bound := by decide
    pool_nodup := by decide
    pool_unused := by
      intro a ha
      rw [List.mem_singleton.1 ha]; rfl
    reg_chain := by
      intro i hi
      interval_cases i <;> rfl
    reg_count := by
      intro i hi
      interval_cases i <;> rfl
    reg_bound := by intro i _; decide
    reg_nodup := by intro i _; exact List.nodup_nil
    reg_hash := by intro i _ a ha; cases ha
    reg_running := by intro i _ a ha; cases ha }

theorem periodicRunning_wellFormed :
    WellFormed 10 periodicRunning [0] (Function.update (fun _ => []) 0 [1]) :=
  { buckets_pos := by decide
    tick_lt := by decide
    hash_mutex := rfl
    pool_mutex := rfl
    pool_chain := ⟨rfl, rfl⟩
    pool_count := rfl
    pool_bound := by decide
    pool_nodup := by decide
    pool_unused := by
      intro a ha
      rw [List.mem_singleton.1 ha]; rfl
    reg_chain := by
      intro i hi
      interval_cases i
      · exact ⟨rfl, rfl, rfl⟩
      all_goals rfl
    reg_count := by
      intro i hi
      interval_cases i <;> rfl
    reg_bound := by
      intro i hi
      interval_cases i <;> decide
    reg_nodup := by
      intro i hi
      interval_cases i <;> decide
    reg_hash := by
      intro i hi a ha
      interval_cases i
      · rw [List.mem_singleton.1 ha]; rfl
      all_goals cases ha
    reg_running := by
      intro i hi a ha
      interval_cases i
      · rw [List.mem_singleton.1 ha]; rfl
      all_goals cases ha }

theorem firesAt_next {d p k : Nat} (h : firesAt d p k) : firesAt d p (k + p) := by
  obtain ⟨h1, h2⟩ := h
  refine ⟨by omega, ?_⟩
  have : k + p - d = (k - d) + p := by omega
  rw [this, Nat.add_mod_right, h2]

theorem not_firesAt_between {d p k j : Nat} (h : firesAt d p k) (h1 : k < j)
    (h2 : j < k + p) : ¬ firesAt d p j := by
  obtain ⟨hk1, hk2⟩ := h
  rintro ⟨-, hj2⟩
  have : j - d = (k - d) + (j - k) := by omega
  rw [this, Nat.add_mod, hk2, Nat.zero_add, Nat.mod_mod, Nat.mod_eq_of_lt (by omega)] at hj2
  omega

/-- One tick step of a periodic timer that is the only armed timer. -/
theorem periodicArmed_step {M fuel : Nat} {free : List Nat} {t f arg d p t0 k : Nat}
    {s : TimerManager} (h : PeriodicArmed M free t f arg d p t0 k s)
    (hp1 : 1 ≤ p) (hp2 : p < U32) (hfuel : 1 ≤ fuel) :
    ∃ s', RTOSTmrTask M fuel .writable s = .ok s'
      ∧ PeriodicArmed M free t f arg d p t0 (k + 1) s'
      ∧ s'.RTOSTmrTickCtr = add32 t0 (k + 1)
      ∧ s'.calls = s.calls ++ (if firesAt d p (k + 1) then [(f, arg)] else []) := by
  obtain ⟨g, hg1, hg2, hmatch, hfire, hnot⟩ := h.due
  have htk' : add32 s.RTOSTmrTickCtr 1 = add32 t0 (k + 1) := by
    rw [h.tick]; unfold add32 U32; omega
  by_cases hg : g = 1
  · -- due at this step
    subst hg
    have hdue : (s.mem t).RTOSTmrMatch = add32 s.RTOSTmrTickCtr 1 := by
      rw [hmatch, h.tick]
    obtain ⟨s', hs', hwf', hmt', hcl', htick'⟩ :=
      task_due_periodic (fuel) h.wf h.type h.mode h.callback hdue hfuel
    have hmatch' : (s'.mem t).RTOSTmrMatch
        = add32 (add32 s.RTOSTmrTickCtr 1) (s.mem t).RTOSTmrPeriod := by rw [hmt']
    refine ⟨s', hs', ?_, by rw [htick', htk'], ?_⟩
    · exact
        { wf := by rw [hmatch']; exact hwf'
          type := by rw [hmt']; exact h.type
          mode := by rw [hmt']; exact h.mode
          callback := by rw [hmt']; exact h.callback
          callback_arg := by rw [hmt']; exact h.callback_arg
          period := by rw [hmt']; exact h.period
          tick := by rw [htick', htk']
          due := ⟨p, hp1, hp2, by rw [hmatch', htk', h.period], firesAt_next hfire,
            fun j hj1 hj2 => not_firesAt_between hfire hj1 hj2⟩ }
    · rw [hcl', if_pos hfire, h.callback_arg]
  · -- not due at this step
    have hnd : (s.mem t).RTOSTmrMatch ≠ add32 s.RTOSTmrTickCtr 1 := by
      rw [hmatch, h.tick]
      unfold add32 U32 at *
      omega
    have hm : (s.mem t).RTOSTmrMatch < U32 := by rw [hmatch]; exact add32_lt _ _
    have hs' := task_not_due (fuel) h.wf h.type hm hnd hfuel
    refine ⟨_, hs', ?_, htk', ?_⟩
    · exact
        { wf := wellFormed_setTick h.wf (add32_lt _ _)
          type := h.type
          mode := h.mode
          callback := h.callback
          callback_arg := h.callback_arg
          period := h.period
          tick := htk'
          due := ⟨g - 1, by omega, by omega, by
              show (s.mem t).RTOSTmrMatch = _
              rw [hmatch]; unfold add32 U32; omega,
            by
              have : k + 1 + (g - 1) = k + g := by omega
              rw [this]; exact hfire,
            fun j hj1 hj2 => hnot j (by omega) (by omega)⟩ }
    · have : ¬ firesAt d p (k + 1) := hnot (k + 1) (by omega) (by omega)
      rw [if_neg this]
      simp

/-- The state after `k` tick steps of a periodic timer that is the only armed timer. -/
theorem periodicArmed_ticks {M fuel : Nat} {free : List Nat} {t f arg d p t0 : Nat}
    {s : TimerManager} (h : PeriodicArmed M free t f arg d p t0 0 s)
    (hp1 : 1 ≤ p) (hp2 : p < U32) (hfuel : 1 ≤ fuel) :
    ∀ k, ∃ s', ticks M fuel .writable k s = .ok s' ∧ PeriodicArmed M free t f arg d p t0 k s' := by
  intro k
  induction k with
  | zero => exact ⟨s, rfl, h⟩
  | succ k ih =>
    obtain ⟨s', hs', hinv⟩ := ih
    obtain ⟨s'', hs'', hinv', -⟩ := periodicArmed_step hinv hp1 hp2 hfuel
    refine ⟨s'', ?_, hinv'⟩
    rw [ticks_succ_last, hs']
    exact hs''

/-- `RTOSTmrStop` with a callback-invoking option on a linked timer without callback
calls through `NULL`. -/
theorem stop_linked_null_callback {M : Nat} (fuel : Nat) {s : TimerManager}
    {free : List Nat} {L : Nat → List Nat} {t : Nat} (opt callback_arg : Nat) (hwf : WellFormed M s free L)
    (htype : (s.mem t).RTOSTmrType = RTOS_TMR_TYPE)
    (hlinked : t ∈ L ((s.mem t).RTOSTmrMatch % M))
    (hcb : (s.mem t).RTOSTmrCallback = none)
    (hopt : opt = RTOS_TMR_OPT_CALLBACK ∨ opt = RTOS_TMR_OPT_CALLBACK_ARG)
    (hfuel : (L ((s.mem t).RTOSTmrMatch % M)).length ≤ fuel) :
    RTOSTmrStop M fuel (some t) opt callback_arg s = .error .nullCall := by
  have hb : (s.mem t).RTOSTmrMatch % M < M := Nat.mod_lt _ hwf.buckets_pos
  have hrun := hwf.reg_running _ hb t hlinked
  have hval := handleError_valid htype (Or.inr (Or.inl hrun))
  obtain ⟨s1, hs1, hu, -, -⟩ := remove_hash_entry_linked hwf hlinked hfuel
  have h1 : ¬ (opt ≠ RTOS_TMR_OPT_NONE ∧ opt ≠ RTOS_TMR_OPT_CALLBACK
      ∧ opt ≠ RTOS_TMR_OPT_CALLBACK_ARG) := by
    rcases hopt with h | h <;> simp [h]
  have h2 : ¬ (s.mem t).RTOSTmrState = RTOS_TMR_STATE_STOPPED := by
    rw [hrun]; decide
  have hcb1 : (s1.mem t).RTOSTmrCallback = none := by
    rw [(unlinked_data hu t).2.2.2.2.2.2.1, hcb]
  simp only [RTOSTmrStop, hval, h1, h2, if_false, hs1]
  rcases hopt with h | h
  · subst h
    simp [callCallback, hcb1]
  · subst h
    simp [callCallback, hcb1, RTOS_TMR_OPT_CALLBACK, RTOS_TMR_OPT_CALLBACK_ARG]

theorem bootState_wellFormed (k : Nat) (hk : k < U8) :
    WellFormed 10 (bootState k) (List.range k).reverse (fun _ => []) :=
  RTOSTmrInit_wellFormed 10 k (fun _ => blankTimer) (by decide) hk

/-! ## Failure leaves the state alone -/

theorem start_arm_err {M p : Nat} {s s' : TimerManager} {r : Nat} {e : RTOS_ERR}
    (h : RTOSTmrStart_arm M p s = .ok (r, e, s')) : e = RTOS_ERR_NONE := by
  unfold RTOSTmrStart_arm at h
  simp only at h
  split at h
  · cases h
  · cases h; rfl

theorem start_failure_atomic {M fuel : Nat} {ptmr : Option Nat} {s s' : TimerManager}
    {r : Nat} {e : RTOS_ERR} (h : RTOSTmrStart M fuel ptmr s = .ok (r, e, s'))
    (he : e ≠ RTOS_ERR_NONE) : s' = s := by
  unfold RTOSTmrStart at h
  split at h
  · cases h; rfl
  · cases h; rfl
  · split_ifs at h
    · exact absurd (start_arm_err h) he
    · exact absurd (start_arm_err h) he
    · exact absurd (start_arm_err h) he
    · split at h
      · cases h
      · exact absurd (start_arm_err h) he
    · cases h; rfl

theorem del_failure_atomic {M fuel : Nat} {ptmr : Option Nat} {s s' : TimerManager}
    {r : Nat} {e : RTOS_ERR} (h : RTOSTmrDel M fuel ptmr s = .ok (r, e, s'))
    (he : e ≠ RTOS_SUCCESS) : s' = s := by
  unfold RTOSTmrDel at h
  split at h
  · cases h; rfl
  · cases h; rfl
  · split at h
    · cases h
    · split at h
      · cases h
      · cases h; exact absurd rfl he

theorem stop_failure_atomic {M fuel : Nat} {ptmr : Option Nat} {opt callback_arg : Nat}
    {s s' : TimerManager} {r : Nat} {e : RTOS_ERR}
    (h : RTOSTmrStop M fuel ptmr opt callback_arg s = .ok (r, e, s'))
    (he : e ≠ RTOS_ERR_NONE) (he' : e ≠ RTOS_ERR_TMR_NO_CALLBACK) : s' = s := by
  unfold RTOSTmrStop at h
  split at h
  · cases h; rfl
  · cases h; rfl
  · rename_i p _
    by_cases c1 : opt ≠ RTOS_TMR_OPT_NONE ∧ opt ≠ RTOS_TMR_OPT_CALLBACK
        ∧ opt ≠ RTOS_TMR_OPT_CALLBACK_ARG
    · rw [if_pos c1] at h; cases h; rfl
    · rw [if_neg c1] at h
      by_cases c2 : (s.mem p).RTOSTmrState = RTOS_TMR_STATE_STOPPED
      · rw [if_pos c2] at h; cases h; rfl
      · rw [if_neg c2] at h
        simp only at h
        split at h
        · cases h
        · split at h
          · cases h
          · split at h
            · cases h
            · cases h
              by_cases c3 : (s.mem p).RTOSTmrCallback = none
              · rw [if_pos c3] at he'; exact absurd rfl he'
              · rw [if_neg c3] at he; exact absurd rfl he

/-! ## Deleting a timer -/

theorem remove_hash_entry_loop_absent (index t : Nat) (s : TimerManager) :
    ∀ (l : List Nat) (fuel : Nat) (p : Option Nat), Chain s.mem p l →
      t ∉ l → l.length ≤ fuel → remove_hash_entry_loop index t fuel s p = .ok s := by
  intro l
  induction l with
  | nil =>
    intro fuel p hch _ _
    have hp : p = none := hch
    subst hp
    simp
  | cons a l ih =>
    intro fuel p hch ht hf
    have hp : p = some a := hch.1
    subst hp
    obtain ⟨f, rfl⟩ : ∃ f, fuel = f + 1 := ⟨fuel - 1, by simp at hf; omega⟩
    have hat : ¬ a = t := fun e => ht (e ▸ List.mem_cons_self _ _)
    simp only [remove_hash_entry_loop, hat, if_false]
    exact ih f _ hch.2 (fun h => ht (List.mem_cons_of_mem _ h)) (by simp at hf; omega)

/-- `remove_hash_entry` for a timer that is in no bucket: nothing is unlinked, and
when the bucket of its `RTOSTmrMatch` is empty the function returns through line 372
with `hash_table_mutex` still held. -/
theorem remove_hash_entry_unlinked {M fuel : Nat} {s : TimerManager} {free : List Nat}
    {L : Nat → List Nat} {t : Nat} (hwf : WellFormed M s free L)
    (ht : t ∉ L ((s.mem t).RTOSTmrMatch % M))
    (hfuel : (L ((s.mem t).RTOSTmrMatch % M)).length ≤ fuel) :
    remove_hash_entry M fuel (some t) s
      = .ok { s with hash_table_mutex := (L ((s.mem t).RTOSTmrMatch % M)).isEmpty } := by
  have hb : (s.mem t).RTOSTmrMatch % M < M := Nat.mod_lt _ hwf.buckets_pos
  generalize hbdef : (s.mem t).RTOSTmrMatch % M = b at *
  have hd := hwf.reg_chain b hb
  have hm := hwf.hash_mutex
  cases hl : L b with
  | nil =>
    rw [hl] at hd
    have hhead : (s.hash_table b).list_ptr = none := hd
    simp [remove_hash_entry, hashCode, hbdef, hm, hhead]
  | cons x r =>
    rw [hl] at hd ht hfuel
    have hhead : (s.hash_table b).list_ptr = some x := hd.1
    have hxt : ¬ x = t := fun e => ht (e ▸ List.mem_cons_self _ _)
    have hloop := remove_hash_entry_loop_absent b t { s with hash_table_mutex := true } r fuel
      (s.mem x).RTOSTmrNext (dchain_chain hd.2.2) (fun h => ht (List.mem_cons_of_mem _ h))
      (by simp at hfuel; omega)
    simp only [remove_hash_entry, hashCode, hbdef, hm, hhead, hxt, if_false,
      Bool.false_eq_true, hloop]
    simp

/-- The hash-table mutex plays no part in `free_timer_obj`. -/
theorem free_timer_obj_hash_mutex (t : Nat) (s : TimerManager) (b : Bool) :
    free_timer_obj t { s with hash_table_mutex := b }
      = (free_timer_obj t s).map (fun s' => { s' with hash_table_mutex := b }) := by
  cases h : s.timer_pool_mutex
  · simp only [free_timer_obj, h, Except.map, Bool.false_eq_true, if_false]
    cases hq : s.FreeTmrListPtr <;> simp [hq, TimerManager.setPrevIf, TimerManager.upd]
  · simp [free_timer_obj, h, Except.map]

/-- `free_timer_obj` for a timer that is not the head of the free list. -/
theorem free_timer_obj_spec {s : TimerManager} {t : Nat}
    (hm : s.timer_pool_mutex = false) (hhead : s.FreeTmrListPtr ≠ some t) :
    ∃ s', free_timer_obj t s = .ok s'
      ∧ s'.mem t =
          { s.mem t with
            RTOSTmrNext := s.FreeTmrListPtr
            RTOSTmrDelay := 0
            RTOSTmrPeriod := 0
            RTOSTmrState := RTOS_TMR_STATE_UNUSED }
      ∧ (∀ a, a ≠ t → s'.mem a =
          { s.mem a with
            RTOSTmrPrev := if s.FreeTmrListPtr = some a then some t else (s.mem a).RTOSTmrPrev })
      ∧ s'.FreeTmrCount = inc8 s.FreeTmrCount ∧ s'.FreeTmrListPtr = some t
      ∧ s'.hash_table = s.hash_table
      ∧ s'.RTOSTmrTickCtr = s.RTOSTmrTickCtr
      ∧ s'.hash_table_mutex = s.hash_table_mutex
      ∧ s'.timer_pool_mutex = false
      ∧ s'.calls = s.calls := by
  simp only [free_timer_obj, hm, if_false, Bool.false_eq_true]
  refine ⟨_, rfl, ?_, ?_, ?_, ?_, ?_, ?_, ?_, ?_, ?_⟩
  · simp [setPrevIf_mem_apply, hhead]
  · intro a ha
    simp only [upd_mem, Function.update_apply, ha, if_false, setPrevIf_mem_apply,
      upd_FreeTmrListPtr]
    split <;> simp
  all_goals simp

/-- `free_timer_obj` in a well-formed state, for a timer that is on no list. -/
theorem free_timer_obj_wellFormed {M : Nat} {s : TimerManager} {free : List Nat}
    {L : Nat → List Nat} {t : Nat} (hwf : WellFormed M s free L)
    (htf : t ∉ free) (htL : ∀ i < M, t ∉ L i) (hlen : free.length + 1 < U8) :
    ∃ s', free_timer_obj t s = .ok s'
      ∧ WellFormed M s' (t :: free) L
      ∧ s'.mem t =
          { s.mem t with
            RTOSTmrNext := s.FreeTmrListPtr
            RTOSTmrDelay := 0
            RTOSTmrPeriod := 0
            RTOSTmrState := RTOS_TMR_STATE_UNUSED }
      ∧ (∀ a, a ≠ t → SameData (s'.mem a) (s.mem a))
      ∧ s'.calls = s.calls
      ∧ s'.RTOSTmrTickCtr = s.RTOSTmrTickCtr
      ∧ s'.FreeTmrCount = s.FreeTmrCount + 1 ∧ s'.FreeTmrListPtr = some t
      ∧ s'.hash_table = s.hash_table := by
  have hhead : s.FreeTmrListPtr ≠ some t := by
    intro e
    cases hf : free with
    | nil =>
      have := hwf.pool_chain
      rw [hf, e] at this
      cases this
    | cons x r =>
      have := hwf.pool_chain
      rw [hf, e] at this
      have hx : t = x := Option.some.inj this.1
      exact htf (by rw [hf, hx]; exact List.mem_cons_self _ _)
  obtain ⟨s', hs', hmt, hma, hfc, hfl, hht, htk, hhm, hpm, hcl⟩ :=
    free_timer_obj_spec hwf.pool_mutex hhead
  have hcount : s'.FreeTmrCount = s.FreeTmrCount + 1 := by
    rw [hfc, hwf.pool_count, inc8_lt hlen]
  -- a timer in a bucket is not the head of the free list
  have hreg : ∀ i < M, ∀ a ∈ L i, s'.mem a = s.mem a := by
    intro i hi a ha
    have hat : a ≠ t := fun e => htL i hi (e ▸ ha)
    rw [hma a hat]
    have : s.FreeTmrListPtr ≠ some a := by
      intro e
      cases hf : free with
      | nil =>
        have := hwf.pool_chain
        rw [hf, e] at this
        cases this
      | cons x r =>
        have := hwf.pool_chain
        rw [hf, e] at this
        have hx : a = x := Option.some.inj this.1
        exact not_mem_bucket_of_free hwf (a := a) (by rw [hf, hx]; exact List.mem_cons_self _ _)
          hi ha
    simp [this]
  refine ⟨s', hs', ?_, hmt, ?_, hcl, htk, hcount, hfl, hht⟩
  · exact
      { buckets_pos := hwf.buckets_pos
        tick_lt := by rw [htk]; exact hwf.tick_lt
        hash_mutex := by rw [hhm]; exact hwf.hash_mutex
        pool_mutex := hpm
        pool_chain := by
          rw [hfl]
          refine ⟨rfl, ?_⟩
          rw [hmt]
          refine chain_frame ?_ hwf.pool_chain
          intro a ha
          rw [hma a (fun e => htf (e ▸ ha))]
        pool_count := by rw [hcount, hwf.pool_count]; rfl
        pool_bound := by simpa using hlen
        pool_nodup := List.nodup_cons.2 ⟨htf, hwf.pool_nodup⟩
        pool_unused := by
          intro a ha
          rcases List.mem_cons.1 ha with h | h
          · rw [h, hmt]
          · rw [hma a (fun e => htf (e ▸ h))]
            exact hwf.pool_unused a h
        reg_chain := by
          intro i hi
          rw [hht]
          exact dchain_frame (fun a ha => by rw [hreg i hi a ha]; exact ⟨rfl, rfl⟩)
            (hwf.reg_chain i hi)
        reg_count := by intro i hi; rw [hht]; exact hwf.reg_count i hi
        reg_bound := hwf.reg_bound
        reg_nodup := hwf.reg_nodup
        reg_hash := by intro i hi a ha; rw [hreg i hi a ha]; exact hwf.reg_hash i hi a ha
        reg_running := by
          intro i hi a ha; rw [hreg i hi a ha]; exact hwf.reg_running i hi a ha }
  · intro a ha
    rw [hma a ha]
    simp [SameData]

/-- `RTOSTmrDel` on a timer that is linked in the bucket of its `RTOSTmrMatch`. -/
theorem del_linked {M : Nat} (fuel : Nat) {s : TimerManager} {free : List Nat}
    {L : Nat → List Nat} {t : Nat} (hwf : WellFormed M s free L)
    (htype : (s.mem t).RTOSTmrType = RTOS_TMR_TYPE)
    (hlinked : t ∈ L ((s.mem t).RTOSTmrMatch % M))
    (hfuel : (L ((s.mem t).RTOSTmrMatch % M)).length ≤ fuel)
    (hlen : free.length + 1 < U8) :
    ∃ s', RTOSTmrDel M fuel (some t) s = .ok (RTOS_TRUE, RTOS_SUCCESS, s')
      ∧ WellFormed M s' (t :: free) (Function.update L ((s.mem t).RTOSTmrMatch % M)
          ((L ((s.mem t).RTOSTmrMatch % M)).erase t))
      ∧ s'.mem t =
          { s.mem t with
            RTOSTmrNext := s.FreeTmrListPtr
            RTOSTmrPrev := none
            RTOSTmrDelay := 0
            RTOSTmrPeriod := 0
            RTOSTmrState := RTOS_TMR_STATE_UNUSED }
      ∧ (∀ a, a ≠ t → SameData (s'.mem a) (s.mem a))
      ∧ s'.calls = s.calls
      ∧ s'.RTOSTmrTickCtr = s.RTOSTmrTickCtr
      ∧ s'.FreeTmrCount = s.FreeTmrCount + 1 ∧ s'.FreeTmrListPtr = some t
      ∧ s'.hash_table = Function.update s.hash_table ((s.mem t).RTOSTmrMatch % M)
          ⟨if (s.hash_table ((s.mem t).RTOSTmrMatch % M)).list_ptr = some t
              then (s.mem t).RTOSTmrNext
              else (s.hash_table ((s.mem t).RTOSTmrMatch % M)).list_ptr,
            dec8 (s.hash_table ((s.mem t).RTOSTmrMatch % M)).timer_count⟩ := by
  have hb : (s.mem t).RTOSTmrMatch % M < M := Nat.mod_lt _ hwf.buckets_pos
  have hrun := hwf.reg_running _ hb t hlinked
  have hval := handleError_valid htype (Or.inr (Or.inl hrun))
  have htf : t ∉ free := not_mem_free_of_state hwf (by rw [hrun]; decide)
  obtain ⟨s1, hs1, hu, hht, hg⟩ := remove_hash_entry_linked hwf hlinked hfuel
  have hwf1 := wellFormed_unlink hwf hb hlinked hu hht hg
  have htL1 : ∀ i < M, t ∉ Function.update L ((s.mem t).RTOSTmrMatch % M)
      ((L ((s.mem t).RTOSTmrMatch % M)).erase t) i := by
    intro i hi
    by_cases hib : i = (s.mem t).RTOSTmrMatch % M
    · rw [hib, Function.update_same]
      exact fun h => (List.Nodup.mem_erase_iff (hwf.reg_nodup _ hb)).1 h |>.1 rfl
    · rw [Function.update_noteq hib]
      exact fun h => hib (bucket_disjoint hwf hi hb h hlinked)
  obtain ⟨s', hs', hwf', hmt, hma, hcl, htk, hfc, hfl, hht'⟩ :=
    free_timer_obj_wellFormed hwf1 htf htL1 hlen
  obtain ⟨-, hfc1, hfl1, htk1, -, -, hcl1⟩ := hg
  refine ⟨s', ?_, hwf', ?_, ?_, ?_, ?_, ?_, hfl, ?_⟩
  · simp only [RTOSTmrDel, hval, hs1, hs']
  · rw [hmt, hu.1, hfl1]
  · intro a ha
    have h1 := hma a ha
    have h2 := unlinked_data hu a
    unfold SameData at *
    rw [h1.1, h1.2.1, h1.2.2.1, h1.2.2.2.1, h1.2.2.2.2.1, h1.2.2.2.2.2.1, h1.2.2.2.2.2.2.1,
      h1.2.2.2.2.2.2.2.1, h1.2.2.2.2.2.2.2.2]
    exact h2
  · rw [hcl, hcl1]
  · rw [htk, htk1]
  · rw [hfc, hfc1]
  · rw [hht', hht]

/-- `RTOSTmrDel` on a timer that is `Stopped` or `Completed`, and so on no list: the
timer goes to the pool, and `hash_table_mutex` stays held when the bucket of its
`RTOSTmrMatch` is empty. -/
theorem del_unlinked {M : Nat} (fuel : Nat) {s : TimerManager} {free : List Nat}
    {L : Nat → List Nat} {t : Nat} (hwf : WellFormed M s free L)
    (htype : (s.mem t).RTOSTmrType = RTOS_TMR_TYPE)
    (hst : (s.mem t).RTOSTmrState = RTOS_TMR_STATE_STOPPED
      ∨ (s.mem t).RTOSTmrState = RTOS_TMR_STATE_COMPLETED)
    (hfuel : (L ((s.mem t).RTOSTmrMatch % M)).length ≤ fuel)
    (hlen : free.length + 1 < U8) :
    ∃ s', RTOSTmrDel M fuel (some t) s = .ok (RTOS_TRUE, RTOS_SUCCESS,
          { s' with hash_table_mutex := (L ((s.mem t).RTOSTmrMatch % M)).isEmpty })
      ∧ WellFormed M s' (t :: free) L
      ∧ s'.mem t =
          { s.mem t with
            RTOSTmrNext := s.FreeTmrListPtr
            RTOSTmrDelay := 0
            RTOSTmrPeriod := 0
            RTOSTmrState := RTOS_TMR_STATE_UNUSED }
      ∧ (∀ a, a ≠ t → SameData (s'.mem a) (s.mem a))
      ∧ s'.calls = s.calls
      ∧ s'.RTOSTmrTickCtr = s.RTOSTmrTickCtr
      ∧ s'.FreeTmrCount = s.FreeTmrCount + 1 ∧ s'.FreeTmrListPtr = some t
      ∧ s'.hash_table = s.hash_table := by
  have hb : (s.mem t).RTOSTmrMatch % M < M := Nat.mod_lt _ hwf.buckets_pos
  have hval := handleError_valid htype
    (hst.elim Or.inl (fun h => Or.inr (Or.inr h)))
  have hnr : (s.mem t).RTOSTmrState ≠ RTOS_TMR_STATE_RUNNING := by
    rcases hst with h | h <;> rw [h] <;> decide
  have hnu : (s.mem t).RTOSTmrState ≠ RTOS_TMR_STATE_UNUSED := by
    rcases hst with h | h <;> rw [h] <;> decide
  have htf : t ∉ free := not_mem_free_of_state hwf hnu
  have htL : ∀ i < M, t ∉ L i := not_mem_bucket_of_state hwf hnr
  obtain ⟨s', hs', rest⟩ := free_timer_obj_wellFormed hwf htf htL hlen
  refine ⟨s', ?_, rest⟩
  simp only [RTOSTmrDel, hval, remove_hash_entry_unlinked hwf (htL _ hb) hfuel,
    free_timer_obj_hash_mutex, hs', Except.map]

/-! ## Validation, deletion and re-arming -/

/-- An operation on a handle that fails the opening validation returns the failure
value with the error of the validation, and the state it was called in. -/
theorem apiCall_invalid (M fuel : Nat) (c : ApiCall) {ptmr : Option Nat} {s : TimerManager}
    {e : RTOS_ERR} (h : handleError s ptmr = some e) :
    apiCall M fuel c ptmr s = .ok (RTOS_FALSE, e, s) := by
  cases c <;>
    simp [apiCall, RTOSTmrStart, RTOSTmrStop, RTOSTmrDel, RTOSTmrNameGet, RTOSTmrStateGet,
      RTOSTmrRemainGet, h, NULL, RTOS_FALSE]

theorem unlock_eq_self {s : TimerManager} (h : s.hash_table_mutex = false) :
    { s with hash_table_mutex := false } = s := by
  cases s
  simp only at h
  subst h
  rfl

theorem relock_unlock (s : TimerManager) (b : Bool) (h : s.hash_table_mutex = false) :
    { { s with hash_table_mutex := b } with hash_table_mutex := false } = s := by
  cases s
  simp only at h
  subst h
  rfl

/-- `RTOSTmrDel` in a well-formed state on a timer that is `Stopped`, `Completed`, or
`Running` and linked in the bucket of its `RTOSTmrMatch`; `del_unlinked` and
`del_linked` in one statement. -/
theorem del_valid {M : Nat} (fuel : Nat) {s : TimerManager} {free : List Nat}
    {L : Nat → List Nat} {t : Nat} (hwf : WellFormed M s free L)
    (htype : (s.mem t).RTOSTmrType = RTOS_TMR_TYPE)
    (hst : (s.mem t).RTOSTmrState = RTOS_TMR_STATE_STOPPED
      ∨ (s.mem t).RTOSTmrState = RTOS_TMR_STATE_COMPLETED
      ∨ ((s.mem t).RTOSTmrState = RTOS_TMR_STATE_RUNNING
        ∧ t ∈ L ((s.mem t).RTOSTmrMatch % M)))
    (hfuel : (L ((s.mem t).RTOSTmrMatch % M)).length ≤ fuel)
    (hlen : free.length + 1 < U8) :
    ∃ s', RTOSTmrDel M fuel (some t) s = .ok (RTOS_TRUE, RTOS_SUCCESS, s')
      ∧ (s'.mem t).RTOSTmrState = RTOS_TMR_STATE_UNUSED
      ∧ (s'.mem t).RTOSTmrDelay = 0 ∧ (s'.mem t).RTOSTmrPeriod = 0
      ∧ WellFormed M { s' with hash_table_mutex := false } (t :: free)
          (Function.update L ((s.mem t).RTOSTmrMatch % M)
            ((L ((s.mem t).RTOSTmrMatch % M)).erase t))
      ∧ (∀ i < M, t ∉ Function.update L ((s.mem t).RTOSTmrMatch % M)
            ((L ((s.mem t).RTOSTmrMatch % M)).erase t) i)
      ∧ ((s.mem t).RTOSTmrState = RTOS_TMR_STATE_RUNNING →
          (s'.hash_table ((s.mem t).RTOSTmrMatch % M)).timer_count + 1
            = (s.hash_table ((s.mem t).RTOSTmrMatch % M)).timer_count)
      ∧ ((s.mem t).RTOSTmrState ≠ RTOS_TMR_STATE_RUNNING →
          (s'.hash_table ((s.mem t).RTOSTmrMatch % M)).timer_count
            = (s.hash_table ((s.mem t).RTOSTmrMatch % M)).timer_count)
      ∧ (∀ i, i ≠ (s.mem t).RTOSTmrMatch % M → s'.hash_table i = s.hash_table i)
      ∧ s'.FreeTmrListPtr = some t
      ∧ (s'.mem t).RTOSTmrNext = s.FreeTmrListPtr
      ∧ s'.FreeTmrCount = s.FreeTmrCount + 1
      ∧ (∀ a, a ≠ t → SameData (s'.mem a) (s.mem a))
      ∧ s'.RTOSTmrTickCtr = s.RTOSTmrTickCtr
      ∧ s'.calls = s.calls
      ∧ s'.hash_table_mutex = (decide ((s.mem t).RTOSTmrState ≠ RTOS_TMR_STATE_RUNNING)
          && (L ((s.mem t).RTOSTmrMatch % M)).isEmpty) := by
  have hb : (s.mem t).RTOSTmrMatch % M < M := Nat.mod_lt _ hwf.buckets_pos
  have hun : ∀ h : (s.mem t).RTOSTmrState = RTOS_TMR_STATE_STOPPED
      ∨ (s.mem t).RTOSTmrState = RTOS_TMR_STATE_COMPLETED, _ := fun h =>
    del_unlinked fuel hwf htype h hfuel hlen
  have hcase : ((s.mem t).RTOSTmrState = RTOS_TMR_STATE_STOPPED
      ∨ (s.mem t).RTOSTmrState = RTOS_TMR_STATE_COMPLETED)
      ∨ ((s.mem t).RTOSTmrState = RTOS_TMR_STATE_RUNNING
        ∧ t ∈ L ((s.mem t).RTOSTmrMatch % M)) := by
    rcases hst with h | h | h
    · exact Or.inl (Or.inl h)
    · exact Or.inl (Or.inr h)
    · exact Or.inr h
  rcases hcase with h | ⟨hrun, hmem⟩
  · have hnr : (s.mem t).RTOSTmrState ≠ RTOS_TMR_STATE_RUNNING := by
      rcases h with h | h <;> rw [h] <;> decide
    have htL : ∀ i < M, t ∉ L i := not_mem_bucket_of_state hwf hnr
    have hL : Function.update L ((s.mem t).RTOSTmrMatch % M)
        ((L ((s.mem t).RTOSTmrMatch % M)).erase t) = L := by
      rw [List.erase_of_not_mem (htL _ hb), Function.update_eq_self]
    obtain ⟨s', hs', hwf', hmt, hma, hcl, htk, hfc, hfl, hht⟩ := hun h
    rw [hL]
    refine ⟨_, hs', ?_, ?_, ?_, ?_, htL, ?_, ?_, ?_, hfl, ?_, hfc, hma, htk, hcl, ?_⟩
    · show (s'.mem t).RTOSTmrState = _
      rw [hmt]
    · show (s'.mem t).RTOSTmrDelay = _
      rw [hmt]
    · show (s'.mem t).RTOSTmrPeriod = _
      rw [hmt]
    · rw [relock_unlock _ _ hwf'.hash_mutex]; exact hwf'
    · intro hr; exact absurd hr hnr
    · intro _
      show (s'.hash_table _).timer_count = _
      rw [hht]
    · intro i _
      show s'.hash_table i = _
      rw [hht]
    · show (s'.mem t).RTOSTmrNext = _
      rw [hmt]
    · simp [hnr]
  · obtain ⟨s', hs', hwf', hmt, hma, hcl, htk, hfc, hfl, hht⟩ :=
      del_linked fuel hwf htype hmem hfuel hlen
    have htL' : ∀ i < M, t ∉ Function.update L ((s.mem t).RTOSTmrMatch % M)
        ((L ((s.mem t).RTOSTmrMatch % M)).erase t) i := by
      intro i hi hin
      exact (List.nodup_cons.1 hwf'.pool_nodup).1
        (absurd (hwf'.reg_running i hi t hin) (by
          rw [hwf'.pool_unused t (List.mem_cons_self _ _)]; decide))
    refine ⟨s', hs', ?_, ?_, ?_, ?_, htL', ?_, ?_, ?_, hfl, ?_, hfc, hma, htk, hcl, ?_⟩
    · rw [hmt]
    · rw [hmt]
    · rw [hmt]
    · rw [unlock_eq_self hwf'.hash_mutex]; exact hwf'
    · intro _
      have h1 := hwf'.reg_count _ hb
      have h2 := hwf.reg_count _ hb
      rw [Function.update_same] at h1
      rw [h1, h2, List.length_erase_of_mem hmem]
      have := List.length_pos_of_mem hmem
      omega
    · intro hr; exact absurd hrun hr
    · intro i hi
      rw [hht, Function.update_noteq hi]
    · rw [hmt]
    · simp [hrun, hwf'.hash_mutex]

theorem silentRunning_wellFormed :
    WellFormed 10 silentRunning [0] (Function.update (fun _ => []) 0 [1]) :=
  { buckets_pos := by decide
    tick_lt := by decide
    hash_mutex := rfl
    pool_mutex := rfl
    pool_chain := ⟨rfl, rfl⟩
    pool_count := rfl
    pool_bound := by decide
    pool_nodup := by decide
    pool_unused := by
      intro a ha
      rw [List.mem_singleton.1 ha]; rfl
    reg_chain := by
      intro i hi
      interval_cases i
      · exact ⟨rfl, rfl, rfl⟩
      all_goals rfl
    reg_count := by
      intro i hi
      interval_cases i <;> rfl
    reg_bound := by
      intro i hi
      interval_cases i <;> decide
    reg_nodup := by
      intro i hi
      interval_cases i <;> decide
    reg_hash := by
      intro i hi a ha
      interval_cases i
      · rw [List.mem_singleton.1 ha]; rfl
      all_goals cases ha
    reg_running := by
      intro i hi a ha
      interval_cases i
      · rw [List.mem_singleton.1 ha]; rfl
      all_goals cases ha }

theorem poolExhausted_wellFormed : WellFormed 10 poolExhausted [] (fun _ => []) :=
  { buckets_pos := by decide
    tick_lt := by decide
    hash_mutex := rfl
    pool_mutex := rfl
    pool_chain := rfl
    pool_count := rfl
    pool_bound := by decide
    pool_nodup := by decide
    pool_unused := by intro a ha; cases ha
    reg_chain := by
      intro i hi
      interval_cases i <;> rfl
    reg_count := by
      intro i hi
      interval_cases i <;> rfl
    reg_bound := by intro i _; decide
    reg_nodup := by intro i _; exact List.nodup_nil
    reg_hash := by intro i _ a ha; cases ha
    reg_running := by intro i _ a ha; cases ha }

/-- `RTOSTmrStart` on a periodic timer that is linked in the bucket of its match tick:
the timer is unlinked, re-armed one period after the current tick, and linked at the
head of the bucket of the new match tick. -/
theorem start_running_periodic {M : Nat} (fuel : Nat) {s : TimerManager} {free : List Nat}
    {L : Nat → List Nat} {t : Nat} (hwf : WellFormed M s free L)
    (htype : (s.mem t).RTOSTmrType = RTOS_TMR_TYPE)
    (hmode : (s.mem t).RTOSTmrOpt = RTOS_TMR_PERIODIC)
    (hlinked : t ∈ L ((s.mem t).RTOSTmrMatch % M))
    (hfuel : (L ((s.mem t).RTOSTmrMatch % M)).length ≤ fuel)
    (hlen : add32 s.RTOSTmrTickCtr (s.mem t).RTOSTmrPeriod % M ≠ (s.mem t).RTOSTmrMatch % M →
      (L (add32 s.RTOSTmrTickCtr (s.mem t).RTOSTmrPeriod % M)).length + 1 < U8) :
    ∃ s', RTOSTmrStart M fuel (some t) s = .ok (RTOS_TRUE, RTOS_ERR_NONE, s')
      ∧ WellFormed M s' free
          (Function.update
            (Function.update L ((s.mem t).RTOSTmrMatch % M)
              ((L ((s.mem t).RTOSTmrMatch % M)).erase t))
            (add32 s.RTOSTmrTickCtr (s.mem t).RTOSTmrPeriod % M)
            (t :: Function.update L ((s.mem t).RTOSTmrMatch % M)
              ((L ((s.mem t).RTOSTmrMatch % M)).erase t)
              (add32 s.RTOSTmrTickCtr (s.mem t).RTOSTmrPeriod % M)))
      ∧ SameData (s'.mem t)
          { s.mem t with
            RTOSTmrMatch := add32 s.RTOSTmrTickCtr (s.mem t).RTOSTmrPeriod
            RTOSTmrState := RTOS_TMR_STATE_RUNNING }
      ∧ (∀ a, a ≠ t → SameData (s'.mem a) (s.mem a))
      ∧ s'.calls = s.calls
      ∧ s'.RTOSTmrTickCtr = s.RTOSTmrTickCtr
      ∧ s'.FreeTmrCount = s.FreeTmrCount ∧ s'.FreeTmrListPtr = s.FreeTmrListPtr := by
  have hb : (s.mem t).RTOSTmrMatch % M < M := Nat.mod_lt _ hwf.buckets_pos
  have hrun := hwf.reg_running _ hb t hlinked
  have hval := handleError_valid htype (Or.inr (Or.inl hrun))
  have htf : t ∉ free := not_mem_free_of_state hwf (by rw [hrun]; decide)
  obtain ⟨s1, hs1, hu, hht, hg⟩ := remove_hash_entry_linked hwf hlinked hfuel
  have hwf1 := wellFormed_unlink hwf hb hlinked hu hht hg
  have htL1 : ∀ i < M, t ∉ Function.update L ((s.mem t).RTOSTmrMatch % M)
      ((L ((s.mem t).RTOSTmrMatch % M)).erase t) i := by
    intro i hi
    by_cases hib : i = (s.mem t).RTOSTmrMatch % M
    · rw [hib, Function.update_same]
      exact fun h => (List.Nodup.mem_erase_iff (hwf.reg_nodup _ hb)).1 h |>.1 rfl
    · rw [Function.update_noteq hib]
      exact fun h => hib (bucket_disjoint hwf hi hb h hlinked)
  obtain ⟨-, hfc1, hfl1, htk1, -, -, hcl1⟩ := hg
  have hper : (s1.mem t).RTOSTmrPeriod = (s.mem t).RTOSTmrPeriod := by rw [hu.1]
  have hlen1 : (Function.update L ((s.mem t).RTOSTmrMatch % M)
      ((L ((s.mem t).RTOSTmrMatch % M)).erase t)
      (add32 s.RTOSTmrTickCtr (s.mem t).RTOSTmrPeriod % M)).length + 1 < U8 := by
    by_cases hbb : add32 s.RTOSTmrTickCtr (s.mem t).RTOSTmrPeriod % M
        = (s.mem t).RTOSTmrMatch % M
    · rw [hbb, Function.update_same, List.length_erase_of_mem hlinked]
      have h1 := hwf.reg_bound _ hb
      have h2 := List.length_pos_of_mem hlinked
      omega
    · rw [Function.update_noteq hbb]
      exact hlen hbb
  obtain ⟨s', hs', hwf', hmt, hma, hcl, htk, hfc, hfl, -⟩ :=
    start_arm_wellFormed (m := add32 s.RTOSTmrTickCtr (s.mem t).RTOSTmrPeriod) hwf1 htf htL1
      hlen1
  have hne : ¬ RTOS_TMR_PERIODIC = RTOS_TMR_ONE_SHOT := by decide
  have hns : ¬ RTOS_TMR_STATE_RUNNING = RTOS_TMR_STATE_STOPPED := by decide
  have hnc : ¬ RTOS_TMR_STATE_RUNNING = RTOS_TMR_STATE_COMPLETED := by decide
  refine ⟨s', ?_, hwf', ?_, ?_, ?_, ?_, ?_, ?_⟩
  · simp only [RTOSTmrStart, hval, hmode, hrun, hne, hns, hnc, if_false, and_false, and_self,
      if_true, hs1, htk1, hper]
    exact hs'
  · rw [hmt, hu.1]
    simp [SameData]
  · intro a ha
    have h1 := hma a ha
    have h2 := unlinked_data hu a
    unfold SameData at *
    rw [h1.1, h1.2.1, h1.2.2.1, h1.2.2.2.1, h1.2.2.2.2.1, h1.2.2.2.2.2.1, h1.2.2.2.2.2.2.1,
      h1.2.2.2.2.2.2.2.1, h1.2.2.2.2.2.2.2.2]
    exact h2
  · rw [hcl, hcl1]
  · rw [htk, htk1]
  · rw [hfc, hfc1]
  · rw [hfl, hfl1]

theorem except_map_decide {α : Type} {x : Except Fault α} {P : α → Prop} [DecidablePred P]
    (h : x.map (fun a => decide (P a)) = .ok true) : ∃ a, x = .ok a ∧ P a := by
  cases x with
  | error e => cases h
  | ok a =>
    refine ⟨a, rfl, ?_⟩
    simp only [Except.map, Except.ok.injEq, decide_eq_true_eq] at h
    exact h

theorem no_chain_of_self_loop {mem : Nat → RTOS_TMR} {a : Nat}
    (h : (mem a).RTOSTmrNext = some a) : ∀ l, ¬ Chain mem (some a) l
  | [] => fun hc => by cases hc
  | b :: l => fun hc => by
    obtain ⟨h1, h2⟩ := hc
    cases h1
    rw [h] at h2
    exact no_chain_of_self_loop h l h2

/-! ## The registry on its own -/

theorem registry_of_wellFormed {M : Nat} {s : TimerManager} {free : List Nat}
    {L : Nat → List Nat} (hwf : WellFormed M s free L) : Registry M s L :=
  { size_pos := hwf.buckets_pos
    unlocked := hwf.hash_mutex
    lists := hwf.reg_chain
    counts := hwf.reg_count
    short := hwf.reg_bound
    distinct := hwf.reg_nodup
    hashed := hwf.reg_hash }

theorem wellFormed_asRunning {M : Nat} {s : TimerManager} {L : Nat → List Nat}
    (hreg : Registry M s L) : WellFormed M (asRunning s) [] L :=
  { buckets_pos := hreg.size_pos
    tick_lt := by show 0 < U32; decide
    hash_mutex := hreg.unlocked
    pool_mutex := rfl
    pool_chain := rfl
    pool_count := rfl
    pool_bound := by show 0 < U8; decide
    pool_nodup := List.nodup_nil
    pool_unused := by intro a ha; cases ha
    reg_chain := fun i hi =>
      @dchain_frame s.mem (asRunning s).mem (L i) none _ (fun _ _ => ⟨rfl, rfl⟩)
        (hreg.lists i hi)
    reg_count := hreg.counts
    reg_bound := hreg.short
    reg_nodup := hreg.distinct
    reg_hash := hreg.hashed
    reg_running := fun _ _ _ _ => rfl }

theorem registry_of_asRunning {M : Nat} {s : TimerManager} {free : List Nat}
    {L : Nat → List Nat} (hwf : WellFormed M (asRunning s) free L) : Registry M s L :=
  { size_pos := hwf.buckets_pos
    unlocked := hwf.hash_mutex
    lists := fun i hi =>
      @dchain_frame (asRunning s).mem s.mem (L i) none _ (fun _ _ => ⟨rfl, rfl⟩)
        (hwf.reg_chain i hi)
    counts := hwf.reg_count
    short := hwf.reg_bound
    distinct := hwf.reg_nodup
    hashed := hwf.reg_hash }

theorem linked_asRunning {s s' : TimerManager} {t : Nat} {head : Option Nat}
    (hu : Linked s.mem s'.mem t head) : Linked (asRunning s).mem (asRunning s').mem t head := by
  constructor
  · show ({ s'.mem t with RTOSTmrState := RTOS_TMR_STATE_RUNNING } : RTOS_TMR) = _
    rw [hu.1]; rfl
  · intro a ha
    show ({ s'.mem a with RTOSTmrState := RTOS_TMR_STATE_RUNNING } : RTOS_TMR) = _
    rw [hu.2 a ha]; rfl

theorem unlinked_asRunning {s s' : TimerManager} {t : Nat}
    (hu : Unlinked s.mem s'.mem t) : Unlinked (asRunning s).mem (asRunning s').mem t := by
  constructor
  · show ({ s'.mem t with RTOSTmrState := RTOS_TMR_STATE_RUNNING } : RTOS_TMR) = _
    rw [hu.1]; rfl
  · intro a ha
    show ({ s'.mem a with RTOSTmrState := RTOS_TMR_STATE_RUNNING } : RTOS_TMR) = _
    rw [hu.2 a ha]; rfl

theorem sameGlobals_asRunning {s s' : TimerManager} (hg : SameGlobals s s') :
    SameGlobals (asRunning s) (asRunning s') := by
  obtain ⟨h1, -, -, -, h5, -, h7⟩ := hg
  exact ⟨h1, rfl, rfl, rfl, h5, rfl, h7⟩

/-- `insert_hash_entry` on a well-formed registry, for a timer that is in no bucket. -/
theorem insert_registry {M : Nat} {s : TimerManager} {L : Nat → List Nat} {t : Nat}
    (hreg : Registry M s L) (htL : ∀ i < M, t ∉ L i)
    (hlen : (L ((s.mem t).RTOSTmrMatch % M)).length + 1 < U8) :
    ∃ s', insert_hash_entry M t s = .ok s'
      ∧ Registry M s' (Function.update L ((s.mem t).RTOSTmrMatch % M)
          (t :: L ((s.mem t).RTOSTmrMatch % M)))
      ∧ Linked s.mem s'.mem t (s.hash_table ((s.mem t).RTOSTmrMatch % M)).list_ptr
      ∧ s'.hash_table = Function.update s.hash_table ((s.mem t).RTOSTmrMatch % M)
          ⟨some t, (s.hash_table ((s.mem t).RTOSTmrMatch % M)).timer_count + 1⟩
      ∧ SameGlobals s s' := by
  have hb : (s.mem t).RTOSTmrMatch % M < M := Nat.mod_lt _ hreg.size_pos
  have hhd : (s.hash_table ((s.mem t).RTOSTmrMatch % M)).list_ptr ≠ some t :=
    fun e => htL _ hb (head_mem_of_dchain (hreg.lists _ hb) e)
  obtain ⟨s', hs', hu, hht, hg⟩ := insert_hash_entry_spec (M := M) hreg.unlocked hhd
  have hwf' := wellFormed_link (wellFormed_asRunning hreg) hb rfl rfl (List.not_mem_nil t)
    htL hlen (linked_asRunning hu) hht (sameGlobals_asRunning hg)
  refine ⟨s', hs', registry_of_asRunning hwf', hu, ?_, hg⟩
  rw [hht, hreg.counts _ hb, inc8_lt hlen]

/-- `remove_hash_entry` on a well-formed registry, for a timer that is linked in the
bucket of its `RTOSTmrMatch`; the loop is entered only when the timer is not the head
of the bucket. -/
theorem remove_registry_linked {M : Nat} (fuel : Nat) {s : TimerManager}
    {L : Nat → List Nat}
    {t : Nat} (hreg : Registry M s L) (ht : t ∈ L ((s.mem t).RTOSTmrMatch % M))
    (hfuel : (s.hash_table ((s.mem t).RTOSTmrMatch % M)).list_ptr ≠ some t →
      (L ((s.mem t).RTOSTmrMatch % M)).length ≤ fuel) :
    ∃ s', remove_hash_entry M fuel (some t) s = .ok s'
      ∧ Registry M s' (Function.update L ((s.mem t).RTOSTmrMatch % M)
          ((L ((s.mem t).RTOSTmrMatch % M)).erase t))
      ∧ Unlinked s.mem s'.mem t
      ∧ s'.hash_table = Function.update s.hash_table ((s.mem t).RTOSTmrMatch % M)
          ⟨if (s.hash_table ((s.mem t).RTOSTmrMatch % M)).list_ptr = some t
              then (s.mem t).RTOSTmrNext
              else (s.hash_table ((s.mem t).RTOSTmrMatch % M)).list_ptr,
            dec8 (s.hash_table ((s.mem t).RTOSTmrMatch % M)).timer_count⟩
      ∧ SameGlobals s s' := by
  have hb : (s.mem t).RTOSTmrMatch % M < M := Nat.mod_lt _ hreg.size_pos
  have key : ∃ s', remove_hash_entry M fuel (some t) s = .ok s'
      ∧ Unlinked s.mem s'.mem t
      ∧ s'.hash_table = Function.update s.hash_table ((s.mem t).RTOSTmrMatch % M)
          ⟨if (s.hash_table ((s.mem t).RTOSTmrMatch % M)).list_ptr = some t
              then (s.mem t).RTOSTmrNext
              else (s.hash_table ((s.mem t).RTOSTmrMatch % M)).list_ptr,
            dec8 (s.hash_table ((s.mem t).RTOSTmrMatch % M)).timer_count⟩
      ∧ SameGlobals s s' := by
    generalize hbdef : (s.mem t).RTOSTmrMatch % M = b at *
    have hd := hreg.lists b hb
    have hn := hreg.distinct b hb
    have hm := hreg.unlocked
    cases hl : L b with
    | nil => rw [hl] at ht; cases ht
    | cons x r =>
      rw [hl] at hd hn ht hfuel
      have hhead : (s.hash_table b).list_ptr = some x := hd.1
      by_cases hxt : x = t
      · subst hxt
        have hprev : (s.mem x).RTOSTmrPrev = none := hd.2.1
        simp only [remove_hash_entry, hashCode, hbdef, hm, hhead, if_true, if_false,
          Bool.false_eq_true]
        refine ⟨_, rfl, ?_, ?_, ?_⟩
        · constructor
          · simp only [upd_mem, updBucket_mem, Function.update_same, setPrevIf_mem_apply]
            split <;> rfl
          · intro a ha
            simp only [upd_mem, updBucket_mem, Function.update_apply, ha, if_false,
              setPrevIf_mem_apply, updBucket_hash_table, Function.update_same, hprev]
            by_cases h : (s.mem x).RTOSTmrNext = some a <;> simp [h]
        · simp [hhead]
        · simp [SameGlobals, hm]
      · have ht' : t ∈ r := by
          rcases List.mem_cons.1 ht with h | h
          · exact absurd h.symm hxt
          · exact h
        have hfuel' := hfuel (by rw [hhead]; exact fun e => hxt (Option.some.inj e))
        obtain ⟨pv, hpvt, hpv⟩ : ∃ pv, pv ≠ t ∧ (s.mem t).RTOSTmrPrev = some pv := by
          rcases dchain_prev_mem (x :: r) none _ hd hn ht with ⟨_, h2⟩ | ⟨a, _, hat, h1, _⟩
          · rw [hhead] at h2; exact absurd (Option.some.inj h2) hxt
          · exact ⟨a, hat, h1⟩
        have hloop := remove_hash_entry_loop_found b
          (s := { s with hash_table_mutex := true }) hpv r fuel (s.mem x).RTOSTmrNext
          (dchain_chain hd.2.2) ht' (by simp at hfuel'; omega)
        simp only [remove_hash_entry, hashCode, hbdef, hm, hhead, hxt, if_false,
          Bool.false_eq_true, hloop]
        refine ⟨_, rfl, ?_, ?_, ?_⟩
        · exact unlinked_mem b (s := { s with hash_table_mutex := true }) hpv hpvt
        · have : ¬ x = t := hxt
          simp [unlinked, hhead, this]
        · simp [SameGlobals, unlinked, hm]
  obtain ⟨s', hs', hu, hht, hg⟩ := key
  have hwf' := wellFormed_unlink (wellFormed_asRunning hreg) hb ht (unlinked_asRunning hu) hht
    (sameGlobals_asRunning hg)
  exact ⟨s', hs', registry_of_asRunning hwf', hu, hht, hg⟩

/-- `remove_hash_entry` on a well-formed registry, for a timer that is not linked in the
bucket of its `RTOSTmrMatch`: no timer object and no bucket changes, and the mutex
stays held when the bucket is empty (line 372). -/
theorem remove_registry_unlinked {M fuel : Nat} {s : TimerManager} {L : Nat → List Nat}
    {t : Nat} (hreg : Registry M s L) (ht : t ∉ L ((s.mem t).RTOSTmrMatch % M))
    (hfuel : (L ((s.mem t).RTOSTmrMatch % M)).length ≤ fuel) :
    remove_hash_entry M fuel (some t) s
      = .ok { s with hash_table_mutex := (L ((s.mem t).RTOSTmrMatch % M)).isEmpty } := by
  have hb : (s.mem t).RTOSTmrMatch % M < M := Nat.mod_lt _ hreg.size_pos
  generalize hbdef : (s.mem t).RTOSTmrMatch % M = b at *
  have hd := hreg.lists b hb
  have hm := hreg.unlocked
  cases hl : L b with
  | nil =>
    rw [hl] at hd
    have hhead : (s.hash_table b).list_ptr = none := hd
    simp [remove_hash_entry, hashCode, hbdef, hm, hhead]
  | cons x r =>
    rw [hl] at hd ht hfuel
    have hhead : (s.hash_table b).list_ptr = some x := hd.1
    have hxt : ¬ x = t := fun e => ht (e ▸ List.mem_cons_self _ _)
    have hloop := remove_hash_entry_loop_absent b t { s with hash_table_mutex := true } r fuel
      (s.mem x).RTOSTmrNext (dchain_chain hd.2.2) (fun h => ht (List.mem_cons_of_mem _ h))
      (by simp at hfuel; omega)
    simp only [remove_hash_entry, hashCode, hbdef, hm, hhead, hxt, if_false,
      Bool.false_eq_true, hloop]
    simp

/-! ## Insert and remove as inverses -/

/-- `insert_hash_entry` followed by `remove_hash_entry` of the same timer, on a
well-formed registry in which the timer is in no bucket: the hash table and all other
timer objects are as before, and the links of the timer are `NULL`. -/
theorem insert_remove_registry {M : Nat} (fuel : Nat) {s : TimerManager}
    {L : Nat → List Nat} {t : Nat}
    (hreg : Registry M s L) (htL : ∀ i < M, t ∉ L i)
    (hlen : (L ((s.mem t).RTOSTmrMatch % M)).length + 1 < U8) :
    ∃ s' s'', insert_hash_entry M t s = .ok s'
      ∧ Registry M s' (Function.update L ((s.mem t).RTOSTmrMatch % M)
          (t :: L ((s.mem t).RTOSTmrMatch % M)))
      ∧ s'.hash_table = Function.update s.hash_table ((s.mem t).RTOSTmrMatch % M)
          ⟨some t, (s.hash_table ((s.mem t).RTOSTmrMatch % M)).timer_count + 1⟩
      ∧ (∀ a, SameData (s'.mem a) (s.mem a))
      ∧ remove_hash_entry M fuel (some t) s' = .ok s''
      ∧ Registry M s'' L
      ∧ s''.hash_table = s.hash_table
      ∧ (∀ a, a ≠ t → s''.mem a = s.mem a)
      ∧ s''.mem t = { s.mem t with RTOSTmrNext := none, RTOSTmrPrev := none } := by
  have hb : (s.mem t).RTOSTmrMatch % M < M := Nat.mod_lt _ hreg.size_pos
  obtain ⟨s', hs', hreg', hu, hht, hg⟩ := insert_registry hreg htL hlen
  have hmatch : (s'.mem t).RTOSTmrMatch = (s.mem t).RTOSTmrMatch := by rw [hu.1]
  have hcount := hreg.counts _ hb
  have hbound := hreg.short _ hb
  generalize hbdef : (s.mem t).RTOSTmrMatch % M = b at *
  have hb' : (s'.mem t).RTOSTmrMatch % M = b := by rw [hmatch, hbdef]
  have hhead' : (s'.hash_table b).list_ptr = some t := by rw [hht, Function.update_same]
  obtain ⟨s'', hs'', hreg'', hu', hht', -⟩ :=
    remove_registry_linked fuel hreg'
      (by rw [hb', Function.update_same]; exact List.mem_cons_self _ _)
      (by rw [hb']; exact fun h => absurd hhead' h)
  rw [hb'] at hreg'' hht'
  have hL : Function.update (Function.update L b (t :: L b)) b
      ((Function.update L b (t :: L b) b).erase t) = L := by
    rw [Function.update_same, List.erase_cons_head, Function.update_idem,
      Function.update_eq_self]
  rw [hL] at hreg''
  have hprev : ∀ a, (s.hash_table b).list_ptr = some a → (s.mem a).RTOSTmrPrev = none := by
    intro a ha
    have hd := hreg.lists b hb
    cases hl : L b with
    | nil => rw [hl] at hd; have : (s.hash_table b).list_ptr = none := hd; rw [this] at ha; cases ha
    | cons x r =>
      rw [hl] at hd
      have h1 : (s.hash_table b).list_ptr = some x := hd.1
      rw [h1] at ha
      rw [← Option.some.inj ha]
      exact hd.2.1
  refine ⟨s', s'', hs', hreg', hht, fun a => linked_data hu a, hs'', hreg'', ?_, ?_, ?_⟩
  · rw [hht', hhead', if_pos rfl, hu.1, hht, Function.update_same, Function.update_idem]
    simp only []
    have : dec8 ((s.hash_table b).timer_count + 1) = (s.hash_table b).timer_count := by
      rw [hcount, dec8_succ hlen]
    rw [this]
    exact Function.update_eq_self b s.hash_table
  · intro a ha
    rw [hu'.2 a ha, hu.1, hu.2 a ha]
    simp only [reduceCtorEq, if_false]
    by_cases h : (s.hash_table b).list_ptr = some a
    · have := hprev a h
      simp only [h, if_true]
      rw [← this]
    · simp only [h, if_false]
  · rw [hu'.1, hu.1]

/-! ## Calls made while the registry lock is held -/

theorem twoCreated_wellFormed : WellFormed 10 twoCreated [] (fun _ => []) := by
  decide!

theorem insert_hash_entry_locked (M t : Nat) {s : TimerManager}
    (hm : s.hash_table_mutex = true) : insert_hash_entry M t s = .error .deadlock := by
  simp [insert_hash_entry, hm]

theorem remove_hash_entry_locked (M fuel t : Nat) {s : TimerManager}
    (hm : s.hash_table_mutex = true) :
    remove_hash_entry M fuel (some t) s = .error .deadlock := by
  simp [remove_hash_entry, hm]

theorem start_arm_locked (M t : Nat) {s : TimerManager}
    (hm : s.hash_table_mutex = true) : RTOSTmrStart_arm M t s = .error .deadlock := by
  have h := insert_hash_entry_locked M t
    (s := s.upd t (fun x => { x with RTOSTmrState := RTOS_TMR_STATE_RUNNING })) hm
  simp only [RTOSTmrStart_arm, h]

/-- While `hash_table_mutex` is held, `RTOSTmrDel` on a valid handle never returns. -/
theorem del_locked (M fuel : Nat) {s : TimerManager} {t : Nat}
    (hm : s.hash_table_mutex = true) (hv : handleError s (some t) = none) :
    RTOSTmrDel M fuel (some t) s = .error .deadlock := by
  simp only [RTOSTmrDel, hv, remove_hash_entry_locked M fuel t hm]

/-- While `hash_table_mutex` is held, `RTOSTmrStart` on a valid handle of a one-shot or
periodic timer never returns. -/
theorem start_locked (M fuel : Nat) {s : TimerManager} {t : Nat}
    (hm : s.hash_table_mutex = true) (hv : handleError s (some t) = none)
    (hst : (s.mem t).RTOSTmrState = RTOS_TMR_STATE_STOPPED
      ∨ (s.mem t).RTOSTmrState = RTOS_TMR_STATE_RUNNING
      ∨ (s.mem t).RTOSTmrState = RTOS_TMR_STATE_COMPLETED)
    (hmode : (s.mem t).RTOSTmrOpt = RTOS_TMR_ONE_SHOT
      ∨ (s.mem t).RTOSTmrOpt = RTOS_TMR_PERIODIC) :
    RTOSTmrStart M fuel (some t) s = .error .deadlock := by
  have harm : ∀ m, RTOSTmrStart_arm M t (s.upd t (fun x => { x with RTOSTmrMatch := m }))
      = .error .deadlock := fun m => start_arm_locked M t hm
  simp only [RTOSTmrStart, hv]
  split_ifs with h1 h2 h3 h4
  · exact harm _
  · exact harm _
  · exact harm _
  · simp only [remove_hash_entry_locked M fuel t hm]
  · exfalso
    rcases hmode with h | h
    · exact h1 h
    · rcases hst with h' | h' | h'
      · exact h2 ⟨h, h'⟩
      · exact h4 ⟨h, h'⟩
      · exact h3 ⟨h, h'⟩

/-- While `hash_table_mutex` is held, `RTOSTmrStop` with a valid option on a valid handle
of a timer that is not `Stopped` never returns. -/
theorem stop_locked (M fuel : Nat) {s : TimerManager} {t : Nat} (opt callback_arg : Nat)
    (hm : s.hash_table_mutex = true) (hv : handleError s (some t) = none)
    (hst : (s.mem t).RTOSTmrState ≠ RTOS_TMR_STATE_STOPPED)
    (hopt : opt = RTOS_TMR_OPT_NONE ∨ opt = RTOS_TMR_OPT_CALLBACK
      ∨ opt = RTOS_TMR_OPT_CALLBACK_ARG) :
    RTOSTmrStop M fuel (some t) opt callback_arg s = .error .deadlock := by
  have ho : ¬ (opt ≠ RTOS_TMR_OPT_NONE ∧ opt ≠ RTOS_TMR_OPT_CALLBACK
      ∧ opt ≠ RTOS_TMR_OPT_CALLBACK_ARG) := by
    rintro ⟨h1, h2, h3⟩
    rcases hopt with h | h | h
    · exact h1 h
    · exact h2 h
    · exact h3 h
  simp only [RTOSTmrStop, hv, ho, hst, if_false, remove_hash_entry_locked M fuel t hm]

/-! ## A one-shot timer expires alone in its bucket -/

/-- The tick step in which a one-shot timer expires alone in its bucket.  With a `wild`
`perr` the step faults at the first store through it.  With a `writable` one the step
returns with `hash_table_mutex` held: `RTOSTmrStop` empties the bucket and the
`remove_hash_entry` of the `RTOSTmrDel` that follows returns through line 372; the
callback was invoked and the timer is `Unused`, and a later `RTOSTmrStart` of the other
timer never returns. -/
theorem one_shot_expiry_leaves_lock_held :
    (oneShotExpired .wild).map (fun s => s.calls) = .error Fault.wildStore
      ∧ (oneShotExpired .writable).map
          (fun s => (s.hash_table_mutex, s.calls, (s.mem 1).RTOSTmrState))
        = .ok (true, [(7, 70)], RTOS_TMR_STATE_UNUSED)
      ∧ ((oneShotExpired .writable).bind (fun s => RTOSTmrStart 10 4 (some 0) s)).map
          (fun r => r.1)
        = .error Fault.deadlock := by
  decide!

/-! ## Tick steps and the pointer of the task -/

/-- A tick step that finds its bucket empty stores nothing through `perr`: it only
advances the counter, whatever the value of `perr`. -/
theorem task_empty_bucket (M fuel : Nat) (perr : ErrPtr) {s : TimerManager}
    (h : (s.hash_table (add32 s.RTOSTmrTickCtr 1 % M)).list_ptr = none) :
    RTOSTmrTask M fuel perr s = .ok { s with RTOSTmrTickCtr := add32 s.RTOSTmrTickCtr 1 } := by
  unfold RTOSTmrTask
  simp only []
  rw [h]
  exact scan_none M fuel perr fuel _

/-- A tick step that finds a timer in its bucket stores through `perr` when it calls
`RTOSTmrRemainGet` for the head of the list, and faults there when `perr` is `wild`. -/
theorem task_wild_faults (M : Nat) {fuel : Nat} {s : TimerManager} {a : Nat}
    (h : (s.hash_table (add32 s.RTOSTmrTickCtr 1 % M)).list_ptr = some a) (hfuel : 1 ≤ fuel) :
    RTOSTmrTask M fuel .wild s = .error .wildStore := by
  obtain ⟨n, rfl⟩ : ∃ n, fuel = n + 1 := ⟨fuel - 1, by omega⟩
  unfold RTOSTmrTask
  simp only []
  rw [h]
  simp only [RTOSTmrTask_scan, storePerr]

theorem add32_add32_one (c i : Nat) : add32 (add32 c 1) i = add32 c (i + 1) := by
  unfold add32 U32; omega

/-- Tick steps none of which scans the bucket of the only armed timer only advance the
counter, whatever the value of `perr`. -/
theorem ticks_bucket_not_scanned {M : Nat} (fuel : Nat) (perr : ErrPtr) (free : List Nat)
    {t : Nat} :
    ∀ (j : Nat) (s : TimerManager),
      WellFormed M s free (soleTimer M t (s.mem t).RTOSTmrMatch) →
      (∀ i, 1 ≤ i → i ≤ j → add32 s.RTOSTmrTickCtr i % M ≠ (s.mem t).RTOSTmrMatch % M) →
      ticks M fuel perr j s = .ok { s with RTOSTmrTickCtr := add32 s.RTOSTmrTickCtr j } := by
  intro j
  induction j with
  | zero =>
    intro s hwf _
    have : add32 s.RTOSTmrTickCtr 0 = s.RTOSTmrTickCtr := by
      have := hwf.tick_lt
      unfold add32 U32 at *
      omega
    rw [this]
    rfl
  | succ j ih =>
    intro s hwf hns
    have hM := hwf.buckets_pos
    have h1 := hns 1 (le_refl 1) (by omega)
    have hempty : (s.hash_table (add32 s.RTOSTmrTickCtr 1 % M)).list_ptr = none := by
      have hd := hwf.reg_chain _ (Nat.mod_lt (add32 s.RTOSTmrTickCtr 1) hM)
      simp only [soleTimer, Function.update_noteq h1] at hd
      exact hd
    rw [ticks, task_empty_bucket M fuel perr hempty]
    simp only []
    have hstep := ih { s with RTOSTmrTickCtr := add32 s.RTOSTmrTickCtr 1 }
      (wellFormed_setTick hwf (add32_lt _ _)) (by
        intro i hi1 hi2
        show add32 (add32 s.RTOSTmrTickCtr 1) i % M ≠ (s.mem t).RTOSTmrMatch % M
        rw [add32_add32_one]
        exact hns (i + 1) (by omega) (by omega))
    rw [hstep]
    simp only [add32_add32_one]

/-- Tick steps one of which scans the bucket of the only armed timer do not return when
`perr` is `wild`: the first such step faults. -/
theorem ticks_bucket_scanned {M : Nat} {fuel : Nat} (free : List Nat) {t : Nat}
    (hfuel : 1 ≤ fuel) :
    ∀ (j : Nat) (s : TimerManager),
      WellFormed M s free (soleTimer M t (s.mem t).RTOSTmrMatch) →
      (∃ i, 1 ≤ i ∧ i ≤ j ∧ add32 s.RTOSTmrTickCtr i % M = (s.mem t).RTOSTmrMatch % M) →
      ticks M fuel .wild j s = .error .wildStore := by
  intro j
  induction j with
  | zero =>
    intro s _ ⟨i, h1, h2, _⟩
    omega
  | succ j ih =>
    intro s hwf ⟨i, hi1, hi2, hi⟩
    have hM := hwf.buckets_pos
    by_cases h1 : add32 s.RTOSTmrTickCtr 1 % M = (s.mem t).RTOSTmrMatch % M
    · have hd := hwf.reg_chain _ (Nat.mod_lt (s.mem t).RTOSTmrMatch hM)
      simp only [soleTimer, Function.update_same] at hd
      have hhead : (s.hash_table (add32 s.RTOSTmrTickCtr 1 % M)).list_ptr = some t := by
        rw [h1]; exact hd.1
      rw [ticks, task_wild_faults M hhead hfuel]
    · have hempty : (s.hash_table (add32 s.RTOSTmrTickCtr 1 % M)).list_ptr = none := by
        have hd := hwf.reg_chain _ (Nat.mod_lt (add32 s.RTOSTmrTickCtr 1) hM)
        simp only [soleTimer, Function.update_noteq h1] at hd
        exact hd
      rw [ticks, task_empty_bucket M fuel .wild hempty]
      simp only []
      have hi' : i ≠ 1 := fun e => h1 (e ▸ hi)
      exact ih { s with RTOSTmrTickCtr := add32 s.RTOSTmrTickCtr 1 }
        (wellFormed_setTick hwf (add32_lt _ _))
        ⟨i - 1, by omega, by omega, by
          show add32 (add32 s.RTOSTmrTickCtr 1) (i - 1) % M = (s.mem t).RTOSTmrMatch % M
          rw [add32_add32_one]
          have : i - 1 + 1 = i := by omega
          rw [this]; exact hi⟩

/-! ## What the calls do where the slips of the code are not met -/

/-- The tick steps for a periodic timer when `perr` is `writable`.  A periodic timer
with delay `d` and period `p` (both at least 1 and below `2^32`) that has a callback
is started from `Stopped` at tick `t0` in a well-formed state in which no timer is
armed.  The start succeeds without invoking the callback, and every later tick step
returns: step number `k + 1` advances the counter to `t0 + k + 1` modulo `2^32` and
invokes the callback exactly once, with the timer's argument, if `k + 1` is one of
`d`, `d + p`, `d + 2 p`, ... (`firesAt`), and invokes nothing otherwise. -/
theorem periodic_fires_every_period (M fuel : Nat) (s : TimerManager) (free : List Nat)
    (t f : Nat) (hwf : WellFormed M s free (fun _ => []))
    (htype : (s.mem t).RTOSTmrType = RTOS_TMR_TYPE)
    (hmode : (s.mem t).RTOSTmrOpt = RTOS_TMR_PERIODIC)
    (hst : (s.mem t).RTOSTmrState = RTOS_TMR_STATE_STOPPED)
    (hcb : (s.mem t).RTOSTmrCallback = some f)
    (hd1 : 1 ≤ (s.mem t).RTOSTmrDelay) (hd2 : (s.mem t).RTOSTmrDelay < U32)
    (hp1 : 1 ≤ (s.mem t).RTOSTmrPeriod) (hp2 : (s.mem t).RTOSTmrPeriod < U32)
    (hfuel : 1 ≤ fuel) :
    ∃ s₀, RTOSTmrStart M fuel (some t) s = .ok (RTOS_TRUE, RTOS_ERR_NONE, s₀)
      ∧ s₀.calls = s.calls
      ∧ ∀ k, ∃ sₖ sₖ', ticks M fuel .writable k s₀ = .ok sₖ
          ∧ RTOSTmrTask M fuel .writable sₖ = .ok sₖ'
          ∧ sₖ'.RTOSTmrTickCtr = add32 s.RTOSTmrTickCtr (k + 1)
          ∧ sₖ'.calls = sₖ.calls ++
              (if firesAt (s.mem t).RTOSTmrDelay (s.mem t).RTOSTmrPeriod (k + 1)
                then [(f, (s.mem t).RTOSTmrCallbackArg)] else []) := by
  obtain ⟨s₀, hs₀, hwf₀, hmt₀, -, hcl₀, htk₀, -⟩ :=
    start_stopped (fuel) hwf htype hst (Or.inr hmode) (by show 0 + 1 < U8; decide)
  rw [soleTimer_cons] at hwf₀
  have hmatch₀ : (s₀.mem t).RTOSTmrMatch = add32 s.RTOSTmrTickCtr (s.mem t).RTOSTmrDelay := by
    rw [hmt₀]
  have ht0 := hwf.tick_lt
  have hinv : PeriodicArmed M free t f (s.mem t).RTOSTmrCallbackArg (s.mem t).RTOSTmrDelay
      (s.mem t).RTOSTmrPeriod s.RTOSTmrTickCtr 0 s₀ :=
    { wf := by rw [hmatch₀]; exact hwf₀
      type := by rw [hmt₀]; exact htype
      mode := by rw [hmt₀]; exact hmode
      callback := by rw [hmt₀]; exact hcb
      callback_arg := by rw [hmt₀]
      period := by rw [hmt₀]
      tick := by rw [htk₀]; unfold add32 U32 at *; omega
      due := ⟨(s.mem t).RTOSTmrDelay, hd1, hd2, by
          rw [hmatch₀]; unfold add32 U32 at *; omega,
        ⟨by omega, by simp⟩, fun j hj1 hj2 hf => by have := hf.1; omega⟩ }
  refine ⟨s₀, hs₀, hcl₀, ?_⟩
  intro k
  obtain ⟨sₖ, hsₖ, hinvₖ⟩ := periodicArmed_ticks hinv hp1 hp2 hfuel k
  obtain ⟨sₖ', hsₖ', -, htk, hcl⟩ := periodicArmed_step hinvₖ hp1 hp2 hfuel
  exact ⟨sₖ, sₖ', hsₖ, hsₖ', htk, hcl⟩

/-- An instance of `periodic_fires_every_period`, the example of the spec: with ten
buckets and a `writable` `perr`, a periodic timer with delay 50 and period 30 started at
tick 0 fires at the tick steps 50, 80, 110, ... and at no other. -/
theorem periodic_fires_every_period_example :
    ∃ s₀, RTOSTmrStart 10 4 (some 1) periodicCreated = .ok (RTOS_TRUE, RTOS_ERR_NONE, s₀)
      ∧ s₀.calls = []
      ∧ ∀ k, ∃ sₖ sₖ', ticks 10 4 .writable k s₀ = .ok sₖ
          ∧ RTOSTmrTask 10 4 .writable sₖ = .ok sₖ'
          ∧ sₖ'.RTOSTmrTickCtr = add32 0 (k + 1)
          ∧ sₖ'.calls = sₖ.calls ++ (if firesAt 50 30 (k + 1) then [(7, 70)] else []) :=
  periodic_fires_every_period 10 4 periodicCreated [0] 1 7 periodicCreated_wellFormed
    rfl rfl rfl rfl (by decide) (by decide) (by decide) (by decide) (by decide)

/-- The count-down of the remaining ticks when `perr` is `writable`.  In a well-formed
state with no armed timer and a free slot `h`, a one-shot timer with delay `d`
(`1 ≤ d < 2^32`) is created, started, and `k < d` tick steps are taken.  All calls
return, and `RTOSTmrRemainGet` on the handle then returns `d - k` with
`RTOS_ERR_NONE`: `d` right after the start, and one less after every tick. -/
theorem remaining_ticks_count_down (M fuel : Nat) (s : TimerManager) (h : Nat)
    (rest : List Nat) (d period : Nat) (callback : Option Nat) (callback_arg name k : Nat)
    (hwf : WellFormed M s (h :: rest) (fun _ => []))
    (hd1 : 1 ≤ d) (hd2 : d < U32) (hk : k < d) (hfuel : 1 ≤ fuel) :
    ∃ s₁ s₂ s₃,
      RTOSTmrCreate d period RTOS_TMR_ONE_SHOT callback callback_arg name s
        = .ok (some h, RTOS_SUCCESS, s₁)
      ∧ RTOSTmrStart M fuel (some h) s₁ = .ok (RTOS_TRUE, RTOS_ERR_NONE, s₂)
      ∧ ticks M fuel .writable k s₂ = .ok s₃
      ∧ RTOSTmrRemainGet (some h) s₃ = (d - k, RTOS_ERR_NONE) := by
  obtain ⟨s₁, hs₁, hmh₁, -, hwf₁, htk₁, -⟩ :=
    create_wellFormed hwf d period RTOS_TMR_ONE_SHOT callback callback_arg name hd1
      (Or.inl rfl)
  obtain ⟨s₂, hs₂, hwf₂, hmh₂, -, -, htk₂, -⟩ :=
    start_stopped (fuel) hwf₁ (t := h) (by rw [hmh₁]) (by rw [hmh₁])
      (Or.inl (by rw [hmh₁])) (by show 0 + 1 < U8; decide)
  have hdelay : (s₁.mem h).RTOSTmrDelay = d := by rw [hmh₁]
  rw [hdelay, htk₁, soleTimer_cons] at hwf₂
  rw [hdelay, htk₁, hmh₁] at hmh₂
  have hmatch : (s₂.mem h).RTOSTmrMatch = add32 s.RTOSTmrTickCtr d := by rw [hmh₂]
  have htick : s₂.RTOSTmrTickCtr = s.RTOSTmrTickCtr := by rw [htk₂, htk₁]
  have ht0 := hwf.tick_lt
  have hticks := ticks_not_due (M := M) fuel rest (t := h) hfuel k s₂
    (by rw [hmatch]; exact hwf₂) (by rw [hmh₂]) (by rw [hmatch]; exact add32_lt _ _)
    (by
      intro i hi1 hi2
      rw [hmatch, htick]
      exact add32_ne hd2 (by omega))
  refine ⟨s₁, s₂, _, hs₁, hs₂, hticks, ?_⟩
  have hval : handleError { s₂ with RTOSTmrTickCtr := add32 s₂.RTOSTmrTickCtr k } (some h)
      = none :=
    handleError_valid (s := { s₂ with RTOSTmrTickCtr := add32 s₂.RTOSTmrTickCtr k })
      (by show (s₂.mem h).RTOSTmrType = _; rw [hmh₂])
      (Or.inr (Or.inl (by show (s₂.mem h).RTOSTmrState = _; rw [hmh₂])))
  rw [RTOSTmrRemainGet_valid hval]
  show (sub32 (s₂.mem h).RTOSTmrMatch (add32 s₂.RTOSTmrTickCtr k), RTOS_ERR_NONE) = _
  rw [hmatch, htick, sub32_add32 hd2 (by omega)]

/-- An instance of `remaining_ticks_count_down`: delay 5 and 3 ticks, in the state after
initialisation with a pool of two timers. -/
theorem remaining_ticks_count_down_example :
    ∃ s₁ s₂ s₃,
      RTOSTmrCreate 5 0 RTOS_TMR_ONE_SHOT (some 7) 70 0
          (RTOSTmrInit 10 2 (initialState fun _ => blankTimer))
        = .ok (some 1, RTOS_SUCCESS, s₁)
      ∧ RTOSTmrStart 10 4 (some 1) s₁ = .ok (RTOS_TRUE, RTOS_ERR_NONE, s₂)
      ∧ ticks 10 4 .writable 3 s₂ = .ok s₃
      ∧ RTOSTmrRemainGet (some 1) s₃ = (5 - 3, RTOS_ERR_NONE) :=
  remaining_ticks_count_down 10 4 _ 1 [0] 5 0 (some 7) 70 0 3
    (RTOSTmrInit_wellFormed 10 2 (fun _ => blankTimer) (by decide) (by decide))
    (by decide) (by decide) (by decide) (by decide)

/-- Start, stop and start again, when the stop returns.  A periodic timer that is
`Stopped` (or `Completed`) in a well-formed state is started, then stopped with
`RTOS_TMR_OPT_NONE`, or with a callback-invoking option when the timer has a callback,
and, when the tick counter has the value `c`, started again.  All three calls return
`RTOS_TRUE`; the second start sets `RTOSTmrMatch` to `c + delay` modulo `2^32` (the
first-arm rule), leaves the timer `Running`, and puts it at the head of the bucket of
that match tick: it occurs exactly once on the list of that bucket and not at all on
the lists of the other buckets. -/
theorem start_stop_start_first_arm (M fuel : Nat) (s : TimerManager) (free : List Nat)
    (L : Nat → List Nat) (t opt callback_arg c : Nat) (hwf : WellFormed M s free L)
    (htype : (s.mem t).RTOSTmrType = RTOS_TMR_TYPE)
    (hmode : (s.mem t).RTOSTmrOpt = RTOS_TMR_PERIODIC)
    (hst : (s.mem t).RTOSTmrState = RTOS_TMR_STATE_STOPPED
      ∨ (s.mem t).RTOSTmrState = RTOS_TMR_STATE_COMPLETED)
    (hopt : opt = RTOS_TMR_OPT_NONE
      ∨ ((opt = RTOS_TMR_OPT_CALLBACK ∨ opt = RTOS_TMR_OPT_CALLBACK_ARG)
        ∧ (s.mem t).RTOSTmrCallback ≠ none))
    (hc : c < U32)
    (hlen : ∀ i < M, (L i).length + 1 < U8)
    (hfuel : ∀ i < M, (L i).length + 1 ≤ fuel) :
    ∃ s₁ e s₂ s₃,
      RTOSTmrStart M fuel (some t) s = .ok (RTOS_TRUE, RTOS_ERR_NONE, s₁)
      ∧ RTOSTmrStop M fuel (some t) opt callback_arg s₁ = .ok (RTOS_TRUE, e, s₂)
      ∧ RTOSTmrStart M fuel (some t) { s₂ with RTOSTmrTickCtr := c }
          = .ok (RTOS_TRUE, RTOS_ERR_NONE, s₃)
      ∧ (s₃.mem t).RTOSTmrMatch = add32 c (s.mem t).RTOSTmrDelay
      ∧ (s₃.mem t).RTOSTmrState = RTOS_TMR_STATE_RUNNING
      ∧ WellFormed M s₃ free (Function.update L (add32 c (s.mem t).RTOSTmrDelay % M)
          (t :: L (add32 c (s.mem t).RTOSTmrDelay % M)))
      ∧ ∀ i < M, ∀ l, Chain s₃.mem (s₃.hash_table i).list_ptr l →
          l.count t = if i = add32 c (s.mem t).RTOSTmrDelay % M then 1 else 0 := by
  have hM := hwf.buckets_pos
  have htL : ∀ i < M, t ∉ L i :=
    not_mem_bucket_of_state hwf (by rcases hst with h | h <;> rw [h] <;> decide)
  -- the first start, whichever rule it applies
  obtain ⟨m₁, s₁, hs₁, hwf₁, hmt₁⟩ : ∃ m₁ s₁,
      RTOSTmrStart M fuel (some t) s = .ok (RTOS_TRUE, RTOS_ERR_NONE, s₁)
      ∧ WellFormed M s₁ free (Function.update L (m₁ % M) (t :: L (m₁ % M)))
      ∧ s₁.mem t =
          { s.mem t with
            RTOSTmrNext := (s.hash_table (m₁ % M)).list_ptr
            RTOSTmrPrev := none
            RTOSTmrMatch := m₁
            RTOSTmrState := RTOS_TMR_STATE_RUNNING } := by
    rcases hst with h | h
    · obtain ⟨s₁, h1, h2, h3, -⟩ := start_stopped (fuel) hwf htype h (Or.inr hmode)
        (hlen _ (Nat.mod_lt _ hM))
      exact ⟨_, s₁, h1, h2, h3⟩
    · obtain ⟨s₁, h1, h2, h3, -⟩ := start_completed (fuel) hwf htype h hmode
        (hlen _ (Nat.mod_lt _ hM))
      exact ⟨_, s₁, h1, h2, h3⟩
  have hb₁ : m₁ % M < M := Nat.mod_lt _ hM
  have hmatch₁ : (s₁.mem t).RTOSTmrMatch = m₁ := by rw [hmt₁]
  -- the stop
  have hlinked : t ∈ Function.update L (m₁ % M) (t :: L (m₁ % M))
      ((s₁.mem t).RTOSTmrMatch % M) := by
    rw [hmatch₁, Function.update_same]; exact List.mem_cons_self _ _
  obtain ⟨s₂, hs₂, hwf₂, hmt₂, -⟩ := stop_linked fuel opt callback_arg
    hwf₁ (by rw [hmt₁]; exact htype) hlinked
    (by rw [hmt₁]; exact hopt)
    (by rw [hmatch₁, Function.update_same]; exact hfuel _ hb₁)
  rw [hmatch₁, Function.update_same, List.erase_cons_head, Function.update_idem,
    Function.update_eq_self] at hwf₂
  -- the second start
  have hwf₂' := wellFormed_setTick hwf₂ hc
  have hdelay : (s₂.mem t).RTOSTmrDelay = (s.mem t).RTOSTmrDelay := by rw [hmt₂, hmt₁]
  obtain ⟨s₃, hs₃, hwf₃, hmt₃, -⟩ := start_stopped (fuel)
    (s := { s₂ with RTOSTmrTickCtr := c }) (t := t) hwf₂'
    (by show (s₂.mem t).RTOSTmrType = _; rw [hmt₂, hmt₁]; exact htype)
    (by show (s₂.mem t).RTOSTmrState = _; rw [hmt₂])
    (Or.inr (by show (s₂.mem t).RTOSTmrOpt = _; rw [hmt₂, hmt₁]; exact hmode))
    (by
      show (L (add32 c (s₂.mem t).RTOSTmrDelay % M)).length + 1 < U8
      exact hlen _ (Nat.mod_lt _ hM))
  have hm : add32 ({ s₂ with RTOSTmrTickCtr := c } : TimerManager).RTOSTmrTickCtr
      (({ s₂ with RTOSTmrTickCtr := c } : TimerManager).mem t).RTOSTmrDelay
      = add32 c (s.mem t).RTOSTmrDelay := by
    show add32 c (s₂.mem t).RTOSTmrDelay = _
    rw [hdelay]
  rw [hm] at hwf₃ hmt₃
  refine ⟨s₁, _, s₂, s₃, hs₁, hs₂, hs₃, by rw [hmt₃], by rw [hmt₃], hwf₃, ?_⟩
  intro i hi l hl
  have := chain_unique hl (dchain_chain (hwf₃.reg_chain i hi))
  subst this
  by_cases hib : i = add32 c (s.mem t).RTOSTmrDelay % M
  · subst hib
    rw [if_pos rfl, Function.update_same, List.count_cons_self,
      List.count_eq_zero_of_not_mem (htL _ hi)]
  · rw [if_neg hib, Function.update_noteq hib]
    exact List.count_eq_zero_of_not_mem (htL i hi)

/-- An instance of `start_stop_start_first_arm`: the periodic timer of `periodicCreated`,
which has a callback. -/
theorem start_stop_start_first_arm_example :
    ∃ s₁ e s₂ s₃,
      RTOSTmrStart 10 4 (some 1) periodicCreated = .ok (RTOS_TRUE, RTOS_ERR_NONE, s₁)
      ∧ RTOSTmrStop 10 4 (some 1) RTOS_TMR_OPT_CALLBACK 0 s₁ = .ok (RTOS_TRUE, e, s₂)
      ∧ RTOSTmrStart 10 4 (some 1) { s₂ with RTOSTmrTickCtr := 7 }
          = .ok (RTOS_TRUE, RTOS_ERR_NONE, s₃)
      ∧ (s₃.mem 1).RTOSTmrMatch = add32 7 50
      ∧ (s₃.mem 1).RTOSTmrState = RTOS_TMR_STATE_RUNNING
      ∧ WellFormed 10 s₃ [0] (Function.update (fun _ => []) (add32 7 50 % 10)
          (1 :: (fun _ => []) (add32 7 50 % 10)))
      ∧ ∀ i < 10, ∀ l, Chain s₃.mem (s₃.hash_table i).list_ptr l →
          l.count 1 = if i = add32 7 50 % 10 then 1 else 0 :=
  start_stop_start_first_arm 10 4 periodicCreated [0] (fun _ => []) 1
    RTOS_TMR_OPT_CALLBACK 0 7 periodicCreated_wellFormed rfl rfl (Or.inl rfl)
    (Or.inr ⟨Or.inl rfl, by decide⟩) (by decide)
    (fun _ _ => (by decide : ([] : List Nat).length + 1 < U8))
    (fun _ _ => (by decide : ([] : List Nat).length + 1 ≤ 4))

/-! ## The claims -/

/-- C1: `RTOSTmrStart` on a one-shot timer that is `Running` is not rejected
by the code.  In the run `startRunningOneShot` (delay 5, started at tick
0, second start at tick 2) the second call returns `RTOS_TRUE` with
`RTOS_ERR_NONE`, moves `RTOSTmrMatch` from 5 to 7, and links the timer into
bucket 7 while bucket 5 still points to it with a count of 1. -/
theorem start_running_one_shot_not_rejected :
    startRunningOneShot.map (fun r =>
        (r.1, r.2.1, (r.2.2.mem 0).RTOSTmrMatch, (r.2.2.mem 0).RTOSTmrState,
          r.2.2.hash_table 5, r.2.2.hash_table 7))
      = .ok (RTOS_TRUE, RTOS_ERR_NONE, 7, RTOS_TMR_STATE_RUNNING,
          ⟨some 0, 1⟩, ⟨some 0, 1⟩) := by
  rfl

/-- C2: a due one-shot timer that stands behind another due timer in its
bucket is not fired.  In the run `twoOneShotsDue` both one-shot timers have
`RTOSTmrMatch` 1 at tick 0.  With a `writable` `perr` the tick step invokes only
the callback of `Y` (function 8), and afterwards `X` (address 1) is still
`Running` in bucket 1, so `RTOSTmrStateGet` returns `RTOS_TMR_STATE_RUNNING`
without error.  With a `wild` `perr` the step faults at its first store through
`perr`, before any callback, so that `X` is not fired either. -/
theorem due_one_shot_behind_another_not_fired :
    (twoOneShotsDue .writable).map (fun s =>
        (s.calls, s.RTOSTmrTickCtr, (s.mem 1).RTOSTmrMatch, RTOSTmrStateGet (some 1) s,
          s.hash_table 1, s.FreeTmrListPtr))
      = .ok ([(8, 80)], 1, 1, (RTOS_TMR_STATE_RUNNING, RTOS_ERR_NONE),
          ⟨some 1, 1⟩, some 0)
      ∧ (twoOneShotsDue .wild).map (fun s => s.calls) = .error Fault.wildStore := by
  exact ⟨rfl, rfl⟩

/-- C3: of two timers that are due at the same tick only the one started
last is fired.  In the run `twoTimersSameTick` the timers `A` and `B` both
have `RTOSTmrMatch` 1.  With a `writable` `perr` the tick step to 1 invokes only
the callback of `B` (function 8), re-arms `B` for tick 4 in bucket 4, and leaves
`A` (address 1) `Running` in bucket 1 with `RTOSTmrMatch` 1.  With a `wild` `perr`
the step faults at its first store through `perr`, and no callback is invoked. -/
theorem same_tick_timers_only_last_fired :
    (twoTimersSameTick .writable).map (fun s =>
        (s.calls, s.RTOSTmrTickCtr, (s.mem 1).RTOSTmrMatch, (s.mem 1).RTOSTmrState,
          (s.mem 0).RTOSTmrMatch, s.hash_table 1, s.hash_table 4))
      = .ok ([(8, 80)], 1, 1, RTOS_TMR_STATE_RUNNING, 4, ⟨some 1, 1⟩, ⟨some 0, 1⟩)
      ∧ (twoTimersSameTick .wild).map (fun s => s.calls) = .error Fault.wildStore := by
  exact ⟨rfl, rfl⟩

/-- C4 fails in the code.  A periodic timer with a delay `d` of at least 1 is started
from `Stopped` when the tick counter is `c`, in a well-formed state in which no timer
is armed; the start succeeds without invoking the callback.  Let `perr` be `wild`.
Then tick steps return, and only advance the counter, as long as none of them scans
the bucket of `c + d`, in which the timer is; the first step that scans it faults in
the store of `RTOSTmrRemainGet` through `perr`.  So the run of `k` steps does not
return for any `k` from `d` on, and whenever it returns, `k` is below `d` and no
callback has been invoked: the timer never fires. -/
theorem periodic_first_scan_faults (M fuel : Nat) (s : TimerManager) (free : List Nat)
    (t : Nat) (hwf : WellFormed M s free (fun _ => []))
    (htype : (s.mem t).RTOSTmrType = RTOS_TMR_TYPE)
    (hmode : (s.mem t).RTOSTmrOpt = RTOS_TMR_PERIODIC)
    (hst : (s.mem t).RTOSTmrState = RTOS_TMR_STATE_STOPPED)
    (hd1 : 1 ≤ (s.mem t).RTOSTmrDelay) (hfuel : 1 ≤ fuel) :
    ∃ s₀, RTOSTmrStart M fuel (some t) s = .ok (RTOS_TRUE, RTOS_ERR_NONE, s₀)
      ∧ s₀.calls = s.calls
      ∧ (∀ k, (∀ i, 1 ≤ i → i ≤ k → add32 s.RTOSTmrTickCtr i % M
            ≠ add32 s.RTOSTmrTickCtr (s.mem t).RTOSTmrDelay % M) →
          ticks M fuel .wild k s₀
            = .ok { s₀ with RTOSTmrTickCtr := add32 s.RTOSTmrTickCtr k })
      ∧ (∀ k, (∃ i, 1 ≤ i ∧ i ≤ k ∧ add32 s.RTOSTmrTickCtr i % M
            = add32 s.RTOSTmrTickCtr (s.mem t).RTOSTmrDelay % M) →
          ticks M fuel .wild k s₀ = .error .wildStore)
      ∧ (∀ k, (s.mem t).RTOSTmrDelay ≤ k → ticks M fuel .wild k s₀ = .error .wildStore)
      ∧ (∀ k sₖ, ticks M fuel .wild k s₀ = .ok sₖ →
          k < (s.mem t).RTOSTmrDelay ∧ sₖ.calls = s.calls) := by
  obtain ⟨s₀, hs₀, hwf₀, hmt₀, -, hcl₀, htk₀, -⟩ :=
    start_stopped (fuel) hwf htype hst (Or.inr hmode) (by show 0 + 1 < U8; decide)
  rw [soleTimer_cons] at hwf₀
  have hmatch₀ : (s₀.mem t).RTOSTmrMatch = add32 s.RTOSTmrTickCtr (s.mem t).RTOSTmrDelay := by
    rw [hmt₀]
  have hwf₀' : WellFormed M s₀ free (soleTimer M t (s₀.mem t).RTOSTmrMatch) := by
    rw [hmatch₀]; exact hwf₀
  have hok : ∀ k, (∀ i, 1 ≤ i → i ≤ k → add32 s.RTOSTmrTickCtr i % M
        ≠ add32 s.RTOSTmrTickCtr (s.mem t).RTOSTmrDelay % M) →
      ticks M fuel .wild k s₀
        = .ok { s₀ with RTOSTmrTickCtr := add32 s.RTOSTmrTickCtr k } := by
    intro k hk
    have := ticks_bucket_not_scanned fuel .wild free k s₀ hwf₀'
      (by rw [htk₀, hmatch₀]; exact hk)
    rw [htk₀] at this
    exact this
  have herr : ∀ k, (∃ i, 1 ≤ i ∧ i ≤ k ∧ add32 s.RTOSTmrTickCtr i % M
        = add32 s.RTOSTmrTickCtr (s.mem t).RTOSTmrDelay % M) →
      ticks M fuel .wild k s₀ = .error .wildStore := by
    intro k hk
    exact ticks_bucket_scanned free hfuel k s₀ hwf₀' (by rw [htk₀, hmatch₀]; exact hk)
  refine ⟨s₀, hs₀, hcl₀, hok, herr, ?_, ?_⟩
  · intro k hk
    exact herr k ⟨_, hd1, hk, rfl⟩
  · intro k sₖ hsₖ
    by_cases hex : ∃ i, 1 ≤ i ∧ i ≤ k ∧ add32 s.RTOSTmrTickCtr i % M
        = add32 s.RTOSTmrTickCtr (s.mem t).RTOSTmrDelay % M
    · rw [herr k hex] at hsₖ; cases hsₖ
    · have hall : ∀ i, 1 ≤ i → i ≤ k → add32 s.RTOSTmrTickCtr i % M
          ≠ add32 s.RTOSTmrTickCtr (s.mem t).RTOSTmrDelay % M :=
        fun i h1 h2 h3 => hex ⟨i, h1, h2, h3⟩
      rw [hok k hall] at hsₖ
      cases hsₖ
      refine ⟨?_, hcl₀⟩
      by_contra hlt
      exact hall _ hd1 (by omega) rfl

/-- Witness of `periodic_first_scan_faults`, the example of the spec: with ten buckets,
a periodic timer with delay 50 and period 30 is started at tick 0 and is in bucket 0.
Nine tick steps return; the tenth scans bucket 0 and faults, so that the run of 50
steps, at the end of which the timer is due for the first time, does not return. -/
theorem periodic_first_scan_faults_witness :
    ∃ s₀, RTOSTmrStart 10 4 (some 1) periodicCreated = .ok (RTOS_TRUE, RTOS_ERR_NONE, s₀)
      ∧ ticks 10 4 .wild 9 s₀ = .ok { s₀ with RTOSTmrTickCtr := add32 0 9 }
      ∧ ticks 10 4 .wild 10 s₀ = .error .wildStore
      ∧ ticks 10 4 .wild 50 s₀ = .error .wildStore :=
  let ⟨s₀, h1, _, h3, h4, h5, _⟩ :=
    periodic_first_scan_faults 10 4 periodicCreated [0] 1 periodicCreated_wellFormed
      rfl rfl rfl (by decide) (by decide)
  ⟨s₀, h1, h3 9 (fun i hi1 hi2 => by interval_cases i <;> decide),
    h4 10 ⟨10, by decide, by decide, by decide⟩, h5 50 (by decide)⟩

/-- C5, as stated, fails for a capacity of 256: `FreeTmrCount` is an `INT8U`
and is back at 0 after 256 increments, so the very first `RTOSTmrCreate`
reports `RTOS_ERR_TMR_NON_AVAIL`. -/
theorem pool_of_256_first_create_fails :
    (createAll [⟨1, 0, RTOS_TMR_ONE_SHOT, none, 0, 0⟩] (bootState 256)).map (fun r => r.1)
      = .ok [(none, RTOS_ERR_TMR_NON_AVAIL)] := by
  simp [createAll, Except.map, create_non_avail (bootState 256) 1 0 RTOS_TMR_ONE_SHOT none 0 0
    bootState_256_count.2 bootState_256_count.1 (le_refl 1) (Or.inl rfl)]

/-- C5, amended: for every pool capacity `k` up to 255 given at
initialisation, and every `k + 1` calls of `RTOSTmrCreate` with valid
arguments, the first `k` calls succeed and return the `k` distinct slots
`k - 1, ..., 0`, and the last call returns no handle and reports
`RTOS_ERR_TMR_NON_AVAIL`. -/
theorem pool_exhaustion (M k : Nat) (mem : Nat → RTOS_TMR) (args : List CreateArgs)
    (hM : 0 < M) (hk : k ≤ 255) (hlen : args.length = k + 1) (hv : ∀ a ∈ args, a.Valid) :
    (∃ s', createAll args (RTOSTmrInit M k (initialState mem))
        = .ok ((List.range k).reverse.map (fun h => (some h, RTOS_SUCCESS))
            ++ [(none, RTOS_ERR_TMR_NON_AVAIL)], s'))
      ∧ (List.range k).reverse.Nodup ∧ (List.range k).reverse.length = k := by
  have hwf := RTOSTmrInit_wellFormed M k mem hM (show k < U8 by unfold U8; omega)
  refine ⟨createAll_wellFormed _ args _ hwf (by simpa using hlen) hv, hwf.pool_nodup, by simp⟩

/-- Witness of `pool_exhaustion`: a pool of two timers and three calls. -/
theorem pool_exhaustion_witness :
    (∃ s', createAll [⟨1, 0, RTOS_TMR_ONE_SHOT, none, 0, 0⟩, ⟨2, 3, RTOS_TMR_PERIODIC, some 1, 0, 0⟩,
          ⟨1, 0, RTOS_TMR_ONE_SHOT, none, 0, 0⟩] (RTOSTmrInit 10 2 (initialState fun _ => blankTimer))
        = .ok ((List.range 2).reverse.map (fun h => (some h, RTOS_SUCCESS))
            ++ [(none, RTOS_ERR_TMR_NON_AVAIL)], s'))
      ∧ (List.range 2).reverse.Nodup ∧ (List.range 2).reverse.length = 2 :=
  pool_exhaustion 10 2 (fun _ => blankTimer) _ (by decide) (by decide) rfl
    (by
      intro a ha
      simp only [List.mem_cons, List.mem_singleton, List.not_mem_nil, or_false] at ha
      rcases ha with rfl | rfl | rfl <;> simp [CreateArgs.Valid, RTOS_TMR_PERIODIC])

/-- C6: `RTOSTmrCreate` in a well-formed state whose pool holds the free list
`free`.  A delay below 1 gives `RTOS_ERR_TMR_INVALID_DLY`; otherwise a
periodic mode with a period below 1 gives `RTOS_ERR_TMR_INVALID_PERIOD`;
otherwise an unknown mode gives `RTOS_ERR_TMR_INVALID_OPT`; otherwise an
empty pool gives `RTOS_ERR_TMR_NON_AVAIL`; in all four cases no handle is
returned and the state is unchanged.  Otherwise the head `h` of the free
list is returned with `RTOS_SUCCESS`, `FreeTmrCount` drops by one, the free
list is the rest, the timer at `h` is `Stopped` with the given delay,
period, mode, callback, argument and name, the state is well-formed for the
same bucket lists, and `h` is on the list of no bucket. -/
theorem RTOSTmrCreate_contract (M : Nat) (s : TimerManager) (free : List Nat)
    (L : Nat → List Nat) (hwf : WellFormed M s free L)
    (delay period option : Nat) (callback : Option Nat) (callback_arg name : Nat) :
    (delay < 1 →
      RTOSTmrCreate delay period option callback callback_arg name s
        = .ok (none, RTOS_ERR_TMR_INVALID_DLY, s))
    ∧ (1 ≤ delay → option = RTOS_TMR_PERIODIC → period < 1 →
      RTOSTmrCreate delay period option callback callback_arg name s
        = .ok (none, RTOS_ERR_TMR_INVALID_PERIOD, s))
    ∧ (1 ≤ delay → option ≠ RTOS_TMR_PERIODIC → option ≠ RTOS_TMR_ONE_SHOT →
      RTOSTmrCreate delay period option callback callback_arg name s
        = .ok (none, RTOS_ERR_TMR_INVALID_OPT, s))
    ∧ (1 ≤ delay → option = RTOS_TMR_ONE_SHOT ∨ (option = RTOS_TMR_PERIODIC ∧ 1 ≤ period) →
      free = [] →
      RTOSTmrCreate delay period option callback callback_arg name s
        = .ok (none, RTOS_ERR_TMR_NON_AVAIL, s))
    ∧ (1 ≤ delay → option = RTOS_TMR_ONE_SHOT ∨ (option = RTOS_TMR_PERIODIC ∧ 1 ≤ period) →
      ∀ h rest, free = h :: rest →
      ∃ s', RTOSTmrCreate delay period option callback callback_arg name s
          = .ok (some h, RTOS_SUCCESS, s')
        ∧ s'.FreeTmrCount + 1 = s.FreeTmrCount
        ∧ Chain s'.mem s'.FreeTmrListPtr rest
        ∧ s'.mem h = ⟨RTOS_TMR_TYPE, callback, callback_arg, none, none, 0, delay, period,
            name, option, RTOS_TMR_STATE_STOPPED⟩
        ∧ WellFormed M s' rest L
        ∧ ∀ i < M, ∀ l, Chain s'.mem (s'.hash_table i).list_ptr l → h ∉ l) := by
  refine ⟨?_, ?_, ?_, ?_, ?_⟩
  · intro hd
    simp [RTOSTmrCreate, hd]
  · intro hd ho hp
    have h1 : ¬ delay < 1 := by omega
    simp [RTOSTmrCreate, h1, ho, hp]
  · intro hd ho1 ho2
    have h1 : ¬ delay < 1 := by omega
    simp [RTOSTmrCreate, h1, ho1, ho2]
  · intro hd ho hfree
    subst hfree
    exact create_non_avail s delay period option callback callback_arg name hwf.pool_mutex
      hwf.pool_count hd ho
  · intro hd ho h rest hfree
    subst hfree
    obtain ⟨s', hs', hmh, hcnt, hwf', -⟩ :=
      create_wellFormed hwf delay period option callback callback_arg name hd ho
    refine ⟨s', hs', hcnt, hwf'.pool_chain, hmh, hwf', ?_⟩
    intro i hi l hl hmem
    have := chain_unique hl (dchain_chain (hwf'.reg_chain i hi))
    subst this
    exact not_mem_bucket_of_free hwf (List.mem_cons_self _ _) hi hmem

/-- Witness of `RTOSTmrCreate_contract`: the state after initialisation with
ten buckets and a pool of two timers. -/
theorem RTOSTmrCreate_contract_witness :
    ∃ s', RTOSTmrCreate 5 0 RTOS_TMR_ONE_SHOT (some 1) 0 0
          (RTOSTmrInit 10 2 (initialState fun _ => blankTimer))
        = .ok (some 1, RTOS_SUCCESS, s')
      ∧ s'.FreeTmrCount + 1 = (RTOSTmrInit 10 2 (initialState fun _ => blankTimer)).FreeTmrCount
      ∧ Chain s'.mem s'.FreeTmrListPtr [0]
      ∧ s'.mem 1 = ⟨RTOS_TMR_TYPE, some 1, 0, none, none, 0, 5, 0, 0, RTOS_TMR_ONE_SHOT,
          RTOS_TMR_STATE_STOPPED⟩
      ∧ WellFormed 10 s' [0] (fun _ => [])
      ∧ ∀ i < 10, ∀ l, Chain s'.mem (s'.hash_table i).list_ptr l → 1 ∉ l :=
  (RTOSTmrCreate_contract 10 _ _ _
    (RTOSTmrInit_wellFormed 10 2 (fun _ => blankTimer) (by decide) (by decide))
    5 0 RTOS_TMR_ONE_SHOT (some 1) 0 0).2.2.2.2 (by decide) (Or.inl rfl) 1 [0] rfl

/-- C7, as stated, fails when the delay is 0: the delay is checked first, so
a periodic timer with period 0 and delay 0 is refused with
`RTOS_ERR_TMR_INVALID_DLY`, not `RTOS_ERR_TMR_INVALID_PERIOD`. -/
theorem create_period_zero_delay_zero :
    (RTOSTmrCreate 0 0 RTOS_TMR_PERIODIC (some 1) 0 0 (bootState 1)).map (fun r => (r.1, r.2.1))
      = .ok (none, RTOS_ERR_TMR_INVALID_DLY) := by
  rfl

/-- C7, amended: `RTOSTmrCreate` with mode periodic, period 0 and a delay of
at least 1 returns no handle and reports `RTOS_ERR_TMR_INVALID_PERIOD`, for
every callback, argument, name and state; the state is unchanged. -/
theorem create_period_zero (delay : Nat) (callback : Option Nat) (callback_arg name : Nat)
    (s : TimerManager) (hd : 1 ≤ delay) :
    RTOSTmrCreate delay 0 RTOS_TMR_PERIODIC callback callback_arg name s
      = .ok (none, RTOS_ERR_TMR_INVALID_PERIOD, s) := by
  have h : ¬ delay < 1 := by omega
  simp [RTOSTmrCreate, h]

/-- Witness of `create_period_zero`: delay 3 in the state after
initialisation. -/
theorem create_period_zero_witness :
    RTOSTmrCreate 3 0 RTOS_TMR_PERIODIC (some 1) 0 0 (bootState 1)
      = .ok (none, RTOS_ERR_TMR_INVALID_PERIOD, bootState 1) :=
  create_period_zero 3 (some 1) 0 0 (bootState 1) (by decide)

/-- C8 fails in the code.  In a well-formed state with no armed timer and a free slot
`h`, a one-shot timer with delay `d` (`1 ≤ d < 2^32`) is created and started when the
tick counter is `c`, and `RTOSTmrRemainGet` on the handle returns `d`.  Let `perr` be
`wild` and `k < d`.  If one of the first `k` tick steps scans the bucket of `c + d`,
in which the timer is, the run of `k` steps faults in the store of `RTOSTmrRemainGet`
through `perr` and returns nothing; only if none does, the `k` steps return and
`RTOSTmrRemainGet` then returns `d - k` with `RTOS_ERR_NONE`. -/
theorem remaining_ticks_first_scan_faults (M fuel : Nat) (s : TimerManager) (h : Nat)
    (rest : List Nat) (d period : Nat) (callback : Option Nat) (callback_arg name k : Nat)
    (hwf : WellFormed M s (h :: rest) (fun _ => []))
    (hd1 : 1 ≤ d) (hd2 : d < U32) (hk : k < d) (hfuel : 1 ≤ fuel) :
    ∃ s₁ s₂,
      RTOSTmrCreate d period RTOS_TMR_ONE_SHOT callback callback_arg name s
        = .ok (some h, RTOS_SUCCESS, s₁)
      ∧ RTOSTmrStart M fuel (some h) s₁ = .ok (RTOS_TRUE, RTOS_ERR_NONE, s₂)
      ∧ RTOSTmrRemainGet (some h) s₂ = (d, RTOS_ERR_NONE)
      ∧ ((∃ i, 1 ≤ i ∧ i ≤ k ∧ add32 s.RTOSTmrTickCtr i % M = add32 s.RTOSTmrTickCtr d % M) →
          ticks M fuel .wild k s₂ = .error .wildStore)
      ∧ ((∀ i, 1 ≤ i → i ≤ k → add32 s.RTOSTmrTickCtr i % M ≠ add32 s.RTOSTmrTickCtr d % M) →
          ∃ s₃, ticks M fuel .wild k s₂ = .ok s₃
            ∧ RTOSTmrRemainGet (some h) s₃ = (d - k, RTOS_ERR_NONE)) := by
  obtain ⟨s₁, hs₁, hmh₁, -, hwf₁, htk₁, -⟩ :=
    create_wellFormed hwf d period RTOS_TMR_ONE_SHOT callback callback_arg name hd1
      (Or.inl rfl)
  obtain ⟨s₂, hs₂, hwf₂, hmh₂, -, -, htk₂, -⟩ :=
    start_stopped (fuel) hwf₁ (t := h) (by rw [hmh₁]) (by rw [hmh₁])
      (Or.inl (by rw [hmh₁])) (by show 0 + 1 < U8; decide)
  have hdelay : (s₁.mem h).RTOSTmrDelay = d := by rw [hmh₁]
  rw [hdelay, htk₁, soleTimer_cons] at hwf₂
  rw [hdelay, htk₁, hmh₁] at hmh₂
  have hmatch : (s₂.mem h).RTOSTmrMatch = add32 s.RTOSTmrTickCtr d := by rw [hmh₂]
  have htick : s₂.RTOSTmrTickCtr = s.RTOSTmrTickCtr := by rw [htk₂, htk₁]
  have ht0 := hwf.tick_lt
  have hwf₂' : WellFormed M s₂ rest (soleTimer M h (s₂.mem h).RTOSTmrMatch) := by
    rw [hmatch]; exact hwf₂
  have hrem : ∀ j, j ≤ d →
      RTOSTmrRemainGet (some h) { s₂ with RTOSTmrTickCtr := add32 s₂.RTOSTmrTickCtr j }
        = (d - j, RTOS_ERR_NONE) := by
    intro j hj
    have hval : handleError { s₂ with RTOSTmrTickCtr := add32 s₂.RTOSTmrTickCtr j } (some h)
        = none :=
      handleError_valid (s := { s₂ with RTOSTmrTickCtr := add32 s₂.RTOSTmrTickCtr j })
        (by show (s₂.mem h).RTOSTmrType = _; rw [hmh₂])
        (Or.inr (Or.inl (by show (s₂.mem h).RTOSTmrState = _; rw [hmh₂])))
    rw [RTOSTmrRemainGet_valid hval]
    show (sub32 (s₂.mem h).RTOSTmrMatch (add32 s₂.RTOSTmrTickCtr j), RTOS_ERR_NONE) = _
    rw [hmatch, htick, sub32_add32 hd2 hj]
  refine ⟨s₁, s₂, hs₁, hs₂, ?_, ?_, ?_⟩
  · have h0 := hrem 0 (Nat.zero_le d)
    have hc : add32 s₂.RTOSTmrTickCtr 0 = s₂.RTOSTmrTickCtr := by
      rw [htick]; unfold add32 U32 at *; omega
    rw [hc] at h0
    exact h0
  · intro hex
    exact ticks_bucket_scanned rest hfuel k s₂ hwf₂' (by rw [htick, hmatch]; exact hex)
  · intro hall
    refine ⟨_, ticks_bucket_not_scanned fuel .wild rest k s₂ hwf₂'
      (by rw [htick, hmatch]; exact hall), hrem k (by omega)⟩

/-- Witness of `remaining_ticks_first_scan_faults`: ten buckets, delay 15 and 5 ticks, in
the state after initialisation with a pool of two timers.  The timer is in bucket 5,
which the fifth tick step scans. -/
theorem remaining_ticks_first_scan_faults_witness :
    ∃ s₁ s₂,
      RTOSTmrCreate 15 0 RTOS_TMR_ONE_SHOT (some 7) 70 0
          (RTOSTmrInit 10 2 (initialState fun _ => blankTimer))
        = .ok (some 1, RTOS_SUCCESS, s₁)
      ∧ RTOSTmrStart 10 4 (some 1) s₁ = .ok (RTOS_TRUE, RTOS_ERR_NONE, s₂)
      ∧ RTOSTmrRemainGet (some 1) s₂ = (15, RTOS_ERR_NONE)
      ∧ ticks 10 4 .wild 5 s₂ = .error .wildStore :=
  let ⟨s₁, s₂, h1, h2, h3, h4, _⟩ :=
    remaining_ticks_first_scan_faults 10 4 _ 1 [0] 15 0 (some 7) 70 0 5
      (RTOSTmrInit_wellFormed 10 2 (fun _ => blankTimer) (by decide) (by decide))
      (by decide) (by decide) (by decide) (by decide)
  ⟨s₁, s₂, h1, h2, h3, h4 ⟨5, by decide, by decide, by decide⟩⟩

/-- C9 fails in the code for a timer without callback.  In the run
`stopWithoutCallback` a periodic timer is created without callback and started, and
the stop with `RTOS_TMR_OPT_CALLBACK`, a valid option, calls through the `NULL`
callback pointer (lines 285-286) and never returns, so that the second start is never
reached. -/
theorem stop_without_callback_faults :
    stopWithoutCallback.map (fun r => (r.1, r.2.1)) = .error Fault.nullCall := by
  have hwf : WellFormed 10 (bootState 2) [1, 0] (fun _ => []) :=
    bootState_wellFormed 2 (by decide)
  obtain ⟨s₁, hs₁, hmh₁, -, hwf₁, htk₁, -⟩ :=
    create_wellFormed hwf 50 30 RTOS_TMR_PERIODIC none 0 0 (by decide) (Or.inr ⟨rfl, by decide⟩)
  obtain ⟨s₂, hs₂, hwf₂, hmh₂, -⟩ :=
    start_stopped (4) hwf₁ (t := 1) (by rw [hmh₁]) (by rw [hmh₁])
      (Or.inr (by rw [hmh₁])) (by show 0 + 1 < U8; decide)
  have hmatch : (s₂.mem 1).RTOSTmrMatch
      = add32 s₁.RTOSTmrTickCtr (s₁.mem 1).RTOSTmrDelay := by rw [hmh₂]
  have hstop := stop_linked_null_callback 4 RTOS_TMR_OPT_CALLBACK 0
    hwf₂ (by rw [hmh₂, hmh₁]) (by rw [hmatch, Function.update_same]; simp)
    (by rw [hmh₂, hmh₁]) (Or.inl rfl)
    (by rw [hmatch, Function.update_same]; show 1 ≤ 4; decide)
  simp only [stopWithoutCallback, bind, Except.bind, hs₁, hs₂, hstop, Except.map]

/-- C10: `RTOSTmrStop` on a timer that is linked in the bucket of its match
tick (in a well-formed state these are `Running` timers) and has a
callback, with one of the three valid options: the call returns `RTOS_TRUE` without error; the timer is `Stopped`,
with its other data fields unchanged, and is on the list of no bucket; its
bucket holds the other timers in their old order and its count is one
lower; the other buckets and the data fields of all other timers are
untouched; the callback is invoked once with the timer's own argument for
`RTOS_TMR_OPT_CALLBACK`, once with `callback_arg` for
`RTOS_TMR_OPT_CALLBACK_ARG`, and not at all for `RTOS_TMR_OPT_NONE`. -/
theorem RTOSTmrStop_running (M fuel : Nat) (s : TimerManager) (free : List Nat)
    (L : Nat → List Nat) (t opt callback_arg f : Nat) (hwf : WellFormed M s free L)
    (htype : (s.mem t).RTOSTmrType = RTOS_TMR_TYPE)
    (hlinked : t ∈ L ((s.mem t).RTOSTmrMatch % M))
    (hcb : (s.mem t).RTOSTmrCallback = some f)
    (hopt : opt = RTOS_TMR_OPT_NONE ∨ opt = RTOS_TMR_OPT_CALLBACK
      ∨ opt = RTOS_TMR_OPT_CALLBACK_ARG)
    (hfuel : (L ((s.mem t).RTOSTmrMatch % M)).length ≤ fuel) :
    ∃ s', RTOSTmrStop M fuel (some t) opt callback_arg s = .ok (RTOS_TRUE, RTOS_ERR_NONE, s')
      ∧ s'.mem t =
          { s.mem t with
            RTOSTmrNext := none
            RTOSTmrPrev := none
            RTOSTmrState := RTOS_TMR_STATE_STOPPED }
      ∧ (∀ i < M, ∀ l, Chain s'.mem (s'.hash_table i).list_ptr l → t ∉ l)
      ∧ WellFormed M s' free (Function.update L ((s.mem t).RTOSTmrMatch % M)
          ((L ((s.mem t).RTOSTmrMatch % M)).erase t))
      ∧ (s'.hash_table ((s.mem t).RTOSTmrMatch % M)).timer_count + 1
          = (s.hash_table ((s.mem t).RTOSTmrMatch % M)).timer_count
      ∧ (∀ i, i ≠ (s.mem t).RTOSTmrMatch % M → s'.hash_table i = s.hash_table i)
      ∧ (∀ a, a ≠ t → SameData (s'.mem a) (s.mem a))
      ∧ (opt = RTOS_TMR_OPT_CALLBACK →
          s'.calls = s.calls ++ [(f, (s.mem t).RTOSTmrCallbackArg)])
      ∧ (opt = RTOS_TMR_OPT_CALLBACK_ARG → s'.calls = s.calls ++ [(f, callback_arg)])
      ∧ (opt = RTOS_TMR_OPT_NONE → s'.calls = s.calls) := by
  have hb : (s.mem t).RTOSTmrMatch % M < M := Nat.mod_lt _ hwf.buckets_pos
  have hopt' : opt = RTOS_TMR_OPT_NONE
      ∨ ((opt = RTOS_TMR_OPT_CALLBACK ∨ opt = RTOS_TMR_OPT_CALLBACK_ARG)
        ∧ (s.mem t).RTOSTmrCallback ≠ none) := by
    rcases hopt with h | h | h
    · exact Or.inl h
    · exact Or.inr ⟨Or.inl h, by rw [hcb]; simp⟩
    · exact Or.inr ⟨Or.inr h, by rw [hcb]; simp⟩
  obtain ⟨s', hs', hwf', hmt, hdata, hcalls, -, -, -, hht⟩ :=
    stop_linked fuel opt callback_arg hwf htype hlinked hopt' hfuel
  have herr : (if (s.mem t).RTOSTmrCallback = none then RTOS_ERR_TMR_NO_CALLBACK
      else RTOS_ERR_NONE) = RTOS_ERR_NONE := by rw [hcb]; simp
  rw [herr] at hs'
  refine ⟨s', hs', hmt, ?_, hwf', ?_, ?_, hdata, ?_, ?_, ?_⟩
  · intro i hi l hl hmem
    have := chain_unique hl (dchain_chain (hwf'.reg_chain i hi))
    subst this
    by_cases hib : i = (s.mem t).RTOSTmrMatch % M
    · subst hib
      simp only [Function.update_same] at hmem
      exact ((List.Nodup.mem_erase_iff (hwf.reg_nodup _ hb)).1 hmem).1 rfl
    · simp only [Function.update_noteq hib] at hmem
      exact hib (bucket_disjoint hwf hi hb hmem hlinked)
  · rw [hht]
    simp only [Function.update_same]
    have h1 := hwf.reg_count _ hb
    have h2 := hwf.reg_bound _ hb
    have h3 := List.length_pos_of_mem hlinked
    rw [h1, dec8_of_pos h3 h2]
    omega
  · intro i hi
    rw [hht, Function.update_noteq hi]
  · intro h
    rw [hcalls, hcb, h]; rfl
  · intro h
    rw [hcalls, hcb, h]; rfl
  · intro h
    rw [hcalls, hcb, h]; simp [stopCalls, RTOS_TMR_OPT_NONE, RTOS_TMR_OPT_CALLBACK,
      RTOS_TMR_OPT_CALLBACK_ARG]

/-- Witness of `RTOSTmrStop_running`: the running timer of `periodicRunning`
is stopped with `RTOS_TMR_OPT_CALLBACK_ARG` and the argument 9. -/
theorem RTOSTmrStop_running_witness :
    ∃ s', RTOSTmrStop 10 4 (some 1) RTOS_TMR_OPT_CALLBACK_ARG 9 periodicRunning
        = .ok (RTOS_TRUE, RTOS_ERR_NONE, s')
      ∧ (s'.mem 1).RTOSTmrState = RTOS_TMR_STATE_STOPPED
      ∧ (∀ i < 10, ∀ l, Chain s'.mem (s'.hash_table i).list_ptr l → 1 ∉ l)
      ∧ s'.calls = [(7, 9)] :=
  let ⟨s', h1, h2, h3, _, _, _, _, _, h9, _⟩ :=
    RTOSTmrStop_running 10 4 periodicRunning [0] (Function.update (fun _ => []) 0 [1]) 1
      RTOS_TMR_OPT_CALLBACK_ARG 9 7 periodicRunning_wellFormed rfl (by decide) rfl
      (Or.inr (Or.inr rfl)) (by decide)
  ⟨s', h1, by rw [h2], h3, h9 rfl⟩

/-- C11 fails in the code.  `RTOSTmrStop` on a timer that is linked in the bucket of its
match tick (in a well-formed state these are the `Running` timers) and has no
callback.  With a callback-invoking option the call does not return: line 276 records
`RTOS_ERR_TMR_NO_CALLBACK` and goes on, and lines 285-290 call through the `NULL`
callback.  With `RTOS_TMR_OPT_NONE` the call returns `RTOS_TRUE` and stores
`RTOS_ERR_TMR_NO_CALLBACK`, although no callback was asked for; the timer is `Stopped`
and on the list of no bucket, and nothing was invoked. -/
theorem RTOSTmrStop_unset_callback (M fuel : Nat) (s : TimerManager)
    (free : List Nat) (L : Nat → List Nat) (t opt callback_arg : Nat)
    (hwf : WellFormed M s free L)
    (htype : (s.mem t).RTOSTmrType = RTOS_TMR_TYPE)
    (hlinked : t ∈ L ((s.mem t).RTOSTmrMatch % M))
    (hcb : (s.mem t).RTOSTmrCallback = none)
    (hfuel : (L ((s.mem t).RTOSTmrMatch % M)).length ≤ fuel) :
    ((opt = RTOS_TMR_OPT_CALLBACK ∨ opt = RTOS_TMR_OPT_CALLBACK_ARG) →
        RTOSTmrStop M fuel (some t) opt callback_arg s = .error .nullCall)
      ∧ (opt = RTOS_TMR_OPT_NONE →
        ∃ s', RTOSTmrStop M fuel (some t) opt callback_arg s
            = .ok (RTOS_TRUE, RTOS_ERR_TMR_NO_CALLBACK, s')
          ∧ (s'.mem t).RTOSTmrState = RTOS_TMR_STATE_STOPPED
          ∧ (∀ i < M, ∀ l, Chain s'.mem (s'.hash_table i).list_ptr l → t ∉ l)
          ∧ s'.calls = s.calls) := by
  have hb : (s.mem t).RTOSTmrMatch % M < M := Nat.mod_lt _ hwf.buckets_pos
  constructor
  · intro hopt
    exact stop_linked_null_callback fuel opt callback_arg hwf htype hlinked hcb hopt hfuel
  · intro hopt
    obtain ⟨s', hs', hwf', hmt, -, hcl, -⟩ :=
      stop_linked fuel opt callback_arg hwf htype hlinked (Or.inl hopt) hfuel
    rw [hcb, if_pos rfl] at hs'
    refine ⟨s', hs', by rw [hmt], ?_, ?_⟩
    · intro i hi l hl hmem
      have := chain_unique hl (dchain_chain (hwf'.reg_chain i hi))
      subst this
      by_cases hib : i = (s.mem t).RTOSTmrMatch % M
      · subst hib
        simp only [Function.update_same] at hmem
        exact ((List.Nodup.mem_erase_iff (hwf.reg_nodup _ hb)).1 hmem).1 rfl
      · simp only [Function.update_noteq hib] at hmem
        exact hib (bucket_disjoint hwf hi hb hmem hlinked)
    · rw [hcl, hopt, hcb]
      simp [stopCalls, RTOS_TMR_OPT_NONE, RTOS_TMR_OPT_CALLBACK, RTOS_TMR_OPT_CALLBACK_ARG]

/-- Witness of `RTOSTmrStop_unset_callback`: the running timer of `silentRunning`, which
has no callback, is stopped with `RTOS_TMR_OPT_CALLBACK`. -/
theorem RTOSTmrStop_unset_callback_witness :
    RTOSTmrStop 10 4 (some 1) RTOS_TMR_OPT_CALLBACK 0 silentRunning = .error .nullCall :=
  (RTOSTmrStop_unset_callback 10 4 silentRunning [0] (Function.update (fun _ => []) 0 [1]) 1
    RTOS_TMR_OPT_CALLBACK 0 silentRunning_wellFormed rfl (by decide) rfl (by decide)).1
    (Or.inl rfl)

/-- C12: failure is atomic.  Whenever `RTOSTmrStart`, `RTOSTmrStop`, `RTOSTmrDel`,
`RTOSTmrNameGet`, `RTOSTmrStateGet` or `RTOSTmrRemainGet` (`apiCall` is any of them)
returns with an error code that is neither a success code nor the advisory
`RTOS_ERR_TMR_NO_CALLBACK`, in any state and for any handle, the whole manager state
(pool, registry, timer objects, tick counter) is the one before the call. -/
theorem failure_atomic (M fuel : Nat) (c : ApiCall) (ptmr : Option Nat)
    (s s' : TimerManager) (r : Nat) (e : RTOS_ERR)
    (h : apiCall M fuel c ptmr s = .ok (r, e, s')) (he : e.isFailure = true) : s' = s := by
  have h1 : e ≠ RTOS_ERR_NONE := by rintro rfl; exact absurd he (by decide)
  have h2 : e ≠ RTOS_SUCCESS := by rintro rfl; exact absurd he (by decide)
  have h3 : e ≠ RTOS_ERR_TMR_NO_CALLBACK := by rintro rfl; exact absurd he (by decide)
  cases c with
  | start => exact start_failure_atomic h h1
  | stop opt callback_arg => exact stop_failure_atomic h h1 h3
  | delete => exact del_failure_atomic h h2
  | nameGet => cases h; rfl
  | stateGet => cases h; rfl
  | remainGet => cases h; rfl

/-- Witness of `failure_atomic`: `RTOSTmrStop` on the timer of `periodicCreated`, which
is `Stopped`, fails with `RTOS_ERR_TMR_STOPPED`. -/
theorem failure_atomic_witness :
    apiCall 10 4 (.stop RTOS_TMR_OPT_NONE 0) (some 1) periodicCreated
        = .ok (RTOS_FALSE, RTOS_ERR_TMR_STOPPED, periodicCreated)
      ∧ RTOS_ERR.isFailure RTOS_ERR_TMR_STOPPED = true
      ∧ periodicCreated = periodicCreated :=
  have h : apiCall 10 4 (.stop RTOS_TMR_OPT_NONE 0) (some 1) periodicCreated
      = .ok (RTOS_FALSE, RTOS_ERR_TMR_STOPPED, periodicCreated) := by
    have hv : handleError periodicCreated (some 1) = none :=
      handleError_valid rfl (Or.inl rfl)
    have hs : (periodicCreated.mem 1).RTOSTmrState = RTOS_TMR_STATE_STOPPED := rfl
    simp [apiCall, RTOSTmrStop, hv, hs, RTOS_TMR_OPT_NONE]
  ⟨h, by decide, failure_atomic 10 4 (.stop RTOS_TMR_OPT_NONE 0) (some 1) periodicCreated
    periodicCreated RTOS_FALSE RTOS_ERR_TMR_STOPPED h (by decide)⟩

/-- C13: the validation that opens the six operations on a handle (`apiCall` is any of
them, `RTOSTmrStop` with any option, valid or not).  A `NULL` handle gives
`RTOS_ERR_TMR_INVALID`; otherwise a type tag other than `RTOS_TMR_TYPE` gives
`RTOS_ERR_TMR_INVALID_TYPE`; otherwise the state `Unused` gives
`RTOS_ERR_TMR_INACTIVE`; otherwise a state that is none of `Stopped`, `Running`,
`Completed` gives `RTOS_ERR_TMR_INVALID_STATE`; in all four cases the failure value
is returned (`RTOS_FALSE`, which like `NULL` is 0) and the state is unchanged.
Moreover, in a well-formed state and for a timer that is `Stopped`, `Completed`, or
linked in the bucket of its match tick, `RTOSTmrDel` succeeds, and after it both
`RTOSTmrStateGet` and a second `RTOSTmrDel` report `RTOS_ERR_TMR_INACTIVE`. -/
theorem handle_validation (M fuel : Nat) (c : ApiCall) (s : TimerManager) :
    apiCall M fuel c none s = .ok (RTOS_FALSE, RTOS_ERR_TMR_INVALID, s)
    ∧ (∀ p, (s.mem p).RTOSTmrType ≠ RTOS_TMR_TYPE →
        apiCall M fuel c (some p) s = .ok (RTOS_FALSE, RTOS_ERR_TMR_INVALID_TYPE, s))
    ∧ (∀ p, (s.mem p).RTOSTmrType = RTOS_TMR_TYPE →
        (s.mem p).RTOSTmrState = RTOS_TMR_STATE_UNUSED →
        apiCall M fuel c (some p) s = .ok (RTOS_FALSE, RTOS_ERR_TMR_INACTIVE, s))
    ∧ (∀ p, (s.mem p).RTOSTmrType = RTOS_TMR_TYPE →
        (s.mem p).RTOSTmrState ≠ RTOS_TMR_STATE_UNUSED →
        (s.mem p).RTOSTmrState ≠ RTOS_TMR_STATE_STOPPED →
        (s.mem p).RTOSTmrState ≠ RTOS_TMR_STATE_RUNNING →
        (s.mem p).RTOSTmrState ≠ RTOS_TMR_STATE_COMPLETED →
        apiCall M fuel c (some p) s = .ok (RTOS_FALSE, RTOS_ERR_TMR_INVALID_STATE, s))
    ∧ (∀ (free : List Nat) (L : Nat → List Nat) (t : Nat), WellFormed M s free L →
        (s.mem t).RTOSTmrType = RTOS_TMR_TYPE →
        ((s.mem t).RTOSTmrState = RTOS_TMR_STATE_STOPPED
          ∨ (s.mem t).RTOSTmrState = RTOS_TMR_STATE_COMPLETED
          ∨ t ∈ L ((s.mem t).RTOSTmrMatch % M)) →
        (L ((s.mem t).RTOSTmrMatch % M)).length ≤ fuel →
        free.length + 1 < U8 →
        ∃ s', RTOSTmrDel M fuel (some t) s = .ok (RTOS_TRUE, RTOS_SUCCESS, s')
          ∧ RTOSTmrStateGet (some t) s' = (RTOS_FALSE, RTOS_ERR_TMR_INACTIVE)
          ∧ RTOSTmrDel M fuel (some t) s' = .ok (RTOS_FALSE, RTOS_ERR_TMR_INACTIVE, s')) := by
  refine ⟨apiCall_invalid M fuel c rfl, ?_, ?_, ?_, ?_⟩
  · intro p hp
    exact apiCall_invalid M fuel c (by simp [handleError, hp])
  · intro p hp hs
    exact apiCall_invalid M fuel c (by
      simp [handleError, hp, hs, RTOS_TMR_STATE_UNUSED, RTOS_TMR_STATE_STOPPED,
        RTOS_TMR_STATE_RUNNING, RTOS_TMR_STATE_COMPLETED])
  · intro p hp h0 h1 h2 h3
    exact apiCall_invalid M fuel c (by simp [handleError, hp, h0, h1, h2, h3])
  · intro free L t hwf htype hst hfuel hlen
    have key : ∀ s' : TimerManager, (s'.mem t).RTOSTmrType = RTOS_TMR_TYPE →
        (s'.mem t).RTOSTmrState = RTOS_TMR_STATE_UNUSED →
        RTOSTmrStateGet (some t) s' = (RTOS_FALSE, RTOS_ERR_TMR_INACTIVE)
          ∧ RTOSTmrDel M fuel (some t) s' = .ok (RTOS_FALSE, RTOS_ERR_TMR_INACTIVE, s') := by
      intro s' h1 h2
      have hv : handleError s' (some t) = some RTOS_ERR_TMR_INACTIVE := by
        simp [handleError, h1, h2, RTOS_TMR_STATE_UNUSED, RTOS_TMR_STATE_STOPPED,
          RTOS_TMR_STATE_RUNNING, RTOS_TMR_STATE_COMPLETED]
      simp [RTOSTmrStateGet, RTOSTmrDel, hv]
    rcases hst with h | h | h
    · obtain ⟨s', hs', -, hmt, -⟩ := del_unlinked fuel hwf htype (Or.inl h) hfuel hlen
      exact ⟨_, hs', key _ (by simp [hmt, htype]) (by simp [hmt])⟩
    · obtain ⟨s', hs', -, hmt, -⟩ := del_unlinked fuel hwf htype (Or.inr h) hfuel hlen
      exact ⟨_, hs', key _ (by simp [hmt, htype]) (by simp [hmt])⟩
    · obtain ⟨s', hs', -, hmt, -⟩ := del_linked fuel hwf htype h hfuel hlen
      exact ⟨_, hs', key _ (by simp [hmt, htype]) (by simp [hmt])⟩

/-- Witness of `handle_validation`: the timer of `periodicCreated` is deleted. -/
theorem handle_validation_witness :
    ∃ s', RTOSTmrDel 10 4 (some 1) periodicCreated = .ok (RTOS_TRUE, RTOS_SUCCESS, s')
      ∧ RTOSTmrStateGet (some 1) s' = (RTOS_FALSE, RTOS_ERR_TMR_INACTIVE)
      ∧ RTOSTmrDel 10 4 (some 1) s' = .ok (RTOS_FALSE, RTOS_ERR_TMR_INACTIVE, s') :=
  (handle_validation 10 4 .delete periodicCreated).2.2.2.2 [0] (fun _ => []) 1
    periodicCreated_wellFormed rfl (Or.inl rfl) (by decide) (by decide)

/-- C14: `RTOSTmrDel` in a well-formed state whose pool holds fewer than 255 free
timers, on a timer that is `Stopped`, `Completed`, or `Running` and linked in the
bucket of its `RTOSTmrMatch`, returns `RTOS_TRUE` with `RTOS_SUCCESS`.  Afterwards the timer is `Unused` with delay and
period 0, it is the head of the pool free list with the old head behind it,
`FreeTmrCount` is one more, and the timer is on the list of no bucket: the state is
well-formed for the free list `t :: free` and the bucket lists with `t` erased, up to
`hash_table_mutex`.  The count of the timer's bucket is one less if the timer was
`Running` and unchanged otherwise, every other bucket is unchanged, every other timer
keeps all its fields but the links, and the tick counter and the callback trace are
unchanged.  The mutex of the hash table stays held exactly when the timer was not
`Running` and the bucket of its `RTOSTmrMatch` is empty. -/
theorem RTOSTmrDel_contract (M fuel : Nat) (s : TimerManager) (free : List Nat)
    (L : Nat → List Nat) (t : Nat) (hwf : WellFormed M s free L)
    (htype : (s.mem t).RTOSTmrType = RTOS_TMR_TYPE)
    (hst : (s.mem t).RTOSTmrState = RTOS_TMR_STATE_STOPPED
      ∨ (s.mem t).RTOSTmrState = RTOS_TMR_STATE_COMPLETED
      ∨ ((s.mem t).RTOSTmrState = RTOS_TMR_STATE_RUNNING
        ∧ t ∈ L ((s.mem t).RTOSTmrMatch % M)))
    (hfuel : (L ((s.mem t).RTOSTmrMatch % M)).length ≤ fuel)
    (hlen : free.length + 1 < U8) :
    ∃ s', RTOSTmrDel M fuel (some t) s = .ok (RTOS_TRUE, RTOS_SUCCESS, s')
      ∧ (s'.mem t).RTOSTmrState = RTOS_TMR_STATE_UNUSED
      ∧ (s'.mem t).RTOSTmrDelay = 0 ∧ (s'.mem t).RTOSTmrPeriod = 0
      ∧ WellFormed M { s' with hash_table_mutex := false } (t :: free)
          (Function.update L ((s.mem t).RTOSTmrMatch % M)
            ((L ((s.mem t).RTOSTmrMatch % M)).erase t))
      ∧ (∀ i < M, t ∉ Function.update L ((s.mem t).RTOSTmrMatch % M)
            ((L ((s.mem t).RTOSTmrMatch % M)).erase t) i)
      ∧ ((s.mem t).RTOSTmrState = RTOS_TMR_STATE_RUNNING →
          (s'.hash_table ((s.mem t).RTOSTmrMatch % M)).timer_count + 1
            = (s.hash_table ((s.mem t).RTOSTmrMatch % M)).timer_count)
      ∧ ((s.mem t).RTOSTmrState ≠ RTOS_TMR_STATE_RUNNING →
          (s'.hash_table ((s.mem t).RTOSTmrMatch % M)).timer_count
            = (s.hash_table ((s.mem t).RTOSTmrMatch % M)).timer_count)
      ∧ (∀ i, i ≠ (s.mem t).RTOSTmrMatch % M → s'.hash_table i = s.hash_table i)
      ∧ s'.FreeTmrListPtr = some t
      ∧ (s'.mem t).RTOSTmrNext = s.FreeTmrListPtr
      ∧ s'.FreeTmrCount = s.FreeTmrCount + 1
      ∧ (∀ a, a ≠ t → SameData (s'.mem a) (s.mem a))
      ∧ s'.RTOSTmrTickCtr = s.RTOSTmrTickCtr
      ∧ s'.calls = s.calls
      ∧ s'.hash_table_mutex = (decide ((s.mem t).RTOSTmrState ≠ RTOS_TMR_STATE_RUNNING)
          && (L ((s.mem t).RTOSTmrMatch % M)).isEmpty) :=
  del_valid fuel hwf htype hst hfuel hlen

/-- Witness of `RTOSTmrDel_contract`: the running timer of `periodicRunning` is
deleted. -/
theorem RTOSTmrDel_contract_witness :
    ∃ s', RTOSTmrDel 10 4 (some 1) periodicRunning = .ok (RTOS_TRUE, RTOS_SUCCESS, s')
      ∧ (s'.mem 1).RTOSTmrState = RTOS_TMR_STATE_UNUSED
      ∧ s'.FreeTmrListPtr = some 1
      ∧ s'.FreeTmrCount = periodicRunning.FreeTmrCount + 1 := by
  obtain ⟨s', h1, h2, -, -, -, -, -, -, -, h3, -, h4, -⟩ :=
    RTOSTmrDel_contract 10 4 periodicRunning [0] (Function.update (fun _ => []) 0 [1]) 1
      periodicRunning_wellFormed rfl (Or.inr (Or.inr ⟨rfl, by decide⟩)) (by decide) (by decide)
  exact ⟨s', h1, h2, h3, h4⟩

/-- C15: for a timer that is `Stopped`, `Running` or `Completed`, with 32-bit
`RTOSTmrMatch` and tick counter, `RTOSTmrRemainGet` stores `RTOS_ERR_NONE` and returns
`RTOSTmrMatch - RTOSTmrTickCtr` modulo `2^32`: the difference itself when the match
tick is not behind the counter, and `2^32 - (RTOSTmrTickCtr - RTOSTmrMatch)` when the
timer is overdue. -/
theorem RTOSTmrRemainGet_modular (s : TimerManager) (t : Nat)
    (htype : (s.mem t).RTOSTmrType = RTOS_TMR_TYPE)
    (hst : (s.mem t).RTOSTmrState = RTOS_TMR_STATE_STOPPED
      ∨ (s.mem t).RTOSTmrState = RTOS_TMR_STATE_RUNNING
      ∨ (s.mem t).RTOSTmrState = RTOS_TMR_STATE_COMPLETED)
    (hm : (s.mem t).RTOSTmrMatch < U32) (hc : s.RTOSTmrTickCtr < U32) :
    (RTOSTmrRemainGet (some t) s).2 = RTOS_ERR_NONE
      ∧ ((RTOSTmrRemainGet (some t) s).1 : Int)
          = (((s.mem t).RTOSTmrMatch : Int) - (s.RTOSTmrTickCtr : Int)) % (U32 : Int)
      ∧ (s.RTOSTmrTickCtr ≤ (s.mem t).RTOSTmrMatch →
          (RTOSTmrRemainGet (some t) s).1 = (s.mem t).RTOSTmrMatch - s.RTOSTmrTickCtr)
      ∧ ((s.mem t).RTOSTmrMatch < s.RTOSTmrTickCtr →
          (RTOSTmrRemainGet (some t) s).1
            = U32 - (s.RTOSTmrTickCtr - (s.mem t).RTOSTmrMatch)) := by
  rw [RTOSTmrRemainGet_valid (handleError_valid htype hst)]
  generalize (s.mem t).RTOSTmrMatch = m at *
  generalize s.RTOSTmrTickCtr = c at *
  unfold sub32 U32 at *
  refine ⟨rfl, ?_, ?_, ?_⟩
  · simp only []
    push_cast
    omega
  · intro h; simp only []; omega
  · intro h; simp only []; omega

/-- Witness of `RTOSTmrRemainGet_modular`: in `createdThenTick` the timer at address 1
has the match tick 0 and the counter is 1, so the timer is overdue. -/
theorem RTOSTmrRemainGet_modular_witness :
    (RTOSTmrRemainGet (some 1) createdThenTick).2 = RTOS_ERR_NONE
      ∧ ((RTOSTmrRemainGet (some 1) createdThenTick).1 : Int)
          = (((createdThenTick.mem 1).RTOSTmrMatch : Int)
              - (createdThenTick.RTOSTmrTickCtr : Int)) % (U32 : Int)
      ∧ (createdThenTick.RTOSTmrTickCtr ≤ (createdThenTick.mem 1).RTOSTmrMatch →
          (RTOSTmrRemainGet (some 1) createdThenTick).1
            = (createdThenTick.mem 1).RTOSTmrMatch - createdThenTick.RTOSTmrTickCtr)
      ∧ ((createdThenTick.mem 1).RTOSTmrMatch < createdThenTick.RTOSTmrTickCtr →
          (RTOSTmrRemainGet (some 1) createdThenTick).1
            = U32 - (createdThenTick.RTOSTmrTickCtr - (createdThenTick.mem 1).RTOSTmrMatch)) :=
  RTOSTmrRemainGet_modular createdThenTick 1 rfl (Or.inl rfl) (by decide) (by decide)

/-- C16: in a well-formed state whose pool is empty, `RTOSTmrCreate` with valid
arguments fails with `RTOS_ERR_TMR_NON_AVAIL`; `RTOSTmrDel` on a timer `t` that is
`Stopped`, `Completed`, or `Running` and linked in the bucket of its match tick,
succeeds; the next `RTOSTmrCreate` with valid arguments returns the handle `t` with
`RTOS_SUCCESS`; and the one after that fails with `RTOS_ERR_TMR_NON_AVAIL` again. -/
theorem delete_then_create_reuses_slot (M fuel : Nat) (s : TimerManager)
    (L : Nat → List Nat) (t : Nat) (a₀ a₁ a₂ : CreateArgs)
    (hwf : WellFormed M s [] L)
    (htype : (s.mem t).RTOSTmrType = RTOS_TMR_TYPE)
    (hst : (s.mem t).RTOSTmrState = RTOS_TMR_STATE_STOPPED
      ∨ (s.mem t).RTOSTmrState = RTOS_TMR_STATE_COMPLETED
      ∨ ((s.mem t).RTOSTmrState = RTOS_TMR_STATE_RUNNING
        ∧ t ∈ L ((s.mem t).RTOSTmrMatch % M)))
    (hfuel : (L ((s.mem t).RTOSTmrMatch % M)).length ≤ fuel)
    (h₀ : a₀.Valid) (h₁ : a₁.Valid) (h₂ : a₂.Valid) :
    RTOSTmrCreate a₀.delay a₀.period a₀.option a₀.callback a₀.callback_arg a₀.name s
        = .ok (none, RTOS_ERR_TMR_NON_AVAIL, s)
      ∧ ∃ s₁ s₂, RTOSTmrDel M fuel (some t) s = .ok (RTOS_TRUE, RTOS_SUCCESS, s₁)
        ∧ RTOSTmrCreate a₁.delay a₁.period a₁.option a₁.callback a₁.callback_arg a₁.name s₁
            = .ok (some t, RTOS_SUCCESS, s₂)
        ∧ RTOSTmrCreate a₂.delay a₂.period a₂.option a₂.callback a₂.callback_arg a₂.name s₂
            = .ok (none, RTOS_ERR_TMR_NON_AVAIL, s₂) := by
  have hc0 : s.FreeTmrCount = 0 := hwf.pool_count
  have hnone : s.FreeTmrListPtr = none := hwf.pool_chain
  refine ⟨create_non_avail s _ _ _ _ _ _ hwf.pool_mutex hc0 h₀.1 h₀.2, ?_⟩
  obtain ⟨s₁, hs₁, -, -, -, hwf₁, -, -, -, -, hfl, hnext, hfc, -⟩ :=
    del_valid fuel hwf htype hst hfuel (by decide)
  obtain ⟨s₂, hs₂, -, -, hfl₂, hfc₂, -, -, -, hpm₂, -⟩ :=
    create_success s₁ t a₁.delay a₁.period a₁.option a₁.callback a₁.callback_arg a₁.name
      hwf₁.pool_mutex (by rw [hfc, hc0]; decide) hfl h₁.1 h₁.2
  refine ⟨s₁, s₂, hs₁, hs₂, ?_⟩
  refine create_non_avail s₂ _ _ _ _ _ _ hpm₂ ?_ h₂.1 h₂.2
  rw [hfc₂, hfc, hc0]
  decide

/-- Witness of `delete_then_create_reuses_slot`: the only timer of `poolExhausted` is
deleted and its slot is handed out again. -/
theorem delete_then_create_reuses_slot_witness :
    RTOSTmrCreate 1 0 RTOS_TMR_ONE_SHOT none 0 0 poolExhausted
        = .ok (none, RTOS_ERR_TMR_NON_AVAIL, poolExhausted)
      ∧ ∃ s₁ s₂, RTOSTmrDel 10 4 (some 0) poolExhausted = .ok (RTOS_TRUE, RTOS_SUCCESS, s₁)
        ∧ RTOSTmrCreate 2 3 RTOS_TMR_PERIODIC (some 1) 0 0 s₁ = .ok (some 0, RTOS_SUCCESS, s₂)
        ∧ RTOSTmrCreate 1 0 RTOS_TMR_ONE_SHOT none 0 0 s₂
            = .ok (none, RTOS_ERR_TMR_NON_AVAIL, s₂) :=
  delete_then_create_reuses_slot 10 4 poolExhausted (fun _ => []) 0
    ⟨1, 0, RTOS_TMR_ONE_SHOT, none, 0, 0⟩ ⟨2, 3, RTOS_TMR_PERIODIC, some 1, 0, 0⟩
    ⟨1, 0, RTOS_TMR_ONE_SHOT, none, 0, 0⟩ poolExhausted_wellFormed rfl (Or.inl rfl) (by decide)
    ⟨by decide, Or.inl rfl⟩ ⟨by decide, Or.inr ⟨rfl, by decide⟩⟩ ⟨by decide, Or.inl rfl⟩

/-- C17: `RTOSTmrCreate` with a delay of at least 1 and a recognised mode (a periodic
one with a period of at least 1), in a state whose pool has a free slot `h` at its
head, returns the handle `h` with `RTOS_SUCCESS`, and `RTOSTmrStateGet` on that handle
right after returns `RTOS_TMR_STATE_STOPPED` with `RTOS_ERR_NONE`. -/
theorem create_then_stateGet (s : TimerManager) (h : Nat) (delay period option : Nat)
    (callback : Option Nat) (callback_arg name : Nat)
    (hm : s.timer_pool_mutex = false)
    (hc : s.FreeTmrCount ≠ 0) (hf : s.FreeTmrListPtr = some h)
    (hd : 1 ≤ delay)
    (ho : option = RTOS_TMR_ONE_SHOT ∨ (option = RTOS_TMR_PERIODIC ∧ 1 ≤ period)) :
    ∃ s', RTOSTmrCreate delay period option callback callback_arg name s
        = .ok (some h, RTOS_SUCCESS, s')
      ∧ RTOSTmrStateGet (some h) s' = (RTOS_TMR_STATE_STOPPED, RTOS_ERR_NONE) := by
  obtain ⟨s', hs', hmem, -⟩ :=
    create_success s h delay period option callback callback_arg name hm hc hf hd ho
  refine ⟨s', hs', ?_⟩
  have hv : handleError s' (some h) = none :=
    handleError_valid (by rw [hmem]) (Or.inl (by rw [hmem]))
  simp [RTOSTmrStateGet, hv, hmem]

/-- Witness of `create_then_stateGet`: a one-shot timer is created in a pool of one. -/
theorem create_then_stateGet_witness :
    ∃ s', RTOSTmrCreate 1 0 RTOS_TMR_ONE_SHOT none 0 0 (bootState 1)
        = .ok (some 0, RTOS_SUCCESS, s')
      ∧ RTOSTmrStateGet (some 0) s' = (RTOS_TMR_STATE_STOPPED, RTOS_ERR_NONE) :=
  create_then_stateGet (bootState 1) 0 1 0 RTOS_TMR_ONE_SHOT none 0 0 rfl (by decide) rfl
    (by decide) (Or.inl rfl)

/-- C18 fails in the code.  The state `staleSlot` is well-formed, with the free list
`[0]` and the timers 1 and 2 in bucket 1, and the one-shot timer 1 is due at the
next tick.  With a `wild` `perr` the tick step faults at its first store through
`perr`.  With a `writable` one the tick step fires and deletes timer 1 and then
follows its `RTOSTmrNext`, which after the deletion points into the pool free list:
the `Unused` timer 0 is marked `Completed` and, being of periodic mode from its
earlier use, started.  Afterwards timer 0 is `Running` at the head of bucket 1 while
it is still on the free list, which now runs on through the bucket (`[1, 0, 2]`, with
a count of 2): the state is well-formed for no lists. -/
theorem tick_breaks_membership :
    WellFormed 10 staleSlot [0] (Function.update (fun _ => []) 1 [1, 2])
      ∧ (RTOSTmrTask 10 4 .wild staleSlot).map (fun s => s.calls) = .error Fault.wildStore
      ∧ ∃ s', RTOSTmrTask 10 4 .writable staleSlot = .ok s'
        ∧ (s'.mem 0).RTOSTmrState = RTOS_TMR_STATE_RUNNING
        ∧ Chain s'.mem s'.FreeTmrListPtr [1, 0, 2]
        ∧ s'.FreeTmrCount = 2
        ∧ Chain s'.mem (s'.hash_table 1).list_ptr [0, 2]
        ∧ (s'.hash_table 1).timer_count = 2
        ∧ s'.calls = [(7, 70)]
        ∧ ∀ free L, ¬ WellFormed 10 s' free L := by
  refine ⟨by decide!, by decide!, ?_⟩
  have h : (RTOSTmrTask 10 4 .writable staleSlot).map (fun s' => decide (
      (s'.mem 0).RTOSTmrState = RTOS_TMR_STATE_RUNNING
        ∧ Chain s'.mem s'.FreeTmrListPtr [1, 0, 2]
        ∧ s'.FreeTmrCount = 2
        ∧ Chain s'.mem (s'.hash_table 1).list_ptr [0, 2]
        ∧ (s'.hash_table 1).timer_count = 2
        ∧ s'.calls = [(7, 70)])) = .ok true := by
    decide!
  obtain ⟨s', hs, h1, h2, h3, h4, h5, h6⟩ := except_map_decide h
  refine ⟨s', hs, h1, h2, h3, h4, h5, h6, ?_⟩
  intro free L hwf
  have hfree := chain_unique hwf.pool_chain h2
  have := hwf.pool_unused 0 (by rw [hfree]; decide)
  rw [h1] at this
  exact absurd this (by decide)

/-- C19 fails in the code.  In the run `startTwice` a one-shot timer is created,
started, and started again, from the initial state of a pool of one timer.  The
second `RTOSTmrStart` returns `RTOS_TRUE` and links the `Running` timer a second time,
in front of itself: the count of bucket 5 is 2 and the `RTOSTmrNext` of the timer
points to the timer itself, so the pointers of bucket 5 spell out no finite list and
the state is well-formed for no lists. -/
theorem start_twice_breaks_registry :
    ∃ s', startTwice = .ok (RTOS_TRUE, RTOS_ERR_NONE, s')
      ∧ (s'.mem 0).RTOSTmrState = RTOS_TMR_STATE_RUNNING
      ∧ (s'.mem 0).RTOSTmrMatch = 5
      ∧ s'.hash_table 5 = ⟨some 0, 2⟩
      ∧ (s'.mem 0).RTOSTmrNext = some 0
      ∧ (∀ l, ¬ Chain s'.mem (s'.hash_table 5).list_ptr l)
      ∧ ∀ free L, ¬ WellFormed 10 s' free L := by
  have h : startTwice.map (fun r => decide (r.1 = RTOS_TRUE ∧ r.2.1 = RTOS_ERR_NONE
      ∧ (r.2.2.mem 0).RTOSTmrState = RTOS_TMR_STATE_RUNNING
      ∧ (r.2.2.mem 0).RTOSTmrMatch = 5
      ∧ (r.2.2.hash_table 5).list_ptr = some 0 ∧ (r.2.2.hash_table 5).timer_count = 2
      ∧ (r.2.2.mem 0).RTOSTmrNext = some 0)) = .ok true := by
    decide!
  obtain ⟨⟨r, e, s'⟩, hs, h1, h2, h3, h4, h5, h6, h7⟩ := except_map_decide h
  simp only at h1 h2 h3 h4 h5 h6 h7
  subst h1 h2
  have hno : ∀ l, ¬ Chain s'.mem (s'.hash_table 5).list_ptr l := by
    rw [h5]; exact no_chain_of_self_loop h7
  refine ⟨s', hs, h3, h4, ?_, h7, hno, ?_⟩
  · cases hb : s'.hash_table 5
    rw [hb] at h5 h6
    simp only at h5 h6
    rw [h5, h6]
  · intro free L hwf
    exact hno _ (dchain_chain (hwf.reg_chain 5 (by decide)))

/-- C20: `RTOSTmrStart` on a periodic timer `t` that is linked in the bucket `b` of its
match tick (in a well-formed state these are the `Running` timers), when the tick
counter is `c`, provided that the bucket `b'` of `c + period` modulo `2^32`, if it is
another one, holds fewer than 255 timers.  The call returns `RTOS_TRUE` with
`RTOS_ERR_NONE`; the timer is `Running` with `RTOSTmrMatch` `c + period` modulo
`2^32`; the state is well-formed for the bucket lists in which `t` is erased from
bucket `b` and then put in front of bucket `b'`, all other timers in their old order;
`t` is the head of bucket `b'`, occurs once on its list and on no other; the count of
`b` is one less and that of `b'` one more, or the count is unchanged when `b = b'`;
the other counts, the data fields of the other timers, the tick counter and the
callback trace are unchanged. -/
theorem RTOSTmrStart_running_rearm (M fuel : Nat) (s : TimerManager) (free : List Nat)
    (L : Nat → List Nat) (t : Nat) (hwf : WellFormed M s free L)
    (htype : (s.mem t).RTOSTmrType = RTOS_TMR_TYPE)
    (hmode : (s.mem t).RTOSTmrOpt = RTOS_TMR_PERIODIC)
    (hlinked : t ∈ L ((s.mem t).RTOSTmrMatch % M))
    (hfuel : (L ((s.mem t).RTOSTmrMatch % M)).length ≤ fuel)
    (hlen : add32 s.RTOSTmrTickCtr (s.mem t).RTOSTmrPeriod % M ≠ (s.mem t).RTOSTmrMatch % M →
      (L (add32 s.RTOSTmrTickCtr (s.mem t).RTOSTmrPeriod % M)).length + 1 < U8) :
    ∃ s', RTOSTmrStart M fuel (some t) s = .ok (RTOS_TRUE, RTOS_ERR_NONE, s')
      ∧ (s'.mem t).RTOSTmrMatch = add32 s.RTOSTmrTickCtr (s.mem t).RTOSTmrPeriod
      ∧ (s'.mem t).RTOSTmrState = RTOS_TMR_STATE_RUNNING
      ∧ WellFormed M s' free
          (Function.update
            (Function.update L ((s.mem t).RTOSTmrMatch % M)
              ((L ((s.mem t).RTOSTmrMatch % M)).erase t))
            (add32 s.RTOSTmrTickCtr (s.mem t).RTOSTmrPeriod % M)
            (t :: Function.update L ((s.mem t).RTOSTmrMatch % M)
              ((L ((s.mem t).RTOSTmrMatch % M)).erase t)
              (add32 s.RTOSTmrTickCtr (s.mem t).RTOSTmrPeriod % M)))
      ∧ (s'.hash_table (add32 s.RTOSTmrTickCtr (s.mem t).RTOSTmrPeriod % M)).list_ptr = some t
      ∧ (∀ i < M, ∀ l, Chain s'.mem (s'.hash_table i).list_ptr l →
          l.count t = if i = add32 s.RTOSTmrTickCtr (s.mem t).RTOSTmrPeriod % M then 1 else 0)
      ∧ (add32 s.RTOSTmrTickCtr (s.mem t).RTOSTmrPeriod % M ≠ (s.mem t).RTOSTmrMatch % M →
          (s'.hash_table ((s.mem t).RTOSTmrMatch % M)).timer_count + 1
              = (s.hash_table ((s.mem t).RTOSTmrMatch % M)).timer_count
            ∧ (s'.hash_table (add32 s.RTOSTmrTickCtr (s.mem t).RTOSTmrPeriod % M)).timer_count
              = (s.hash_table (add32 s.RTOSTmrTickCtr (s.mem t).RTOSTmrPeriod % M)).timer_count
                + 1)
      ∧ (add32 s.RTOSTmrTickCtr (s.mem t).RTOSTmrPeriod % M = (s.mem t).RTOSTmrMatch % M →
          (s'.hash_table ((s.mem t).RTOSTmrMatch % M)).timer_count
            = (s.hash_table ((s.mem t).RTOSTmrMatch % M)).timer_count)
      ∧ (∀ i < M, i ≠ (s.mem t).RTOSTmrMatch % M →
          i ≠ add32 s.RTOSTmrTickCtr (s.mem t).RTOSTmrPeriod % M →
          (s'.hash_table i).timer_count = (s.hash_table i).timer_count)
      ∧ (∀ a, a ≠ t → SameData (s'.mem a) (s.mem a))
      ∧ s'.RTOSTmrTickCtr = s.RTOSTmrTickCtr ∧ s'.calls = s.calls := by
  have hM := hwf.buckets_pos
  have hb : (s.mem t).RTOSTmrMatch % M < M := Nat.mod_lt _ hM
  have hb' : add32 s.RTOSTmrTickCtr (s.mem t).RTOSTmrPeriod % M < M := Nat.mod_lt _ hM
  obtain ⟨s', hs', hwf', hmt, hma, hcl, htk, -, -⟩ :=
    start_running_periodic fuel hwf htype hmode hlinked hfuel hlen
  generalize hbd : (s.mem t).RTOSTmrMatch % M = b at *
  generalize hbd' : add32 s.RTOSTmrTickCtr (s.mem t).RTOSTmrPeriod % M = b' at *
  have hnd := hwf.reg_nodup b hb
  have hnotin : t ∉ (L b).erase t := fun h => ((List.Nodup.mem_erase_iff hnd).1 h).1 rfl
  have hother : ∀ i < M, i ≠ b → t ∉ L i := fun i hi hib h =>
    hib (bucket_disjoint hwf hi hb h (hbd ▸ hlinked))
  have hL1 : ∀ i < M, t ∉ Function.update L b ((L b).erase t) i := by
    intro i hi
    by_cases hib : i = b
    · rw [hib, Function.update_same]; exact hnotin
    · rw [Function.update_noteq hib]; exact hother i hi hib
  refine ⟨s', hs', hmt.2.1, hmt.1, hwf', ?_, ?_, ?_, ?_, ?_, hma, htk, hcl⟩
  · have := hwf'.reg_chain b' hb'
    rw [Function.update_same] at this
    exact this.1
  · intro i hi l hl
    have := chain_unique hl (dchain_chain (hwf'.reg_chain i hi))
    subst this
    by_cases hib : i = b'
    · subst hib
      rw [Function.update_same, if_pos rfl, List.count_cons_self,
        List.count_eq_zero_of_not_mem (hL1 _ hi)]
    · rw [Function.update_noteq hib, if_neg hib]
      exact List.count_eq_zero_of_not_mem (hL1 i hi)
  · intro hne
    have h1 := hwf'.reg_count b hb
    have h2 := hwf'.reg_count b' hb'
    rw [Function.update_noteq (Ne.symm hne), Function.update_same] at h1
    rw [Function.update_same, Function.update_noteq hne] at h2
    have h3 := hwf.reg_count b hb
    have h4 := hwf.reg_count b' hb'
    have h5 := List.length_erase_of_mem hlinked
    have h6 := List.length_pos_of_mem hlinked
    rw [List.length_cons] at h2
    constructor <;> omega
  · intro he
    subst he
    have h2 := hwf'.reg_count _ hb'
    rw [Function.update_same, Function.update_same] at h2
    have h3 := hwf.reg_count _ hb
    have h5 := List.length_erase_of_mem hlinked
    have h6 := List.length_pos_of_mem hlinked
    rw [List.length_cons] at h2
    omega
  · intro i hi h1 h2
    have h := hwf'.reg_count i hi
    rw [Function.update_noteq h2, Function.update_noteq h1] at h
    rw [h, hwf.reg_count i hi]

/-- Witness of `RTOSTmrStart_running_rearm`: the running timer of `periodicRunning`
(period 30, in bucket 0) is started again when the tick counter is 3, and moves to
bucket 3. -/
theorem RTOSTmrStart_running_rearm_witness :
    ∃ s', RTOSTmrStart 10 4 (some 1) { periodicRunning with RTOSTmrTickCtr := 3 }
        = .ok (RTOS_TRUE, RTOS_ERR_NONE, s')
      ∧ (s'.mem 1).RTOSTmrMatch = add32 3 30
      ∧ (s'.mem 1).RTOSTmrState = RTOS_TMR_STATE_RUNNING
      ∧ (s'.hash_table 3).list_ptr = some 1 :=
  let ⟨s', h1, h2, h3, _, h5, _⟩ :=
    RTOSTmrStart_running_rearm 10 4 { periodicRunning with RTOSTmrTickCtr := 3 } [0]
      (Function.update (fun _ => []) 0 [1]) 1
      (wellFormed_setTick periodicRunning_wellFormed (by decide)) rfl rfl (by decide)
      (by decide) (fun _ => by decide)
  ⟨s', h1, h2, h3, h5⟩

/-- C21: `insert_hash_entry` and `remove_hash_entry` on a well-formed registry
(`Registry`: the mutex is free and every bucket is a doubly linked list of distinct
timers hashed to it, with its count), whatever the states of the timers.  For a timer
`t` that is in no bucket, whose bucket `b` (`RTOSTmrMatch` modulo `M`) holds fewer than
255 timers, `insert_hash_entry` makes `t` the head of bucket `b`, in front of the old
list, and adds one to the count of `b`, while no other bucket and no data field of any
timer changes; the `remove_hash_entry` that follows returns the hash table and every
other timer object exactly to what they were, with the links of `t` `NULL`.  For a
timer that is not on the list of the bucket of its `RTOSTmrMatch`, `remove_hash_entry`
changes nothing but the mutex, which stays held when that bucket is empty.  For a timer
on that list, at any place, `remove_hash_entry` gives the list with `t` erased and the
others in their order, a count one lower, the other buckets unchanged, `t` on no list
with `NULL` links, and all data fields unchanged. -/
theorem registry_insert_remove_inverse (M fuel : Nat) (s : TimerManager)
    (L : Nat → List Nat) (t : Nat) (hreg : Registry M s L) :
    ((∀ i < M, t ∉ L i) → (L ((s.mem t).RTOSTmrMatch % M)).length + 1 < U8 →
      ∃ s' s'', insert_hash_entry M t s = .ok s'
        ∧ Registry M s' (Function.update L ((s.mem t).RTOSTmrMatch % M)
            (t :: L ((s.mem t).RTOSTmrMatch % M)))
        ∧ s'.hash_table = Function.update s.hash_table ((s.mem t).RTOSTmrMatch % M)
            ⟨some t, (s.hash_table ((s.mem t).RTOSTmrMatch % M)).timer_count + 1⟩
        ∧ (∀ a, SameData (s'.mem a) (s.mem a))
        ∧ remove_hash_entry M fuel (some t) s' = .ok s''
        ∧ Registry M s'' L
        ∧ s''.hash_table = s.hash_table
        ∧ (∀ a, a ≠ t → s''.mem a = s.mem a)
        ∧ s''.mem t = { s.mem t with RTOSTmrNext := none, RTOSTmrPrev := none })
    ∧ (t ∉ L ((s.mem t).RTOSTmrMatch % M) → (L ((s.mem t).RTOSTmrMatch % M)).length ≤ fuel →
      remove_hash_entry M fuel (some t) s
        = .ok { s with hash_table_mutex := (L ((s.mem t).RTOSTmrMatch % M)).isEmpty })
    ∧ (t ∈ L ((s.mem t).RTOSTmrMatch % M) → (L ((s.mem t).RTOSTmrMatch % M)).length ≤ fuel →
      ∃ s', remove_hash_entry M fuel (some t) s = .ok s'
        ∧ Registry M s' (Function.update L ((s.mem t).RTOSTmrMatch % M)
            ((L ((s.mem t).RTOSTmrMatch % M)).erase t))
        ∧ (s'.hash_table ((s.mem t).RTOSTmrMatch % M)).timer_count + 1
            = (s.hash_table ((s.mem t).RTOSTmrMatch % M)).timer_count
        ∧ (∀ i, i ≠ (s.mem t).RTOSTmrMatch % M → s'.hash_table i = s.hash_table i)
        ∧ (∀ i < M, ∀ l, Chain s'.mem (s'.hash_table i).list_ptr l → t ∉ l)
        ∧ (∀ a, SameData (s'.mem a) (s.mem a))
        ∧ (s'.mem t).RTOSTmrNext = none ∧ (s'.mem t).RTOSTmrPrev = none) := by
  have hb : (s.mem t).RTOSTmrMatch % M < M := Nat.mod_lt _ hreg.size_pos
  refine ⟨fun htL hlen => insert_remove_registry fuel hreg htL hlen,
    fun ht hfuel => remove_registry_unlinked hreg ht hfuel, ?_⟩
  intro ht hfuel
  obtain ⟨s', hs', hreg', hu, hht, -⟩ := remove_registry_linked fuel hreg ht (fun _ => hfuel)
  refine ⟨s', hs', hreg', ?_, ?_, ?_, fun a => unlinked_data hu a, by rw [hu.1], by rw [hu.1]⟩
  · rw [hht, Function.update_same]
    simp only []
    have h1 := hreg.counts _ hb
    have h2 := hreg.short _ hb
    have h3 := List.length_pos_of_mem ht
    rw [dec8_of_pos (by omega) (by omega)]
    omega
  · intro i hi
    rw [hht, Function.update_noteq hi]
  · intro i hi l hl hmem
    have := chain_unique hl (dchain_chain (hreg'.lists i hi))
    subst this
    by_cases hib : i = (s.mem t).RTOSTmrMatch % M
    · subst hib
      simp only [Function.update_same] at hmem
      exact ((List.Nodup.mem_erase_iff (hreg.distinct _ hb)).1 hmem).1 rfl
    · simp only [Function.update_noteq hib] at hmem
      have h1 := hreg.hashed i hi t hmem
      exact hib h1.symm

/-- Witness of `registry_insert_remove_inverse`: the timer of `periodicCreated`, which is
in no bucket, is inserted into bucket 0 and removed again. -/
theorem registry_insert_remove_inverse_witness :
    ∃ s' s'', insert_hash_entry 10 1 periodicCreated = .ok s'
      ∧ s'.hash_table = Function.update periodicCreated.hash_table 0 ⟨some 1, 1⟩
      ∧ remove_hash_entry 10 4 (some 1) s' = .ok s''
      ∧ s''.hash_table = periodicCreated.hash_table
      ∧ ∀ a, a ≠ 1 → s''.mem a = periodicCreated.mem a :=
  let ⟨s', s'', h1, _, h3, _, h5, _, h7, h8, _⟩ :=
    (registry_insert_remove_inverse 10 4 periodicCreated (fun _ => []) 1
      (registry_of_wellFormed periodicCreated_wellFormed)).1
      (fun _ _ h => by cases h) (by decide)
  ⟨s', s'', h1, h3, h5, h7, h8⟩

/-- C22 fails in the code.  In a well-formed state, where both mutexes are free, let
the timer `t` be `Stopped` or `Completed` while the bucket of its `RTOSTmrMatch` is
empty, as for a timer that was created and never started, or one whose stop emptied
its bucket.  Then `remove_hash_entry` returns through line 372 with
`hash_table_mutex` held, and so does `RTOSTmrDel`, which returns `RTOS_TRUE`.  In the
state it leaves, `insert_hash_entry` and `remove_hash_entry` never return, for any
timer, and on every other valid timer neither does `RTOSTmrDel`, nor `RTOSTmrStart`
(for a one-shot or periodic timer), nor `RTOSTmrStop` with a valid option (for a timer
that is not `Stopped`). -/
theorem delete_leaves_lock_held (M fuel : Nat) (s : TimerManager) (free : List Nat)
    (L : Nat → List Nat) (t : Nat) (hwf : WellFormed M s free L)
    (htype : (s.mem t).RTOSTmrType = RTOS_TMR_TYPE)
    (hst : (s.mem t).RTOSTmrState = RTOS_TMR_STATE_STOPPED
      ∨ (s.mem t).RTOSTmrState = RTOS_TMR_STATE_COMPLETED)
    (hempty : L ((s.mem t).RTOSTmrMatch % M) = [])
    (hlen : free.length + 1 < U8) :
    s.hash_table_mutex = false
      ∧ remove_hash_entry M fuel (some t) s = .ok { s with hash_table_mutex := true }
      ∧ ∃ s', RTOSTmrDel M fuel (some t) s = .ok (RTOS_TRUE, RTOS_SUCCESS, s')
        ∧ s'.hash_table_mutex = true
        ∧ (∀ u, insert_hash_entry M u s' = .error .deadlock)
        ∧ (∀ u, remove_hash_entry M fuel (some u) s' = .error .deadlock)
        ∧ ∀ u, u ≠ t → (s.mem u).RTOSTmrType = RTOS_TMR_TYPE →
            ((s.mem u).RTOSTmrState = RTOS_TMR_STATE_STOPPED
              ∨ (s.mem u).RTOSTmrState = RTOS_TMR_STATE_RUNNING
              ∨ (s.mem u).RTOSTmrState = RTOS_TMR_STATE_COMPLETED) →
            RTOSTmrDel M fuel (some u) s' = .error .deadlock
            ∧ (((s.mem u).RTOSTmrOpt = RTOS_TMR_ONE_SHOT
                ∨ (s.mem u).RTOSTmrOpt = RTOS_TMR_PERIODIC) →
              RTOSTmrStart M fuel (some u) s' = .error .deadlock)
            ∧ ((s.mem u).RTOSTmrState ≠ RTOS_TMR_STATE_STOPPED →
              ∀ opt callback_arg, (opt = RTOS_TMR_OPT_NONE ∨ opt = RTOS_TMR_OPT_CALLBACK
                  ∨ opt = RTOS_TMR_OPT_CALLBACK_ARG) →
                RTOSTmrStop M fuel (some u) opt callback_arg s' = .error .deadlock) := by
  have hb : (s.mem t).RTOSTmrMatch % M < M := Nat.mod_lt _ hwf.buckets_pos
  have hnr : (s.mem t).RTOSTmrState ≠ RTOS_TMR_STATE_RUNNING := by
    rcases hst with h | h <;> rw [h] <;> decide
  have htL : t ∉ L ((s.mem t).RTOSTmrMatch % M) := by rw [hempty]; exact List.not_mem_nil t
  have hrem : remove_hash_entry M fuel (some t) s = _ :=
    remove_hash_entry_unlinked hwf htL (by rw [hempty]; simp)
  obtain ⟨s₁, hs₁, -, -, hma, -⟩ :=
    del_unlinked fuel hwf htype hst (by rw [hempty]; simp) hlen
  rw [hempty] at hrem hs₁
  refine ⟨hwf.hash_mutex, hrem, _, hs₁, rfl, fun u => insert_hash_entry_locked M u rfl,
    fun u => remove_hash_entry_locked M fuel u rfl, ?_⟩
  intro u hut hty hsu
  obtain ⟨h1, -, h3, h4, -⟩ := hma u hut
  have hv : handleError { s₁ with hash_table_mutex := ([] : List Nat).isEmpty } (some u)
      = none :=
    handleError_valid (t := u) (show (s₁.mem u).RTOSTmrType = _ by rw [h3, hty])
      (show (s₁.mem u).RTOSTmrState = _ ∨ (s₁.mem u).RTOSTmrState = _
        ∨ (s₁.mem u).RTOSTmrState = _ by rw [h1]; exact hsu)
  refine ⟨del_locked M fuel rfl hv, ?_, ?_⟩
  · intro hmode
    exact start_locked M fuel rfl hv
      (show (s₁.mem u).RTOSTmrState = _ ∨ (s₁.mem u).RTOSTmrState = _
        ∨ (s₁.mem u).RTOSTmrState = _ by rw [h1]; exact hsu)
      (show (s₁.mem u).RTOSTmrOpt = _ ∨ (s₁.mem u).RTOSTmrOpt = _ by rw [h4]; exact hmode)
  · intro hns opt callback_arg hopt
    exact stop_locked M fuel opt callback_arg rfl hv
      (show (s₁.mem u).RTOSTmrState ≠ _ by rw [h1]; exact hns) hopt

/-- Witness of `delete_leaves_lock_held`: in `twoCreated` the periodic timer, never
started, is deleted, and the start of the one-shot timer then never returns. -/
theorem delete_leaves_lock_held_witness :
    twoCreated.hash_table_mutex = false
      ∧ ∃ s', RTOSTmrDel 10 4 (some 1) twoCreated = .ok (RTOS_TRUE, RTOS_SUCCESS, s')
        ∧ s'.hash_table_mutex = true
        ∧ RTOSTmrStart 10 4 (some 0) s' = .error .deadlock :=
  let ⟨h0, _, s', h1, h2, _, _, h5⟩ :=
    delete_leaves_lock_held 10 4 twoCreated [] (fun _ => []) 1 twoCreated_wellFormed
      (by decide!) (Or.inl (by decide!)) rfl (by decide)
  ⟨h0, s', h1, h2, (h5 0 (by decide) (by decide!) (Or.inl (by decide!))).2.1
    (Or.inl (by decide!))⟩

end TimerMgr
